import Mathlib

/-!
Orb federation messaging: witness-proof handler, pubsub, REST handlers, service lifecycle

A shallow embedding of

* `pkg/anchor/handler/proof/handler.go` (`WitnessProofHandler.HandleProof`),
* `pkg/activitypub/service/mocks/mockpubsub.go` (`MockPubSub`),
* `pkg/activitypub/service/mocks/mockundeliverablehandler.go` (`UndeliverableHandler`),
* `pkg/activitypub/service/service.go` (`Service.start`, `Service.stop`),
* `pkg/activitypub/resthandler/activityhandler.go` (`Activities`, `Activity`),
* `test/bdd/did_orb_steps.go` (`getLocalURL`),
* the witness store and the collection pages of `vocab`, as their tests and the
  specification describe them,

followed by theorems about them.  Collaborators that the Go code reaches through an
interface are parameters of the embedding; every call to one is recorded in a trace so
that "called exactly once" and "called before" are statements about a list.
-/

namespace Orb

/-! ## Common data -/

/-- A Go byte slice. -/
abbrev Bytes := List Nat

/-- An instant (`time.Time`), as a number of ticks. -/
abbrev Time := Int

/-- A Go error value: a plain message made when the error occurs (`errors.New`, `fmt.Errorf`
without `%w`), a message wrapping a cause (`fmt.Errorf` with `%w`), or the value of a
package-level error variable (`var ErrNotFound = errors.New(...)`), which is one value for the
whole program and is named here by the variable. -/
inductive Error where
  | msg (text : String)
  | wrap (text : String) (cause : Error)
  | sentinel (name : String) (text : String)
deriving DecidableEq, Repr

/-- The text `err.Error()` returns. -/
def Error.errorText : Error → String
  | .msg t => t
  | .wrap t c => t ++ ": " ++ c.errorText
  | .sentinel _ t => t

/-- The error `errors.Unwrap` returns, when there is one. -/
def Error.Unwrap : Error → Option Error
  | .msg _ => none
  | .wrap _ c => some c
  | .sentinel _ _ => none

/-- The bytes of a Go string literal written in ASCII (a Go string is a sequence of bytes). -/
def goString (s : String) : Bytes := s.toList.map Char.toNat

/-- The text of a byte string, as `%s` prints it in an error message. -/
def Bytes.text (b : Bytes) : String := String.mk (b.map Char.ofNat)

/-- A `*url.URL`, represented by the text its `String` method renders. -/
structure URL where
  text : String
deriving DecidableEq, Repr

/-- The method `(*url.URL).String`. -/
def URL.String (u : URL) : String := u.text

/-! ## The witness-proof handler (`pkg/anchor/handler/proof/handler.go`) -/

/-- A linked-data proof (`verifiable.Proof`, a JSON object), as its key/value pairs. -/
abbrev LDProof := List (String × String)

/-- The type `vct.Proof`: what the raw proof bytes unmarshal into.  The handler reads its
`Proof` field only. -/
structure VctProof where
  Context : List String
  Proof : LDProof
deriving DecidableEq, Repr

/-- The type `verifiable.Credential`, with the two fields the handler touches (`ID`, `Proofs`)
and the rest of the document kept as `Body`. -/
structure Credential where
  ID : String
  Body : String
  Proofs : List LDProof
deriving DecidableEq, Repr

/-- One observable action of `HandleProof`: a call to a collaborator or a send on the
downstream channel. -/
inductive Call where
  | Watch (anchorCredID : String) (endTime : Time) (proof : Bytes)
  | StoreGet (id : String)
  | AddProof (vcID witness : String) (p : Bytes)
  | Send (vc : Credential)
deriving DecidableEq, Repr

/-- The struct `Providers`: the collaborators of the handler, each a function of the
collaborators' joint state `σ`.  `Unmarshal` stands for `json.Unmarshal` into a `vct.Proof`. -/
structure Providers (σ : Type) where
  /-- The method `monitoringSvc.Watch`. -/
  Watch : String → Time → Bytes → σ → Option Error × σ
  /-- The method `vcStore.Get`. -/
  StoreGet : String → σ → Except Error Credential × σ
  /-- The method `witnessStore.AddProof`. -/
  AddProof : String → String → Bytes → σ → Option Error × σ
  /-- The function `json.Unmarshal(proof, &witnessProof)`. -/
  Unmarshal : Bytes → Except Error VctProof

/-- The struct `WitnessProofHandler` at run time: the state of its collaborators, the
credentials sent on `vcCh` so far (oldest first), and the trace of actions so far. -/
structure WitnessProofHandler (σ : Type) where
  world : σ
  vcCh : List Credential
  calls : List Call

/-- The method `WitnessProofHandler.HandleProof`.  Returns the error (`none` is Go's `nil`) and
the handler afterwards.  The credential returned by the store is a value: appending to its
proofs changes the credential that is sent, not what the store holds.  The send on `vcCh` is
taken to complete (a receiver is there); the log statements are left out. -/
def HandleProof {σ : Type} (P : Providers σ) (h : WitnessProofHandler σ) (witness : URL)
    (anchorCredID : String) (_startTime endTime : Time) (proof : Bytes) :
    Option Error × WitnessProofHandler σ :=
  match P.Watch anchorCredID endTime proof h.world with
  | (some err, w1) =>
    (some (.wrap ("failed to setup monitoring for anchor credential[" ++ anchorCredID ++ "]") err),
      { h with world := w1, calls := h.calls ++ [.Watch anchorCredID endTime proof] })
  | (none, w1) =>
    match P.Unmarshal proof with
    | .error err =>
      (some (.wrap ("failed to unmarshal witness proof for anchor credential["
          ++ anchorCredID ++ "]") err),
        { h with world := w1, calls := h.calls ++ [.Watch anchorCredID endTime proof] })
    | .ok witnessProof =>
      match P.StoreGet anchorCredID w1 with
      | (.error err, w2) =>
        (some (.wrap ("failed to retrieve anchor credential[" ++ anchorCredID ++ "]") err),
          { h with world := w2,
                   calls := h.calls ++ [.Watch anchorCredID endTime proof,
                                        .StoreGet anchorCredID] })
      | (.ok vc, w2) =>
        if vc.Proofs.length > 1 then
          (none,
            { h with world := w2,
                     calls := h.calls ++ [.Watch anchorCredID endTime proof,
                                          .StoreGet anchorCredID] })
        else
          match P.AddProof anchorCredID witness.String proof w2 with
          | (some err, w3) =>
            (some (.wrap ("failed to add witness[" ++ witness.String ++ "] proof for credential["
                ++ anchorCredID ++ "]") err),
              { h with world := w3,
                       calls := h.calls ++ [.Watch anchorCredID endTime proof,
                                            .StoreGet anchorCredID,
                                            .AddProof anchorCredID witness.String proof] })
          | (none, w3) =>
            let vc1 : Credential := { vc with Proofs := vc.Proofs ++ [witnessProof.Proof] }
            (none,
              { world := w3,
                vcCh := h.vcCh ++ [vc1],
                calls := h.calls ++ [.Watch anchorCredID endTime proof,
                                     .StoreGet anchorCredID,
                                     .AddProof anchorCredID witness.String proof,
                                     .Send vc1] })

/-- The actions a call added to the trace: what follows the first `n` entries. -/
def newCalls (n : Nat) (calls : List Call) : List Call := calls.drop n

/-- The arguments of the `Watch` calls in a trace, in order. -/
def watchCalls : List Call → List (String × Time × Bytes)
  | [] => []
  | .Watch i e p :: cs => (i, e, p) :: watchCalls cs
  | _ :: cs => watchCalls cs

/-- The arguments of the `Store.Get` calls in a trace, in order. -/
def storeGetCalls : List Call → List String
  | [] => []
  | .StoreGet i :: cs => i :: storeGetCalls cs
  | _ :: cs => storeGetCalls cs

/-- The arguments of the `WitnessStore.AddProof` calls in a trace, in order. -/
def addProofCalls : List Call → List (String × String × Bytes)
  | [] => []
  | .AddProof v w p :: cs => (v, w, p) :: addProofCalls cs
  | _ :: cs => addProofCalls cs

/-- The credentials sent on the downstream channel in a trace, in order. -/
def sendCalls : List Call → List Credential
  | [] => []
  | .Send vc :: cs => vc :: sendCalls cs
  | _ :: cs => sendCalls cs

/-! ## The collaborators of the handler, as the specification describes them -/

/-- The kind of a pending witness record (`proof.TypeBatch`, `proof.TypeSystem`). -/
inductive WitnessType where
  | Batch
  | System
deriving DecidableEq, Repr

/-- The type `proof.WitnessProof`: a witness record of an anchor credential; `Proof` is empty
while the record is pending. -/
structure WitnessProof where
  Kind : WitnessType
  Witness : String
  Proof : Bytes
deriving DecidableEq, Repr

/-- Modelled from the spec: the witness store (`pkg/store/witness`, whose implementation is not
among the sources; its test `witness_test.go` is).  The store keeps witness records tagged with
the anchor credential id they belong to, in insertion order. -/
structure WitnessStore where
  records : List (String × WitnessProof)
deriving DecidableEq, Repr

/-- Modelled from the spec: `Put(vcID, witnesses)` stores one record per witness under `vcID`. -/
def WitnessStore.Put (s : WitnessStore) (vcID : String) (ws : List WitnessProof) :
    WitnessStore :=
  { records := s.records ++ ws.map (fun w => (vcID, w)) }

/-- Modelled from the spec: `Get(vcID)` returns the records stored under `vcID`, and a
"not found" error when there is none. -/
def WitnessStore.Get (s : WitnessStore) (vcID : String) : Except Error (List WitnessProof) :=
  match (s.records.filter (fun r => r.1 == vcID)).map (fun r => r.2) with
  | [] => .error (.msg ("vcID[" ++ vcID ++ "] not found in the store"))
  | w :: ws => .ok (w :: ws)

/-- Whether a stored record is the one kept under `vcID` for `witness`. -/
def isRecordOf (vcID witness : String) (r : String × WitnessProof) : Bool :=
  r.1 == vcID && r.2.Witness == witness

/-- Writes the proof bytes `p` into a record when it is the one of `vcID` and `witness`. -/
def fillProof (vcID witness : String) (p : Bytes) (r : String × WitnessProof) :
    String × WitnessProof :=
  if isRecordOf vcID witness r then (r.1, { r.2 with Proof := p }) else r

/-- Modelled from the spec: `AddProof(vcID, witness, p)` fills `p` into every record stored under
`vcID` for `witness` (overwriting what was there), and fails with "not found" when no such
record exists. -/
def WitnessStore.AddProof (s : WitnessStore) (vcID witness : String) (p : Bytes) :
    Option Error × WitnessStore :=
  if s.records.any (isRecordOf vcID witness) then
    (none, { records := s.records.map (fillProof vcID witness p) })
  else
    (some (.msg ("witness[" ++ witness ++ "] not found for vcID[" ++ vcID ++ "]")), s)

/-- The slice a Go function returns next to its error: nil (empty) when there is an error. -/
def resultOf {α : Type} : Except Error (List α) → List α
  | .ok l => l
  | .error _ => []

/-- The error text says "not found" (what the store's tests check with `Contains`). -/
def Error.mentionsNotFound (e : Error) : Prop :=
  ∃ pre post : String, e.errorText = pre ++ "not found" ++ post

/-- Modelled from the spec: the collaborators of the witness-proof coordinator (the monitoring
service, the anchor-credential store and the witness store are not among the sources).  The
monitoring service records each watch it is asked for and fails with `monitorErr` when that is
set; the anchor-credential store is a read-only collection of credentials looked up by id. -/
structure World where
  monitorErr : Option Error
  watched : List (String × Time × Bytes)
  credentials : List Credential
  witnesses : WitnessStore
deriving DecidableEq, Repr

/-- Modelled from the spec: `Watch(anchorCredID, deadline, proof) → err`. -/
def World.Watch (id : String) (endTime : Time) (proof : Bytes) (w : World) :
    Option Error × World :=
  match w.monitorErr with
  | some e => (some e, w)
  | none => (none, { w with watched := w.watched ++ [(id, endTime, proof)] })

/-- Modelled from the spec: the anchor-credential store's `Get(vcID) → Credential`. -/
def World.StoreGet (id : String) (w : World) : Except Error Credential × World :=
  match w.credentials.find? (fun vc => vc.ID == id) with
  | some vc => (.ok vc, w)
  | none => (.error (.msg ("credential[" ++ id ++ "] not found")), w)

/-- The witness store's `AddProof`, as a collaborator acting on the `World`. -/
def World.AddProof (vcID witness : String) (p : Bytes) (w : World) : Option Error × World :=
  ((w.witnesses.AddProof vcID witness p).1,
    { w with witnesses := (w.witnesses.AddProof vcID witness p).2 })

/-- The handler's providers over the `World`; the JSON decoder stays a parameter. -/
def World.providers (unmarshal : Bytes → Except Error VctProof) : Providers World :=
  { Watch := World.Watch, StoreGet := World.StoreGet, AddProof := World.AddProof,
    Unmarshal := unmarshal }

/-- The bytes of the JSON document `{"proof":{"jws":"<jws>"}}`: a witness proof as a witness
sends it (compare `witnessProof` in `witness_test.go`), cut down to the one entry `jws`. -/
def proofDocument (jws : String) : Bytes :=
  goString "\x7b\x22proof\x22:\x7b\x22jws\x22:\x22" ++ goString jws ++ goString "\x22\x7d\x7d"

/-- Whether a byte is an ASCII letter or digit. -/
def isAlphanumByte (b : Nat) : Bool :=
  (48 ≤ b && b ≤ 57) || (65 ≤ b && b ≤ 90) || (97 ≤ b && b ≤ 122)

/-- A stand-in for `json.Unmarshal` into `vct.Proof`, for evaluating the handler on concrete
bytes.  It decodes the documents `{"proof":{"jws":"<jws>"}}` whose `jws` is made of ASCII
letters and digits, to what `json.Unmarshal` gives for them: no `@context` and a proof object
with the one entry `jws`.  Every other input is rejected: the empty input with Go's
"unexpected end of JSON input", the rest as malformed.  The theorems hold for any decoder; the
stand-in is evaluated only on documents of that form, on the empty input, and on bytes that are
not JSON. -/
def sampleUnmarshal (b : Bytes) : Except Error VctProof :=
  let opening := goString "\x7b\x22proof\x22:\x7b\x22jws\x22:\x22"
  let closing := goString "\x22\x7d\x7d"
  let value := (b.drop opening.length).take (b.length - opening.length - closing.length)
  if b = [] then .error (.msg "unexpected end of JSON input")
  else if b = opening ++ value ++ closing ∧ value.all isAlphanumByte then
    .ok { Context := [], Proof := [("jws", Bytes.text value)] }
  else .error (.msg "invalid character looking for beginning of value")

/-! ## The mock publisher-subscriber (`pkg/activitypub/service/mocks/mockpubsub.go`) -/

/-- The constant `maxBufferSize`: the capacity of every channel the mock makes. -/
def maxBufferSize : Nat := 5

/-- The constant `timeout`, in milliseconds. -/
def timeout : Nat := 100

/-- Modelled from the spec: the constant `service.UndeliverableTopic` (package `spi`, not among
the sources), the reserved `undeliverable` topic. -/
def UndeliverableTopic : String := "undeliverable"

/-- A watermill `message.Message`: identifier, metadata and payload.  Its acknowledgement
channels are private to each copy and carry no data of their own; which of them fires is an
argument of `check`. -/
structure Message where
  UUID : String
  Metadata : List (String × String)
  Payload : Bytes
deriving DecidableEq, Repr

/-- The method `Message.Copy`: a new message with the same identifier, metadata and payload
(and acknowledgement channels of its own). -/
def Message.Copy (msg : Message) : Message :=
  { UUID := msg.UUID, Metadata := msg.Metadata, Payload := msg.Payload }

/-- A buffered Go channel of messages of capacity `maxBufferSize`: what is queued (oldest
first) and whether it has been closed. -/
structure Chan where
  buf : List Message
  closed : Bool
deriving DecidableEq, Repr

/-- The function `make(chan *message.Message, maxBufferSize)`. -/
def Chan.make : Chan := { buf := [], closed := false }

/-- How a Go statement that may park or panic ends: it returns a value, it is parked on a
channel operation that cannot proceed in the current state, or it panics. -/
inductive Outcome (α : Type) where
  | returned (a : α)
  | blocked
  | panicked
deriving DecidableEq, Repr

/-- The statement `c <- msg` on a channel that is not nil: panics when the channel is closed,
parks when the buffer is full, and queues the message otherwise. -/
def Chan.send (c : Chan) (msg : Message) : Outcome Chan :=
  if c.closed then .panicked
  else if c.buf.length < maxBufferSize then .returned { c with buf := c.buf ++ [msg] }
  else .blocked

/-- The struct `MockPubSub`.  Channels made by `Subscribe` live in `streams` and are referred
to by their index there (a subscriber holds such an index); `MsgChan` maps a topic to the index
of its channel.  `checks` lists the messages for which a `check` goroutine has been started. -/
structure MockPubSub where
  Err : Option Error
  MsgChan : List (String × Nat)
  Timeout : Nat
  undeliverableChan : Chan
  closed : Bool
  streams : List Chan
  checks : List Message
deriving DecidableEq, Repr

/-- The function `NewPubSub` (the `handleUndeliverable` goroutine it starts is run by calling
`handleUndeliverable`). -/
def NewPubSub : MockPubSub :=
  { Err := none, MsgChan := [], Timeout := timeout, undeliverableChan := Chan.make,
    closed := false, streams := [], checks := [] }

/-- The method `WithError`. -/
def MockPubSub.WithError (m : MockPubSub) (err : Option Error) : MockPubSub :=
  { m with Err := err }

/-- The map read `m.MsgChan[topic]`: `none` is the nil channel of a topic without an entry. -/
def MockPubSub.msgChan (m : MockPubSub) (topic : String) : Option Nat :=
  (m.MsgChan.find? (fun e => e.1 == topic)).map (fun e => e.2)

/-- The method `Subscribe`: returns the index of the new channel.  The map entry of the topic is
replaced, so a channel handed out earlier for the same topic is no longer in the map. -/
def MockPubSub.Subscribe (m : MockPubSub) (topic : String) : Except Error Nat × MockPubSub :=
  match m.Err with
  | some e => (.error e, m)
  | none =>
    if m.closed then (.error (.msg "closed"), m)
    else
      (.ok m.streams.length,
        { m with streams := m.streams ++ [Chan.make],
                 MsgChan := (topic, m.streams.length) ::
                   m.MsgChan.filter (fun e => !(e.1 == topic)) })

/-- The loop of `Publish` over the messages: copy, send on the topic's channel, start `check`
for the copy.  A send on the nil channel of a topic nobody subscribed to parks forever. -/
def MockPubSub.publishLoop (m : MockPubSub) (msgChan : Option Nat) :
    List Message → Outcome (Option Error) × MockPubSub
  | [] => (.returned none, m)
  | msg :: rest =>
    match msgChan with
    | none => (.blocked, m)
    | some ref =>
      match m.streams.get? ref with
      | none => (.blocked, m)
      | some c =>
        match c.send msg.Copy with
        | .returned c1 =>
          MockPubSub.publishLoop
            { m with streams := m.streams.set ref c1, checks := m.checks ++ [msg.Copy] }
            msgChan rest
        | .blocked => (.blocked, m)
        | .panicked => (.panicked, m)

/-- The method `Publish`. -/
def MockPubSub.Publish (m : MockPubSub) (topic : String) (messages : List Message) :
    Outcome (Option Error) × MockPubSub :=
  match m.Err with
  | some e => (.returned (some e), m)
  | none =>
    if m.closed then (.returned (some (.msg "closed")), m)
    else m.publishLoop (m.msgChan topic) messages

/-- The loop of `handleUndeliverable` over what is queued on `undeliverableChan`: each message
is taken off the queue and sent on the channel of the undeliverable topic, or dropped when that
topic has no entry in the map. -/
def MockPubSub.forward (m : MockPubSub) : List Message → Outcome Unit × MockPubSub
  | [] => (.returned (), m)
  | msg :: rest =>
    let m1 : MockPubSub := { m with undeliverableChan := { m.undeliverableChan with buf := rest } }
    match m1.msgChan UndeliverableTopic with
    | none => MockPubSub.forward m1 rest
    | some ref =>
      match m1.streams.get? ref with
      | none => (.blocked, m1)
      | some c =>
        match c.send msg with
        | .returned c1 => MockPubSub.forward { m1 with streams := m1.streams.set ref c1 } rest
        | .blocked => (.blocked, m1)
        | .panicked => (.panicked, m1)

/-- The goroutine `handleUndeliverable`, run until `undeliverableChan` has nothing queued (it
then waits for more, or leaves the loop and signals `done` when the channel is closed). -/
def MockPubSub.handleUndeliverable (m : MockPubSub) : Outcome Unit × MockPubSub :=
  m.forward m.undeliverableChan.buf

/-- The loop of `Close` over the map: `close(msgChan)` for every entry; closing a closed channel
panics. -/
def MockPubSub.closeAll (m : MockPubSub) : List (String × Nat) → Outcome (Option Error) × MockPubSub
  | [] => (.returned none, m)
  | e :: rest =>
    match m.streams.get? e.2 with
    | none => (.panicked, m)
    | some c =>
      if c.closed then (.panicked, m)
      else MockPubSub.closeAll { m with streams := m.streams.set e.2 { c with closed := true } } rest

/-- The method `Close`: marks the pubsub closed, closes `undeliverableChan`, waits for
`handleUndeliverable` to finish with what is queued, then closes every channel in the map. -/
def MockPubSub.Close (m : MockPubSub) : Outcome (Option Error) × MockPubSub :=
  match m.Err with
  | some e => (.returned (some e), m)
  | none =>
    let m1 : MockPubSub := { m with closed := true }
    if m1.undeliverableChan.closed then (.panicked, m1)
    else
      match MockPubSub.handleUndeliverable
          { m1 with undeliverableChan := { m1.undeliverableChan with closed := true } } with
      | (.returned (), m2) => m2.closeAll m2.MsgChan
      | (.blocked, m2) => (.blocked, m2)
      | (.panicked, m2) => (.panicked, m2)

/-- The method `postToUndeliverable`. -/
def MockPubSub.postToUndeliverable (m : MockPubSub) (msg : Message) : Outcome Unit × MockPubSub :=
  if m.closed then (.returned (), m)
  else
    match m.undeliverableChan.send msg with
    | .returned c1 => (.returned (), { m with undeliverableChan := c1 })
    | .blocked => (.blocked, m)
    | .panicked => (.panicked, m)

/-- Which case of the `select` in `check` fires: the copy was acked, it was nacked, or
`Timeout` elapsed first. -/
inductive Select where
  | acked
  | nacked
  | timedOut
deriving DecidableEq, Repr

/-- The method `check`, for the case of its `select` that fires. -/
def MockPubSub.check (m : MockPubSub) (msg : Message) (sel : Select) :
    Outcome Unit × MockPubSub :=
  match sel with
  | .acked => (.returned (), { m with checks := m.checks.erase msg })
  | .nacked => MockPubSub.postToUndeliverable { m with checks := m.checks.erase msg } msg
  | .timedOut => MockPubSub.postToUndeliverable { m with checks := m.checks.erase msg } msg

/-- What a subscriber finds queued on the stream `ref`. -/
def MockPubSub.stream (m : MockPubSub) (ref : Nat) : List Message :=
  match m.streams.get? ref with
  | some c => c.buf
  | none => []

/-- An operation on the pubsub other than `Close` and `WithError`. -/
inductive Op where
  | subscribe (topic : String)
  | publish (topic : String) (messages : List Message)
  | check (msg : Message) (sel : Select)
  | handleUndeliverable
deriving DecidableEq, Repr

/-- The pubsub after one operation. -/
def MockPubSub.step (m : MockPubSub) : Op → MockPubSub
  | .subscribe topic => (m.Subscribe topic).2
  | .publish topic messages => (m.Publish topic messages).2
  | .check msg sel => (m.check msg sel).2
  | .handleUndeliverable => m.handleUndeliverable.2

/-- The pubsub after a sequence of operations. -/
def MockPubSub.run (m : MockPubSub) : List Op → MockPubSub
  | [] => m
  | op :: ops => MockPubSub.run (m.step op) ops

/-! ## The ActivityPub service (`pkg/activitypub/service/service.go`) -/

/-- The long-lived parts of a `Service`. -/
inductive Component where
  | activityHandler
  | inbox
  | outbox
deriving DecidableEq, Repr

/-- A lifecycle call on a component. -/
inductive LifecycleCall where
  | Start (c : Component)
  | Stop (c : Component)
deriving DecidableEq, Repr

/-- The struct `Service`, as the lifecycle calls made on its components so far (oldest
first). -/
structure Service where
  trace : List LifecycleCall
deriving DecidableEq, Repr

/-- The method `Service.start`. -/
def Service.start (s : Service) : Service :=
  { trace := s.trace ++ [.Start .activityHandler, .Start .inbox, .Start .outbox] }

/-- The method `Service.stop`. -/
def Service.stop (s : Service) : Service :=
  { trace := s.trace ++ [.Stop .outbox, .Stop .inbox, .Stop .activityHandler] }

/-- The call `a` happens before the call `b` in a trace: both occur, and the first `a` comes
earlier than the first `b`. -/
def happensBefore (a b : LifecycleCall) (trace : List LifecycleCall) : Prop :=
  a ∈ trace ∧ b ∈ trace ∧ trace.indexOf a < trace.indexOf b

instance (a b : LifecycleCall) (trace : List LifecycleCall) : Decidable (happensBefore a b trace) := by
  unfold happensBefore; infer_instance

/-! ## The REST handlers (`pkg/activitypub/resthandler/activityhandler.go`) -/

/-- The constant `http.StatusOK`. -/
def StatusOK : Nat := 200

/-- The constant `http.StatusBadRequest`. -/
def StatusBadRequest : Nat := 400

/-- The constant `http.StatusUnauthorized`. -/
def StatusUnauthorized : Nat := 401

/-- The constant `http.StatusNotFound`. -/
def StatusNotFound : Nat := 404

/-- The constant `http.StatusInternalServerError`. -/
def StatusInternalServerError : Nat := 500

/-- Modelled from the spec: the error value `spi.ErrNotFound` of the activity store (package
`store/spi`, not among the sources), the `NotFound` error kind. -/
def ErrNotFound : Error := .sentinel "spi.ErrNotFound" "not found"

/-- The function `errors.Is`, for a target that is the value of a package-level error variable:
the error, or one it wraps, is that very value.  `errors.Is` compares error values by identity,
and an error made when it occurs (by `errors.New` or `fmt.Errorf`) is a value of its own: it is
none of the package-level values, whatever its text. -/
def Error.Is : Error → Error → Bool
  | .msg _, _ => false
  | .wrap _ c, target => c.Is target
  | .sentinel v t, target => Error.sentinel v t == target

/-- An `*http.Request`, as the parts a handler can read: the path variables and the query
parameters.  The helpers that read them (`getIDParam`, `isPaging`, `getPageNum`) are fields of
`Handler`. -/
structure Request where
  vars : List (String × String)
  query : List (String × String)
deriving DecidableEq, Repr

/-- The type `vocab.ActivityType`, kept as its id and the rest of the document. -/
structure ActivityType where
  ID : String
  Body : String
deriving DecidableEq, Repr

/-- The type `vocab.ObjectProperty`: an IRI (`WithIRI`) or an embedded activity
(`WithActivity`). -/
inductive ObjectProperty where
  | iri (u : URL)
  | activity (a : ActivityType)
deriving DecidableEq, Repr

/-- The constant `vocab.ContextActivityStreams`. -/
def ContextActivityStreams : String := "https://www.w3.org/ns/activitystreams"

/-- The type `vocab.OrderedCollectionType`, as the arguments `vocab.NewOrderedCollection` is
given: the items and the options `WithContext`, `WithID`, `WithFirst`, `WithLast`,
`WithTotalItems`. -/
structure OrderedCollectionType where
  Context : String
  ID : URL
  First : URL
  Last : URL
  TotalItems : Int
  Items : List ObjectProperty
deriving DecidableEq, Repr

/-- The type `vocab.OrderedCollectionPageType`, as the arguments `vocab.NewOrderedCollectionPage`
is given: the items and the options `WithContext`, `WithID`, `WithPartOf`, `WithPrev`,
`WithNext`, `WithTotalItems`; an option that is not given, or given a nil URL, is `none`. -/
structure OrderedCollectionPageType where
  Context : String
  ID : URL
  PartOf : Option URL
  Prev : Option URL
  Next : Option URL
  TotalItems : Int
  Items : List ObjectProperty
deriving DecidableEq, Repr

/-- The type `spi.ReferenceType`. -/
inductive ReferenceType where
  | Inbox
  | Outbox
  | Share
  | Like
  | Liked
  | Follower
  | Following
  | Witness
  | Witnessing
  | AnchorCredential
deriving DecidableEq, Repr

/-- The type `spi.SortOrder`. -/
inductive SortOrder where
  | SortAscending
  | SortDescending
deriving DecidableEq, Repr

/-- The type `spi.QueryOpt`: one option of a store query. -/
inductive QueryOpt where
  | WithPageSize (pageSize : Int)
  | WithPageNum (pageNum : Int)
  | WithSortOrder (sortOrder : SortOrder)
deriving DecidableEq, Repr

/-- The type `spi.QueryOptions`. -/
structure QueryOptions where
  PageNumber : Int
  PageSize : Int
  SortOrder : SortOrder
deriving DecidableEq, Repr

/-- The type `spi.ReferenceIterator`: what `TotalItems` returns, what `Close` returns, and the
references it yields. -/
structure ReferenceIterator where
  TotalItems : Int
  closeErr : Option Error
  refs : List URL
deriving DecidableEq, Repr

/-- The type `spi.ActivityIterator`: what `TotalItems` returns, what `Close` returns, and the
activities it yields. -/
structure ActivityIterator where
  TotalItems : Int
  closeErr : Option Error
  activities : List ActivityType
deriving DecidableEq, Repr

/-- What a handler marshals: the argument of `h.marshal`. -/
inductive Document where
  | activity (a : ActivityType)
  | orderedCollection (c : OrderedCollectionType)
  | orderedCollectionPage (p : OrderedCollectionPageType)
deriving DecidableEq, Repr

/-- One observable action of a REST handler: a call to the signature verifier, to the
response writer (directly with `w.WriteHeader`, or through `h.writeResponse`, where an empty
body is Go's nil), to the activity store, or to an iterator's `Close`. -/
inductive RestEvent where
  | VerifyRequest (req : Request)
  | WriteHeader (status : Nat)
  | writeResponse (status : Nat) (body : Bytes)
  | GetActivity (iri : URL)
  | QueryReferences (refType : ReferenceType) (objectIRI : URL)
  | QueryActivities (refType : ReferenceType) (objectIRI : URL) (opts : List QueryOpt)
  | CloseReferenceIterator (it : ReferenceIterator)
  | CloseActivityIterator (it : ActivityIterator)
deriving DecidableEq, Repr

/-- The struct `handler` with its `Config`: the configuration, the verifier, the activity
store and the marshaller, and the helpers of `handler.go` and `storeutil` that the handlers
call (those files are not among the sources, so the helpers are taken as given). -/
structure Handler where
  ObjectIRI : URL
  PageSize : Int
  endpoint : String
  /-- The method `verifier.VerifyRequest`: `(ok, actorIRI, err)`. -/
  VerifyRequest : Request → Bool × Option URL × Option Error
  /-- The method `activityStore.GetActivity`. -/
  GetActivity : URL → Except Error ActivityType
  /-- The method `activityStore.QueryReferences`, for a reference type and the criteria
  `WithObjectIRI`. -/
  QueryReferences : ReferenceType → URL → Except Error ReferenceIterator
  /-- The method `activityStore.QueryActivities`, for the criteria `WithReferenceType` and
  `WithObjectIRI` and the query options. -/
  QueryActivities : ReferenceType → URL → List QueryOpt → Except Error ActivityIterator
  /-- The field `marshal`. -/
  marshal : Document → Except Error Bytes
  /-- The helper `getIDParam`. -/
  getIDParam : Request → String
  /-- The helper `isPaging`. -/
  isPaging : Request → Bool
  /-- The helper `getPageNum`: `none` is Go's `ok = false`. -/
  getPageNum : Request → Option Int
  /-- The helper `getPageURL`. -/
  getPageURL : URL → Int → Except Error URL
  /-- The helper `getIDPrevNextURL`: the page id and the previous and next page, when there is
  one. -/
  getIDPrevNextURL : URL → Int → QueryOptions → Except Error (URL × Option URL × Option URL)
  /-- The helper `getLastPageNum`. -/
  getLastPageNum : Int → Int → SortOrder → Int
  /-- The function `storeutil.GetQueryOptions`. -/
  GetQueryOptions : List QueryOpt → QueryOptions
  /-- The function `storeutil.ReadActivities`. -/
  ReadActivities : ActivityIterator → Int → Except Error (List ActivityType)
  /-- The function `url.Parse`. -/
  urlParse : String → Except Error URL

/-- The struct `Activities`. -/
structure Activities where
  handler : Handler
  refType : ReferenceType
  getID : URL → Except Error URL
  getObjectIRI : Request → Except Error URL

/-- The method `Activities.getActivities`: the result and the actions, in order.  The deferred
`it.Close()` runs last on every path that got an iterator; its error is logged and dropped. -/
def Activities.getActivities (h : Activities) (objectIRI id : URL) :
    Except Error OrderedCollectionType × List RestEvent :=
  match h.handler.QueryReferences h.refType objectIRI with
  | .error err => (.error err, [.QueryReferences h.refType objectIRI])
  | .ok it =>
    match h.handler.getPageURL id (-1) with
    | .error err =>
      (.error err, [.QueryReferences h.refType objectIRI, .CloseReferenceIterator it])
    | .ok firstURL =>
      match h.handler.getPageURL id
          (h.handler.getLastPageNum it.TotalItems h.handler.PageSize .SortDescending) with
      | .error err =>
        (.error err, [.QueryReferences h.refType objectIRI, .CloseReferenceIterator it])
      | .ok lastURL =>
        (.ok { Context := ContextActivityStreams, ID := id, First := firstURL, Last := lastURL,
               TotalItems := it.TotalItems, Items := [] },
          [.QueryReferences h.refType objectIRI, .CloseReferenceIterator it])

/-- The method `Activities.getPage`: the result and the actions, in order.  The deferred
`it.Close()` runs last on every path that got an iterator; its error is logged and dropped. -/
def Activities.getPage (h : Activities) (objectIRI id : URL) (opts : List QueryOpt) :
    Except Error OrderedCollectionPageType × List RestEvent :=
  match h.handler.QueryActivities h.refType objectIRI opts with
  | .error err => (.error err, [.QueryActivities h.refType objectIRI opts])
  | .ok it =>
    match h.handler.ReadActivities it (h.handler.GetQueryOptions opts).PageSize with
    | .error err =>
      (.error err, [.QueryActivities h.refType objectIRI opts, .CloseActivityIterator it])
    | .ok activities =>
      match h.handler.getIDPrevNextURL id it.TotalItems (h.handler.GetQueryOptions opts) with
      | .error err =>
        (.error err, [.QueryActivities h.refType objectIRI opts, .CloseActivityIterator it])
      | .ok (id1, prev, next) =>
        (.ok { Context := ContextActivityStreams, ID := id1, PartOf := none, Prev := prev,
               Next := next, TotalItems := it.TotalItems,
               Items := activities.map ObjectProperty.activity },
          [.QueryActivities h.refType objectIRI opts, .CloseActivityIterator it])

/-- The method `Activities.handleActivities`: the actions, in order. -/
def Activities.handleActivities (h : Activities) (_req : Request) (objectIRI id : URL) :
    List RestEvent :=
  match h.getActivities objectIRI id with
  | (.error _, evs) => evs ++ [.writeResponse StatusInternalServerError []]
  | (.ok activities, evs) =>
    match h.handler.marshal (.orderedCollection activities) with
    | .error _ => evs ++ [.writeResponse StatusInternalServerError []]
    | .ok activitiesCollBytes => evs ++ [.writeResponse StatusOK activitiesCollBytes]

/-- The query options `handleActivitiesPage` passes to `getPage`. -/
def Activities.pageOpts (h : Activities) (req : Request) : List QueryOpt :=
  match h.handler.getPageNum req with
  | some pageNum =>
    [.WithPageSize h.handler.PageSize, .WithPageNum pageNum, .WithSortOrder .SortDescending]
  | none => [.WithPageSize h.handler.PageSize, .WithSortOrder .SortDescending]

/-- The method `Activities.handleActivitiesPage`: the actions, in order. -/
def Activities.handleActivitiesPage (h : Activities) (req : Request) (objectIRI id : URL) :
    List RestEvent :=
  match h.getPage objectIRI id (h.pageOpts req) with
  | (.error _, evs) => evs ++ [.writeResponse StatusInternalServerError []]
  | (.ok page, evs) =>
    match h.handler.marshal (.orderedCollectionPage page) with
    | .error _ => evs ++ [.writeResponse StatusInternalServerError []]
    | .ok pageBytes => evs ++ [.writeResponse StatusOK pageBytes]

/-- The method `Activities.handle`: the actions, in order. -/
def Activities.handle (h : Activities) (req : Request) : List RestEvent :=
  match h.handler.VerifyRequest req with
  | (_, _, some _) => [.VerifyRequest req, .WriteHeader StatusInternalServerError]
  | (false, _, none) => [.VerifyRequest req, .WriteHeader StatusUnauthorized]
  | (true, _, none) =>
    match h.getObjectIRI req with
    | .error _ => [.VerifyRequest req, .writeResponse StatusInternalServerError []]
    | .ok objectIRI =>
      match h.getID objectIRI with
      | .error _ => [.VerifyRequest req, .writeResponse StatusInternalServerError []]
      | .ok id =>
        if h.handler.isPaging req then
          .VerifyRequest req :: h.handleActivitiesPage req objectIRI id
        else
          .VerifyRequest req :: h.handleActivities req objectIRI id

/-- The struct `Activity`. -/
structure Activity where
  handler : Handler

/-- The method `Activity.getActivityIRI`. -/
def Activity.getActivityIRI (h : Activity) (req : Request) : Except Error URL :=
  if h.handler.getIDParam req = "" then .error (.msg "activity ID not specified")
  else
    match h.handler.urlParse
        (h.handler.ObjectIRI.String ++ "/activities/" ++ h.handler.getIDParam req) with
    | .error err => .error (.wrap ("invalid activity ID [" ++ h.handler.getIDParam req ++ "]") err)
    | .ok activityIRI => .ok activityIRI

/-- The method `Activity.handle`: the actions, in order. -/
def Activity.handle (h : Activity) (req : Request) : List RestEvent :=
  match h.getActivityIRI req with
  | .error _ => [.writeResponse StatusBadRequest []]
  | .ok activityIRI =>
    match h.handler.GetActivity activityIRI with
    | .error err =>
      if err.Is ErrNotFound then
        [.GetActivity activityIRI, .writeResponse StatusNotFound []]
      else
        [.GetActivity activityIRI, .writeResponse StatusInternalServerError []]
    | .ok activity =>
      match h.handler.marshal (.activity activity) with
      | .error _ => [.GetActivity activityIRI, .writeResponse StatusInternalServerError []]
      | .ok activityBytes => [.GetActivity activityIRI, .writeResponse StatusOK activityBytes]

/-- The responses in a trace: each status written, with the body handed to `writeResponse`
(none for a bare `WriteHeader`). -/
def responses : List RestEvent → List (Nat × Bytes)
  | [] => []
  | .WriteHeader status :: evs => (status, []) :: responses evs
  | .writeResponse status body :: evs => (status, body) :: responses evs
  | _ :: evs => responses evs

/-- The store calls in a trace (`GetActivity`, `QueryReferences`, `QueryActivities`). -/
def storeCalls : List RestEvent → List RestEvent
  | [] => []
  | .GetActivity iri :: evs => .GetActivity iri :: storeCalls evs
  | .QueryReferences t o :: evs => .QueryReferences t o :: storeCalls evs
  | .QueryActivities t o opts :: evs => .QueryActivities t o opts :: storeCalls evs
  | _ :: evs => storeCalls evs

/-- The iterator `Close` calls in a trace. -/
def closeCalls : List RestEvent → List RestEvent
  | [] => []
  | .CloseReferenceIterator it :: evs => .CloseReferenceIterator it :: closeCalls evs
  | .CloseActivityIterator it :: evs => .CloseActivityIterator it :: closeCalls evs
  | _ :: evs => closeCalls evs

/-! ## The mock undeliverable handler
(`pkg/activitypub/service/mocks/mockundeliverablehandler.go`) -/

/-- The struct `UndeliverableActivity`. -/
structure UndeliverableActivity where
  Activity : ActivityType
  ToURL : String
deriving DecidableEq, Repr

/-- The struct `UndeliverableHandler`. -/
structure UndeliverableHandler where
  activities : List UndeliverableActivity
deriving DecidableEq, Repr

/-- The function `NewUndeliverableHandler`. -/
def NewUndeliverableHandler : UndeliverableHandler := { activities := [] }

/-- The method `HandleUndeliverableActivity`. -/
def UndeliverableHandler.HandleUndeliverableActivity (h : UndeliverableHandler)
    (activity : ActivityType) (toURL : String) : UndeliverableHandler :=
  { activities := h.activities ++ [{ Activity := activity, ToURL := toURL }] }

/-- The method `Activities`. -/
def UndeliverableHandler.Activities (h : UndeliverableHandler) : List UndeliverableActivity :=
  h.activities

/-- The handler after a sequence of calls of `HandleUndeliverableActivity`, each given as its
two arguments. -/
def UndeliverableHandler.handleAll (h : UndeliverableHandler) :
    List (ActivityType × String) → UndeliverableHandler
  | [] => h
  | c :: cs => UndeliverableHandler.handleAll (h.HandleUndeliverableActivity c.1 c.2) cs

/-! ## Collection pages and their canonical JSON (`pkg/activitypub/vocab`)

The marshalling code of `vocab` is not among the sources; its test `collectionpage_test.go` is.
JSON text is represented by the document it spells (the members of the top-level object, in
order); the canonical form of a document has its members sorted by key. -/

/-- An element of a JSON array of items: a string, or an embedded object (kept whole). -/
inductive JSONItem where
  | str (s : String)
  | object (a : ActivityType)
deriving DecidableEq, Repr

/-- A JSON value as it occurs in a collection page: a string, a number, or an array of
items. -/
inductive JSONValue where
  | str (s : String)
  | num (n : Int)
  | arr (items : List JSONItem)
deriving DecidableEq, Repr

/-- A JSON object: its members, in the order they are written. -/
abbrev JSONDoc := List (String × JSONValue)

/-- Lexicographic order on lists of character codes. -/
def ltCodes : List Nat → List Nat → Bool
  | _, [] => false
  | [], _ :: _ => true
  | x :: xs, y :: ys => decide (x < y) || (x == y && ltCodes xs ys)

/-- The order of member names in canonical JSON: by character code, position by position. -/
def keyLT (a b : String) : Bool :=
  ltCodes (a.data.map Char.toNat) (b.data.map Char.toNat)

/-- Inserts a member into a document sorted by key. -/
def insertMember (m : String × JSONValue) : JSONDoc → JSONDoc
  | [] => [m]
  | x :: xs => if keyLT m.1 x.1 then m :: x :: xs else x :: insertMember m xs

/-- Modelled from the spec: the canonical form of a JSON document ("canonical JSON"), its
members sorted by key. -/
def canonicalize : JSONDoc → JSONDoc
  | [] => []
  | m :: ms => insertMember m (canonicalize ms)

/-- The type `vocab.CollectionPageType`, with the fields of a page. -/
structure CollectionPageType where
  Context : String
  ID : URL
  PartOf : Option URL
  Prev : Option URL
  Next : Option URL
  TotalItems : Int
  Items : List ObjectProperty
deriving DecidableEq, Repr

/-- Modelled from the spec: `vocab.NewCollectionPage(items, WithContext(..), WithID(..),
WithPartOf(..), WithPrev(..), WithNext(..))` as the test calls it; with no `WithTotalItems`
option the total is the number of items (the test expects `totalItems` 3 for three items). -/
def NewCollectionPage (items : List ObjectProperty) (context : String) (id partOf prev next : URL) :
    CollectionPageType :=
  { Context := context, ID := id, PartOf := some partOf, Prev := some prev, Next := some next,
    TotalItems := items.length, Items := items }

/-- Modelled from the spec: `vocab.NewOrderedCollectionPage` called as the test calls it. -/
def NewOrderedCollectionPage (items : List ObjectProperty) (context : String)
    (id partOf prev next : URL) : OrderedCollectionPageType :=
  { Context := context, ID := id, PartOf := some partOf, Prev := some prev, Next := some next,
    TotalItems := items.length, Items := items }

/-- The JSON form of an item: an IRI is a string, an embedded activity an object. -/
def encodeItem : ObjectProperty → JSONItem
  | .iri u => .str u.text
  | .activity a => .object a

/-- The item a JSON array element stands for. -/
def decodeItem : JSONItem → ObjectProperty
  | .str s => .iri { text := s }
  | .object a => .activity a

/-- The member for an optional URL: left out when the URL is nil. -/
def urlMember (key : String) : Option URL → JSONDoc
  | none => []
  | some u => [(key, .str u.text)]

/-- The member for the items: left out when there are none. -/
def itemsMember (key : String) : List ObjectProperty → JSONDoc
  | [] => []
  | i :: is => [(key, .arr ((i :: is).map encodeItem))]

/-- Modelled from the spec: the JSON document of a page, members in the order of the Go
structs (object fields, then collection fields, then page fields). -/
def pageDocument (typeName itemsKey context : String) (id : URL) (partOf prev next : Option URL)
    (totalItems : Int) (items : List ObjectProperty) : JSONDoc :=
  [("@context", .str context), ("id", .str id.text), ("type", .str typeName),
   ("totalItems", .num totalItems)]
    ++ itemsMember itemsKey items ++ urlMember "partOf" partOf ++ urlMember "next" next
    ++ urlMember "prev" prev

/-- Modelled from the spec: `canonicalizer.MarshalCanonical` of a collection page. -/
def CollectionPageType.MarshalCanonical (p : CollectionPageType) : JSONDoc :=
  canonicalize (pageDocument "CollectionPage" "items" p.Context p.ID p.PartOf p.Prev p.Next
    p.TotalItems p.Items)

/-- Modelled from the spec: `canonicalizer.MarshalCanonical` of an ordered collection page. -/
def OrderedCollectionPageType.MarshalCanonical (p : OrderedCollectionPageType) : JSONDoc :=
  canonicalize (pageDocument "OrderedCollectionPage" "orderedItems" p.Context p.ID p.PartOf
    p.Prev p.Next p.TotalItems p.Items)

/-- Reads a string member; a missing member is the empty string. -/
def decodeString : Option JSONValue → Except Error String
  | none => .ok ""
  | some (.str s) => .ok s
  | some _ => .error (.msg "json: cannot unmarshal into Go value of type string")

/-- Reads a URL member; a missing member is nil. -/
def decodeURL : Option JSONValue → Except Error (Option URL)
  | none => .ok none
  | some (.str s) => .ok (some { text := s })
  | some _ => .error (.msg "json: cannot unmarshal into Go value of type URLProperty")

/-- Reads a number member; a missing member is 0. -/
def decodeInt : Option JSONValue → Except Error Int
  | none => .ok 0
  | some (.num n) => .ok n
  | some _ => .error (.msg "json: cannot unmarshal into Go value of type int")

/-- Reads the items member; a missing member is no items. -/
def decodeItems : Option JSONValue → Except Error (List ObjectProperty)
  | none => .ok []
  | some (.arr xs) => .ok (xs.map decodeItem)
  | some _ => .error (.msg "json: cannot unmarshal into Go value of type []ObjectProperty")

/-- Modelled from the spec: `json.Unmarshal` into a `CollectionPageType`. -/
def CollectionPageType.Unmarshal (d : JSONDoc) : Except Error CollectionPageType := do
  let context ← decodeString (d.lookup "@context")
  let id ← decodeString (d.lookup "id")
  let partOf ← decodeURL (d.lookup "partOf")
  let prev ← decodeURL (d.lookup "prev")
  let next ← decodeURL (d.lookup "next")
  let totalItems ← decodeInt (d.lookup "totalItems")
  let items ← decodeItems (d.lookup "items")
  pure { Context := context, ID := { text := id }, PartOf := partOf, Prev := prev, Next := next,
         TotalItems := totalItems, Items := items }

/-- Modelled from the spec: `json.Unmarshal` into an `OrderedCollectionPageType`. -/
def OrderedCollectionPageType.Unmarshal (d : JSONDoc) :
    Except Error OrderedCollectionPageType := do
  let context ← decodeString (d.lookup "@context")
  let id ← decodeString (d.lookup "id")
  let partOf ← decodeURL (d.lookup "partOf")
  let prev ← decodeURL (d.lookup "prev")
  let next ← decodeURL (d.lookup "next")
  let totalItems ← decodeInt (d.lookup "totalItems")
  let items ← decodeItems (d.lookup "orderedItems")
  pure { Context := context, ID := { text := id }, PartOf := partOf, Prev := prev, Next := next,
         TotalItems := totalItems, Items := items }

/-- The expected JSON document of a page in the test (`jsonCollectionPage`,
`jsonOrderedCollectionPage`), members in the order the test writes them, for a page with the
given id, `partOf`, `prev`, `next` and item IRIs. -/
def expectedPageDocument (typeName itemsKey : String) (id partOf prev next : URL)
    (items : List URL) : JSONDoc :=
  [("@context", .str ContextActivityStreams), ("id", .str id.text), ("type", .str typeName),
   ("partOf", .str partOf.text), ("prev", .str prev.text), ("next", .str next.text),
   ("totalItems", .num items.length)]
    ++ itemsMember itemsKey (items.map ObjectProperty.iri)

/-! ## Further definitions for the handlers, the service and the mocks -/

/-- The calls `Service.start` makes on the components: what it adds to the trace. -/
def Service.startCalls (s : Service) : List LifecycleCall :=
  s.start.trace.drop s.trace.length

/-- The component a lifecycle call is made on. -/
def LifecycleCall.component : LifecycleCall → Component
  | .Start c => c
  | .Stop c => c

/-- The requests handed to the signature verifier in a trace. -/
def verifyCalls : List RestEvent → List Request
  | [] => []
  | .VerifyRequest req :: evs => req :: verifyCalls evs
  | _ :: evs => verifyCalls evs

/-- The same handler over a verifier that returns something else. -/
def Activity.withVerifier (h : Activity) (verify : Request → Bool × Option URL × Option Error) :
    Activity :=
  { handler := { h.handler with VerifyRequest := verify } }

/-- The same handler over a store whose iterators return `closeResult` from `Close`, and are
otherwise the same. -/
def Activities.withCloseResult (h : Activities) (closeResult : Option Error) : Activities :=
  { h with
    handler := { h.handler with
      QueryReferences := fun t o =>
        match h.handler.QueryReferences t o with
        | .ok it => .ok { it with closeErr := closeResult }
        | .error e => .error e
      QueryActivities := fun t o opts =>
        match h.handler.QueryActivities t o opts with
        | .ok it => .ok { it with closeErr := closeResult }
        | .error e => .error e } }

/-- A field of a mock that is shared between goroutines. -/
inductive Field where
  | Err
  | MsgChan
  | closed
  | undeliverableChan
  | done
  | activities
deriving DecidableEq, Repr

/-- A step of a method as far as the mutex is concerned: an operation on the component's
mutex, or a read or write of a field. -/
inductive MutexOp where
  | Lock
  | Unlock
  | RLock
  | RUnlock
  | Read (f : Field)
  | Write (f : Field)
deriving DecidableEq, Repr

/-- How a goroutine holds the mutex. -/
inductive Held where
  | not
  | shared
  | exclusive
deriving DecidableEq, Repr

/-- The steps of `MockPubSub.Subscribe`, in source order: `Err` is read without the mutex, then
`RLock` is taken, `closed` is read, the map entry is assigned, and the deferred `RUnlock`
runs. -/
def MockPubSub.SubscribeOps (m : MockPubSub) : List MutexOp :=
  match m.Err with
  | some _ => [.Read .Err]
  | none =>
    if m.closed then [.Read .Err, .RLock, .Read .closed, .RUnlock]
    else [.Read .Err, .RLock, .Read .closed, .Write .MsgChan, .RUnlock]

/-- The steps of `MockPubSub.Close`, in source order: `closed` is set between `Lock` and
`Unlock`; closing `undeliverableChan`, waiting on `done` and ranging over the map come after
the `Unlock`. -/
def MockPubSub.CloseOps (m : MockPubSub) : List MutexOp :=
  match m.Err with
  | some _ => [.Read .Err]
  | none =>
    [.Read .Err, .Lock, .Write .closed, .Unlock, .Read .undeliverableChan, .Read .done,
     .Read .MsgChan]

/-- The steps of `UndeliverableHandler.HandleUndeliverableActivity`, in source order. -/
def UndeliverableHandler.HandleUndeliverableActivityOps : List MutexOp :=
  [.Lock, .Read .activities, .Write .activities, .Unlock]

/-- How the mutex is held after a step. -/
def Held.after : Held → MutexOp → Held
  | _, .Lock => .exclusive
  | _, .Unlock => .not
  | _, .RLock => .shared
  | _, .RUnlock => .not
  | held, .Read _ => held
  | held, .Write _ => held

/-- Every write of one of the given fields happens while the mutex is held exclusively. -/
def writesExclusive (fields : List Field) : Held → List MutexOp → Bool
  | _, [] => true
  | held, .Write f :: ops =>
    (!(fields.contains f) || held == .exclusive) && writesExclusive fields held ops
  | held, op :: ops => writesExclusive fields (held.after op) ops

/-! ## The BDD test helper `getLocalURL` (`test/bdd/did_orb_steps.go`) -/

/-- The function `strings.Index`: the index of the first instance of `substr` in `s`; `none` is
Go's `-1`. -/
def strings.Index : Bytes → Bytes → Option Nat
  | [], substr => if substr.isPrefixOf [] then some 0 else none
  | c :: t, substr =>
    if substr.isPrefixOf (c :: t) then some 0 else (strings.Index t substr).map (· + 1)

/-- The function `strings.Contains`: `Index(s, substr) >= 0`. -/
def strings.Contains (s substr : Bytes) : Bool := (strings.Index s substr).isSome

/-- The loop of `strings.genSplit` for a separator that is not empty: cut at the first instance
of `sep`, go on with what follows it.  Go runs the loop `Count(s, sep)` times; here it runs until
`Index` finds nothing, at most `n` times. -/
def strings.genSplit (sep : Bytes) : Nat → Bytes → List Bytes
  | 0, s => [s]
  | n + 1, s =>
    match strings.Index s sep with
    | none => [s]
    | some m => s.take m :: strings.genSplit sep n (s.drop (m + sep.length))

/-- The function `strings.Split`, for a separator that is not empty.  A string of length `n`
holds at most `n` instances of the separator that do not overlap. -/
def strings.Split (s sep : Bytes) : List Bytes := strings.genSplit sep s.length s

/-- The loop of `strings.Replace` for an `old` that is not empty: copy up to the first instance
of `old`, write `new`, go on with what follows the instance.  Go runs the loop `Count(s, old)`
times; here it runs until `Index` finds nothing, at most `n` times. -/
def strings.replaceLoop (old new : Bytes) : Nat → Bytes → Bytes
  | 0, s => s
  | n + 1, s =>
    match strings.Index s old with
    | none => s
    | some j => s.take j ++ new ++ strings.replaceLoop old new n (s.drop (j + old.length))

/-- The function `strings.ReplaceAll`, for an `old` that is not empty. -/
def strings.ReplaceAll (s old new : Bytes) : Bytes :=
  if old = new then s else strings.replaceLoop old new s.length s

/-- The map `localURLs`: the external server URLs and the local URL each one stands for. -/
def localURLs : List (Bytes × Bytes) :=
  [(goString "https://orb.domain1.com", goString "https://localhost:48326"),
   (goString "https://orb2.domain1.com", goString "https://localhost:48526"),
   (goString "https://orb.domain2.com", goString "https://localhost:48426"),
   (goString "https://orb.domain3.com", goString "https://localhost:48626")]

/-- The method `DIDOrbSteps.getLocalURL` (it does not read its receiver). -/
def getLocalURL (url : Bytes) : Except Error Bytes :=
  let parts := strings.Split url (goString "/sidetree/v1/")
  if parts.length ≠ 2 then
    .error (.msg ("wrong format of Sidetree URL: " ++ url.text))
  else
    let externalURL := parts.headD []
    if strings.Contains externalURL (goString "localhost") then
      -- already internal url - nothing to do
      .ok url
    else
      match localURLs.lookup externalURL with
      | none => .error (.msg ("server URL not configured for: " ++ url.text))
      | some localURL => .ok (strings.ReplaceAll url externalURL localURL)

/-! ## Sample states used to evaluate the definitions -/

/-- A world with one anchor credential `vc1` carrying the issuer's proof and two pending
witness records for it. -/
def sampleWorld : World :=
  { monitorErr := none, watched := [],
    credentials := [{ ID := "vc1", Body := "anchor", Proofs := [[("jws", "issuer")]] }],
    witnesses := { records := [("vc1", ⟨.Batch, "https://w1.example", []⟩),
                               ("vc1", ⟨.Batch, "https://w2.example", []⟩)] } }

/-- A handler over `sampleWorld` that has done nothing yet. -/
def sampleHandler : WitnessProofHandler World :=
  { world := sampleWorld, vcCh := [], calls := [] }

/-- A world whose anchor credential `vc1` already carries two proofs. -/
def witnessedWorld : World :=
  { sampleWorld with
    credentials := [{ ID := "vc1", Body := "anchor",
                      Proofs := [[("jws", "issuer")], [("jws", "w0")]] }] }

/-- A world whose monitoring service is down. -/
def unmonitoredWorld : World :=
  { sampleWorld with monitorErr := some (.msg "monitoring unavailable") }

/-- The proof document of witness `w1`: `{"proof":{"jws":"a"}}`. -/
def sampleProofA : Bytes := proofDocument "a"

/-- The calls `Service.stop` makes on the components: what it adds to the trace. -/
def Service.stopCalls (s : Service) : List LifecycleCall :=
  s.stop.trace.drop s.trace.length

/-- A sample message with no metadata. -/
def sampleMessage : Message := { UUID := "m-1", Metadata := [], Payload := [1, 2, 3] }

/-- A pubsub with a subscriber on the undeliverable topic (stream 0), on topic `a` (stream 1)
and on topic `b` (stream 2). -/
def samplePubSub : MockPubSub :=
  (((NewPubSub.Subscribe UndeliverableTopic).2.Subscribe "a").2.Subscribe "b").2

/-- A message is published on a topic, its subscriber nacks it or lets it time out, and the
`handleUndeliverable` goroutine runs: the pubsub afterwards. -/
def MockPubSub.publishAndFail (m : MockPubSub) (topic : String) (msg : Message) (sel : Select) :
    MockPubSub :=
  (((m.Publish topic [msg]).2.check msg.Copy sel).2).handleUndeliverable.2

/-- The UTF-8 bytes of a character: a Go string holds its text in UTF-8. -/
def utf8Bytes (c : Char) : Bytes :=
  if c.toNat < 128 then [c.toNat]
  else if c.toNat < 2048 then [192 + c.toNat / 64, 128 + c.toNat % 64]
  else if c.toNat < 65536 then
    [224 + c.toNat / 4096, 128 + c.toNat / 64 % 64, 128 + c.toNat % 64]
  else
    [240 + c.toNat / 262144, 128 + c.toNat / 4096 % 64, 128 + c.toNat / 64 % 64,
      128 + c.toNat % 64]

/-- The modes of `net/url` escaping that a path and a fragment go through. -/
inductive Encoding where
  | encodePath
  | encodeFragment
deriving DecidableEq, Repr

/-- The function `shouldEscape` of `net/url`, for the two modes. -/
def shouldEscape (c : Nat) (mode : Encoding) : Bool :=
  if isAlphanumByte c then false
  else if c ∈ goString "-_.~" then false
  else if c ∈ goString "$&+,/:;=?@" then
    match mode with
    | .encodePath => c == 63
    | .encodeFragment => false
  else if mode = .encodeFragment ∧ c ∈ goString "!()*" then false
  else true

/-- The function `ishex` of `net/url`. -/
def ishex (c : Nat) : Bool := (48 ≤ c && c ≤ 57) || (97 ≤ c && c ≤ 102) || (65 ≤ c && c ≤ 70)

/-- The function `unhex` of `net/url`. -/
def unhex (c : Nat) : Nat :=
  if 48 ≤ c ∧ c ≤ 57 then c - 48
  else if 97 ≤ c ∧ c ≤ 102 then c - 97 + 10
  else if 65 ≤ c ∧ c ≤ 70 then c - 65 + 10
  else 0

/-- The function `unescape` of `net/url`, for a path or a fragment: every `%` must be followed
by two hexadecimal digits, which it stands for. -/
def unescape : Bytes → Except Error Bytes
  | [] => .ok []
  | c :: rest =>
    if c = 37 then
      match rest with
      | a :: b :: rest1 =>
        if ishex a && ishex b then
          match unescape rest1 with
          | .ok r => .ok ((unhex a * 16 + unhex b) :: r)
          | .error e => .error e
        else .error (.msg "invalid URL escape")
      | _ => .error (.msg "invalid URL escape")
    else
      match unescape rest with
      | .ok r => .ok (c :: r)
      | .error e => .error e

/-- The function `escape` of `net/url`, for a path or a fragment: a byte that `shouldEscape`
becomes `%` and two upper-case hexadecimal digits. -/
def escape (s : Bytes) (mode : Encoding) : Bytes :=
  s.foldr (fun c acc =>
    if shouldEscape c mode then
      37 :: (goString "0123456789ABCDEF").getD (c / 16) 48
        :: (goString "0123456789ABCDEF").getD (c % 16) 48 :: acc
    else c :: acc) []

/-- The function `validEncoded` of `net/url`. -/
def validEncoded (s : Bytes) (mode : Encoding) : Bool :=
  s.all (fun c => c ∈ goString "!$&'()*+,;=:@[]%" || !shouldEscape c mode)

/-- The function `strings.Cut` at a character: what is before its first instance and, when
there is one, what is after. -/
def cutAt (sep : Char) : List Char → List Char × Option (List Char)
  | [] => ([], none)
  | c :: rest =>
    if c = sep then ([], some rest) else ((cutAt sep rest).1.cons c, (cutAt sep rest).2)

/-- How `String` renders a path or a fragment that `Parse` has read (`EscapedPath`,
`EscapedFragment`): as it was written when that is a valid encoding, escaped anew otherwise. -/
def escaped (raw : List Char) (mode : Encoding) : Except Error (List Char) :=
  match unescape (raw.foldr (fun c acc => utf8Bytes c ++ acc) []) with
  | .error e => .error e
  | .ok decoded =>
    if validEncoded (raw.foldr (fun c acc => utf8Bytes c ++ acc) []) mode then .ok raw
    else .ok ((escape decoded mode).map Char.ofNat)

/-- A stand-in for `url.Parse` followed by `String`, for evaluating the handlers on concrete
requests, for a text that begins with a plain `scheme://host` (as `ObjectIRI` does).  As
`url.Parse` does, it rejects a text with an ASCII control character, cuts off the fragment and
then the query, and rejects a path or fragment with a `%` that is not followed by two
hexadecimal digits; the query is kept as written.  The text of the result is what `String`
renders: path and fragment as written when validly encoded, escaped anew otherwise. -/
def sampleURLParse (s : String) : Except Error URL :=
  if s.data.any (fun c => c.toNat < 32 || c.toNat == 127) then
    .error (.msg "net/url: invalid control character in URL")
  else
    match escaped (cutAt '?' (cutAt '#' s.data).1).1 .encodePath with
    | .error e => .error e
    | .ok path =>
      match escaped ((cutAt '#' s.data).2.getD []) .encodeFragment with
      | .error e => .error e
      | .ok fragment =>
        .ok { text := String.mk (path
                ++ (match (cutAt '?' (cutAt '#' s.data).1).2 with
                    | none => []
                    | some query => '?' :: query)
                ++ (if fragment = [] then [] else '#' :: fragment)) }

/-- The three activities of the sample store. -/
def sampleActivities : List ActivityType :=
  [{ ID := "https://org1.com/services/service1/activities/a1", Body := "Create" },
   { ID := "https://org1.com/services/service1/activities/a2", Body := "Announce" },
   { ID := "https://org1.com/services/service1/activities/a3", Body := "Like" }]

/-- A stand-in for `storeutil.GetQueryOptions`: the options applied in order to the defaults
(page number and page size `-1`). -/
def sampleGetQueryOptions : List QueryOpt → QueryOptions
  | [] => { PageNumber := -1, PageSize := -1, SortOrder := .SortAscending }
  | .WithPageSize n :: rest => { sampleGetQueryOptions rest with PageSize := n }
  | .WithPageNum n :: rest => { sampleGetQueryOptions rest with PageNumber := n }
  | .WithSortOrder o :: rest => { sampleGetQueryOptions rest with SortOrder := o }

/-- A sample handler over a store with three activities.  The path variable `signature` of a
request decides what the verifier returns: `valid` verifies, `invalid` does not, anything else
is an error.  The marshaller is a stand-in that renders a document as a few bytes. -/
def sampleRestHandler : Handler :=
  { ObjectIRI := ⟨"https://org1.com/services/service1"⟩
    PageSize := 2
    endpoint := "/services/service1"
    VerifyRequest := fun req =>
      match req.vars.lookup "signature" with
      | some "valid" => (true, some ⟨"https://org2.com/services/service2"⟩, none)
      | some "invalid" => (false, none, none)
      | _ => (false, none, some (.msg "unable to fetch the actor key"))
    GetActivity := fun iri =>
      match sampleActivities.find? (fun a => a.ID == iri.text) with
      | some a => .ok a
      | none => .error (.wrap "activity" ErrNotFound)
    QueryReferences := fun _ _ =>
      .ok { TotalItems := 3, closeErr := none, refs := sampleActivities.map (fun a => ⟨a.ID⟩) }
    QueryActivities := fun _ _ _ =>
      .ok { TotalItems := 3, closeErr := none, activities := sampleActivities }
    marshal := fun d =>
      match d with
      | .activity a => .ok [1, a.ID.length]
      | .orderedCollection c => .ok [2, c.TotalItems.toNat, c.Items.length]
      | .orderedCollectionPage p => .ok [3, p.TotalItems.toNat, p.Items.length]
    getIDParam := fun req => (req.vars.lookup "id").getD ""
    isPaging := fun req => req.query.lookup "page" == some "true"
    getPageNum := fun req => if req.query.lookup "page-num" == some "1" then some 1 else none
    getPageURL := fun id n =>
      .ok ⟨id.text ++ (if n < 0 then "?page=true" else "?page=true&page-num=" ++ toString n)⟩
    getIDPrevNextURL := fun id _ options =>
      if options.PageNumber < 0 then .ok (⟨id.text ++ "?page=true"⟩, none, none)
      else .ok (⟨id.text ++ "?page=true&page-num=1"⟩, some ⟨id.text ++ "?page=true&page-num=2"⟩,
        some ⟨id.text ++ "?page=true&page-num=0"⟩)
    getLastPageNum := fun _ _ sortOrder =>
      match sortOrder with
      | .SortDescending => 0
      | .SortAscending => 1
    GetQueryOptions := sampleGetQueryOptions
    ReadActivities := fun it n => .ok (it.activities.take n.toNat)
    urlParse := sampleURLParse }

/-- The sample `activities/{id}` handler. -/
def sampleActivity : Activity := { handler := sampleRestHandler }

/-- The sample `inbox` handler. -/
def sampleInbox : Activities :=
  { handler := sampleRestHandler, refType := .Inbox,
    getID := fun objectIRI => .ok ⟨objectIRI.text ++ "/inbox"⟩,
    getObjectIRI := fun _ => .ok sampleRestHandler.ObjectIRI }

/-- C1: on the success path (Watch succeeds, the proof parses, the store returns a credential
with at most one proof, AddProof succeeds) `HandleProof` returns no error, calls
`WitnessStore.AddProof` exactly once, with the credential id, the witness IRI text and the raw
proof bytes, and sends exactly one credential downstream: the loaded credential with the parsed
proof appended as the last element of its proof list. -/
theorem HandleProof_success_path {σ : Type} (P : Providers σ) (h : WitnessProofHandler σ)
    (witness : URL) (anchorCredID : String) (startTime endTime : Time) (proof : Bytes)
    (witnessProof : VctProof) (vc : Credential) (w1 w2 w3 : σ)
    (hWatch : P.Watch anchorCredID endTime proof h.world = (none, w1))
    (hParse : P.Unmarshal proof = .ok witnessProof)
    (hGet : P.StoreGet anchorCredID w1 = (.ok vc, w2))
    (hLen : vc.Proofs.length ≤ 1)
    (hAdd : P.AddProof anchorCredID witness.String proof w2 = (none, w3)) :
    (HandleProof P h witness anchorCredID startTime endTime proof).1 = none ∧
    addProofCalls (newCalls h.calls.length
        (HandleProof P h witness anchorCredID startTime endTime proof).2.calls)
      = [(anchorCredID, witness.String, proof)] ∧
    sendCalls (newCalls h.calls.length
        (HandleProof P h witness anchorCredID startTime endTime proof).2.calls)
      = [{ vc with Proofs := vc.Proofs ++ [witnessProof.Proof] }] ∧
    (HandleProof P h witness anchorCredID startTime endTime proof).2.vcCh
      = h.vcCh ++ [{ vc with Proofs := vc.Proofs ++ [witnessProof.Proof] }] ∧
    (HandleProof P h witness anchorCredID startTime endTime proof).2.world = w3 := by
  have hlt : ¬ vc.Proofs.length > 1 := by omega
  simp [HandleProof, hWatch, hParse, hGet, hlt, hAdd, newCalls, addProofCalls, sendCalls]

/-- The success path of C1 at a concrete input: witness `w1` submits its proof document for
`vc1`. -/
theorem HandleProof_success_path_witness :
    (HandleProof (World.providers sampleUnmarshal) sampleHandler ⟨"https://w1.example"⟩ "vc1"
        0 300 sampleProofA).1 = none ∧
    addProofCalls (newCalls sampleHandler.calls.length
        (HandleProof (World.providers sampleUnmarshal) sampleHandler ⟨"https://w1.example"⟩ "vc1"
          0 300 sampleProofA).2.calls)
      = [("vc1", "https://w1.example", sampleProofA)] ∧
    sendCalls (newCalls sampleHandler.calls.length
        (HandleProof (World.providers sampleUnmarshal) sampleHandler ⟨"https://w1.example"⟩ "vc1"
          0 300 sampleProofA).2.calls)
      = [{ ID := "vc1", Body := "anchor", Proofs := [[("jws", "issuer")], [("jws", "a")]] }] ∧
    (HandleProof (World.providers sampleUnmarshal) sampleHandler ⟨"https://w1.example"⟩ "vc1"
        0 300 sampleProofA).2.vcCh
      = [{ ID := "vc1", Body := "anchor", Proofs := [[("jws", "issuer")], [("jws", "a")]] }] :=
  have key := HandleProof_success_path (World.providers sampleUnmarshal) sampleHandler
    ⟨"https://w1.example"⟩ "vc1" 0 300 sampleProofA
    { Context := [], Proof := [("jws", "a")] }
    { ID := "vc1", Body := "anchor", Proofs := [[("jws", "issuer")]] }
    { sampleWorld with watched := [("vc1", 300, sampleProofA)] }
    { sampleWorld with watched := [("vc1", 300, sampleProofA)] }
    { sampleWorld with
      watched := [("vc1", 300, sampleProofA)]
      witnesses := { records := [("vc1", ⟨.Batch, "https://w1.example", sampleProofA⟩),
                                 ("vc1", ⟨.Batch, "https://w2.example", []⟩)] } }
    rfl rfl rfl (by decide) rfl
  ⟨key.1, key.2.1, key.2.2.1, key.2.2.2.1⟩

/-- C2: when the credential that `HandleProof` loads already carries more than one proof, the
call returns no error, does not call `WitnessStore.AddProof` and sends nothing downstream.
That a credential was loaded means `Store.Get` was called in this run, which the trace
shows. -/
theorem HandleProof_already_witnessed {σ : Type} (P : Providers σ) (h : WitnessProofHandler σ)
    (witness : URL) (anchorCredID : String) (startTime endTime : Time) (proof : Bytes)
    (vc : Credential) (w2 : σ)
    (hLoaded : storeGetCalls (newCalls h.calls.length
        (HandleProof P h witness anchorCredID startTime endTime proof).2.calls) = [anchorCredID])
    (hGet : P.StoreGet anchorCredID (P.Watch anchorCredID endTime proof h.world).2 = (.ok vc, w2))
    (hLen : vc.Proofs.length > 1) :
    (HandleProof P h witness anchorCredID startTime endTime proof).1 = none ∧
    addProofCalls (newCalls h.calls.length
        (HandleProof P h witness anchorCredID startTime endTime proof).2.calls) = [] ∧
    sendCalls (newCalls h.calls.length
        (HandleProof P h witness anchorCredID startTime endTime proof).2.calls) = [] ∧
    (HandleProof P h witness anchorCredID startTime endTime proof).2.vcCh = h.vcCh := by
  revert hLoaded hGet
  unfold HandleProof
  rcases hW : P.Watch anchorCredID endTime proof h.world with ⟨e | _, w1⟩
  · rcases hU : P.Unmarshal proof with err | wp
    · simp [newCalls, storeGetCalls]
    · intro _ hGet
      simp only at hGet
      simp [hGet, hLen, newCalls, addProofCalls, sendCalls]
  · simp [newCalls, storeGetCalls]

/-- The already-witnessed exit of C2 at a concrete input: `vc1` carries two proofs. -/
theorem HandleProof_already_witnessed_witness :
    (HandleProof (World.providers sampleUnmarshal) ⟨witnessedWorld, [], []⟩
        ⟨"https://w1.example"⟩ "vc1" 0 300 sampleProofA).1 = none ∧
    addProofCalls (newCalls 0
        (HandleProof (World.providers sampleUnmarshal) ⟨witnessedWorld, [], []⟩
          ⟨"https://w1.example"⟩ "vc1" 0 300 sampleProofA).2.calls) = [] ∧
    sendCalls (newCalls 0
        (HandleProof (World.providers sampleUnmarshal) ⟨witnessedWorld, [], []⟩
          ⟨"https://w1.example"⟩ "vc1" 0 300 sampleProofA).2.calls) = [] ∧
    (HandleProof (World.providers sampleUnmarshal) ⟨witnessedWorld, [], []⟩
        ⟨"https://w1.example"⟩ "vc1" 0 300 sampleProofA).2.vcCh = [] :=
  HandleProof_already_witnessed (World.providers sampleUnmarshal) ⟨witnessedWorld, [], []⟩
    ⟨"https://w1.example"⟩ "vc1" 0 300 sampleProofA
    { ID := "vc1", Body := "anchor", Proofs := [[("jws", "issuer")], [("jws", "w0")]] }
    { witnessedWorld with watched := [("vc1", 300, sampleProofA)] }
    (by decide) rfl (by decide)

/-- C3: when the proof bytes do not parse, `HandleProof` returns an error, does not load the
credential, does not call `WitnessStore.AddProof` and sends nothing downstream. -/
theorem HandleProof_malformed_proof {σ : Type} (P : Providers σ) (h : WitnessProofHandler σ)
    (witness : URL) (anchorCredID : String) (startTime endTime : Time) (proof : Bytes)
    (err : Error) (hParse : P.Unmarshal proof = .error err) :
    (HandleProof P h witness anchorCredID startTime endTime proof).1 ≠ none ∧
    storeGetCalls (newCalls h.calls.length
        (HandleProof P h witness anchorCredID startTime endTime proof).2.calls) = [] ∧
    addProofCalls (newCalls h.calls.length
        (HandleProof P h witness anchorCredID startTime endTime proof).2.calls) = [] ∧
    sendCalls (newCalls h.calls.length
        (HandleProof P h witness anchorCredID startTime endTime proof).2.calls) = [] ∧
    (HandleProof P h witness anchorCredID startTime endTime proof).2.vcCh = h.vcCh := by
  unfold HandleProof
  rcases hW : P.Watch anchorCredID endTime proof h.world with ⟨e | _, w1⟩
  · simp [hParse, newCalls, storeGetCalls, addProofCalls, sendCalls]
  · simp [newCalls, storeGetCalls, addProofCalls, sendCalls]

/-- The rejection of C3 at a concrete input: empty proof bytes. -/
theorem HandleProof_malformed_proof_witness :
    (HandleProof (World.providers sampleUnmarshal) sampleHandler ⟨"https://w1.example"⟩ "vc1"
        0 300 []).1 ≠ none ∧
    storeGetCalls (newCalls sampleHandler.calls.length
        (HandleProof (World.providers sampleUnmarshal) sampleHandler ⟨"https://w1.example"⟩ "vc1"
          0 300 []).2.calls) = [] ∧
    addProofCalls (newCalls sampleHandler.calls.length
        (HandleProof (World.providers sampleUnmarshal) sampleHandler ⟨"https://w1.example"⟩ "vc1"
          0 300 []).2.calls) = [] ∧
    sendCalls (newCalls sampleHandler.calls.length
        (HandleProof (World.providers sampleUnmarshal) sampleHandler ⟨"https://w1.example"⟩ "vc1"
          0 300 []).2.calls) = [] ∧
    (HandleProof (World.providers sampleUnmarshal) sampleHandler ⟨"https://w1.example"⟩ "vc1"
        0 300 []).2.vcCh = sampleHandler.vcCh :=
  HandleProof_malformed_proof (World.providers sampleUnmarshal) sampleHandler
    ⟨"https://w1.example"⟩ "vc1" 0 300 [] (.msg "unexpected end of JSON input") rfl

/-- C4: every call of `HandleProof` calls `MonitoringSvc.Watch` exactly once, as its first
action, with the credential id, the end time and the raw proof bytes; and if `Watch` returns an
error, `HandleProof` returns an error wrapping it and neither loads the credential, nor calls
`AddProof`, nor sends anything downstream. -/
theorem HandleProof_watch_first {σ : Type} (P : Providers σ) (h : WitnessProofHandler σ)
    (witness : URL) (anchorCredID : String) (startTime endTime : Time) (proof : Bytes) :
    (newCalls h.calls.length
        (HandleProof P h witness anchorCredID startTime endTime proof).2.calls).head?
      = some (.Watch anchorCredID endTime proof) ∧
    watchCalls (newCalls h.calls.length
        (HandleProof P h witness anchorCredID startTime endTime proof).2.calls)
      = [(anchorCredID, endTime, proof)] ∧
    (∀ err, (P.Watch anchorCredID endTime proof h.world).1 = some err →
      (∃ e, (HandleProof P h witness anchorCredID startTime endTime proof).1 = some e ∧
        e.Unwrap = some err) ∧
      newCalls h.calls.length
          (HandleProof P h witness anchorCredID startTime endTime proof).2.calls
        = [.Watch anchorCredID endTime proof] ∧
      (HandleProof P h witness anchorCredID startTime endTime proof).2.vcCh = h.vcCh) := by
  unfold HandleProof
  rcases hW : P.Watch anchorCredID endTime proof h.world with ⟨e | _, w1⟩
  · rcases hU : P.Unmarshal proof with err | wp
    · simp [newCalls, watchCalls]
    · dsimp only
      rcases hG : P.StoreGet anchorCredID w1 with ⟨err | vc, w2⟩
      · simp [newCalls, watchCalls]
      · dsimp only
        by_cases hl : vc.Proofs.length > 1
        · simp [hl, newCalls, watchCalls]
        · rw [if_neg hl]
          rcases hA : P.AddProof anchorCredID witness.String proof w2 with ⟨e | _, w3⟩
          · simp [newCalls, watchCalls]
          · simp [newCalls, watchCalls]
  · simp [newCalls, watchCalls, Error.Unwrap]

/-- The failing-monitor case of C4 at a concrete input: the monitoring service is down. -/
theorem HandleProof_watch_first_witness :
    (∃ e, (HandleProof (World.providers sampleUnmarshal) ⟨unmonitoredWorld, [], []⟩
          ⟨"https://w1.example"⟩ "vc1" 0 300 sampleProofA).1 = some e ∧
        e.Unwrap = some (.msg "monitoring unavailable")) ∧
    newCalls 0 (HandleProof (World.providers sampleUnmarshal) ⟨unmonitoredWorld, [], []⟩
        ⟨"https://w1.example"⟩ "vc1" 0 300 sampleProofA).2.calls = [.Watch "vc1" 300 sampleProofA] ∧
    (HandleProof (World.providers sampleUnmarshal) ⟨unmonitoredWorld, [], []⟩
        ⟨"https://w1.example"⟩ "vc1" 0 300 sampleProofA).2.vcCh = [] :=
  (HandleProof_watch_first (World.providers sampleUnmarshal) ⟨unmonitoredWorld, [], []⟩
    ⟨"https://w1.example"⟩ "vc1" 0 300 sampleProofA).2.2 (.msg "monitoring unavailable") rfl

/-! ### The handler over the collaborators of the specification -/

theorem fillProof_fst (id w : String) (p : Bytes) (r : String × WitnessProof) :
    (fillProof id w p r).1 = r.1 := by
  unfold fillProof; split <;> rfl

theorem fillProof_Witness (id w : String) (p : Bytes) (r : String × WitnessProof) :
    (fillProof id w p r).2.Witness = r.2.Witness := by
  unfold fillProof; split <;> rfl

theorem isRecordOf_fillProof (id w id1 w1 : String) (p : Bytes) (r : String × WitnessProof) :
    isRecordOf id1 w1 (fillProof id w p r) = isRecordOf id1 w1 r := by
  simp [isRecordOf, fillProof_fst, fillProof_Witness]

theorem filter_map_fillProof (id w id1 w1 : String) (p : Bytes)
    (recs : List (String × WitnessProof)) :
    (recs.map (fillProof id w p)).filter (isRecordOf id1 w1)
      = (recs.filter (isRecordOf id1 w1)).map (fillProof id w p) := by
  induction recs with
  | nil => rfl
  | cons r rs ih =>
    by_cases hr : isRecordOf id1 w1 r = true
    · simp [List.filter_cons, isRecordOf_fillProof, hr, ih]
    · simp [List.filter_cons, isRecordOf_fillProof, hr, ih]

theorem WitnessStore_Get_ok (s : WitnessStore) (id : String)
    (hne : (s.records.filter (fun r => r.1 == id)).length ≠ 0) :
    s.Get id = .ok ((s.records.filter (fun r => r.1 == id)).map (fun r => r.2)) := by
  unfold WitnessStore.Get
  cases hL : (s.records.filter (fun r => r.1 == id)).map (fun r => r.2) with
  | nil =>
    exfalso
    apply hne
    have hlen := congrArg List.length hL
    rw [List.length_map] at hlen
    exact hlen
  | cons w ws => rfl

theorem HandleProof_world_cases (um : Bytes → Except Error VctProof)
    (h : WitnessProofHandler World) (witness : URL) (id : String) (st et : Time)
    (proof : Bytes) :
    (∃ wp vc, h.world.monitorErr = none ∧ um proof = .ok wp ∧
        h.world.credentials.find? (fun c => c.ID == id) = some vc ∧ vc.Proofs.length ≤ 1 ∧
        h.world.witnesses.records.any (isRecordOf id witness.String) = true) ∨
    (sendCalls (newCalls h.calls.length
        (HandleProof (World.providers um) h witness id st et proof).2.calls) = [] ∧
      (HandleProof (World.providers um) h witness id st et proof).2.world.witnesses
        = h.world.witnesses) := by
  rcases hM : h.world.monitorErr with _ | e
  · rcases hU : um proof with err | wp
    · right
      simp [HandleProof, World.providers, World.Watch, hM, hU, newCalls, sendCalls]
    · rcases hF : h.world.credentials.find? (fun c => c.ID == id) with _ | vc
      · right
        simp [HandleProof, World.providers, World.Watch, hM, hU, World.StoreGet, hF, newCalls,
          sendCalls]
      · by_cases hl : vc.Proofs.length > 1
        · right
          simp [HandleProof, World.providers, World.Watch, hM, hU, World.StoreGet, hF, hl,
            newCalls, sendCalls]
        · by_cases hA : h.world.witnesses.records.any (isRecordOf id witness.String) = true
          · left
            exact ⟨wp, vc, rfl, rfl, hF, by omega, hA⟩
          · right
            simp [HandleProof, World.providers, World.Watch, hM, hU, World.StoreGet, hF, hl,
              World.AddProof, WitnessStore.AddProof, hA, newCalls, sendCalls]
  · right
    simp [HandleProof, World.providers, World.Watch, hM, newCalls, sendCalls]

theorem forward_preserves (l : List Message) :
    ∀ m : MockPubSub, (m.forward l).2.Err = m.Err ∧ (m.forward l).2.closed = m.closed ∧
      (m.forward l).2.MsgChan = m.MsgChan := by
  induction l with
  | nil => intro m; simp [MockPubSub.forward]
  | cons msg rest ih =>
    intro m
    simp only [MockPubSub.forward]
    split
    · exact ih _
    · split
      · simp
      · split
        · exact ih _
        · simp
        · simp

theorem closeAll_preserves (l : List (String × Nat)) :
    ∀ m : MockPubSub, (m.closeAll l).2.Err = m.Err ∧ (m.closeAll l).2.closed = m.closed := by
  induction l with
  | nil => intro m; simp [MockPubSub.closeAll]
  | cons e rest ih =>
    intro m
    simp only [MockPubSub.closeAll]
    split
    · simp
    · split
      · simp
      · exact ih _

theorem Close_returned (m m1 : MockPubSub) (hErr : m.Err = none)
    (hClose : m.Close = (.returned none, m1)) : m1.Err = none ∧ m1.closed = true := by
  unfold MockPubSub.Close at hClose
  rw [hErr] at hClose
  simp only at hClose
  split at hClose
  · cases hClose
  · split at hClose
    · rename_i m2 hfw
      unfold MockPubSub.handleUndeliverable at hfw
      have hm2 := congrArg Prod.snd hfw
      have hm1 := congrArg Prod.snd hClose
      simp only at hm1 hm2
      subst hm2
      subst hm1
      constructor
      · rw [(closeAll_preserves _ _).1, (forward_preserves _ _).1]
      · rw [(closeAll_preserves _ _).2, (forward_preserves _ _).2.1]
    · cases hClose
    · cases hClose


theorem step_closed (m : MockPubSub) (op : Op) (hErr : m.Err = none) (hClosed : m.closed = true) :
    (m.step op).Err = none ∧ (m.step op).closed = true := by
  cases op with
  | subscribe topic => simp [MockPubSub.step, MockPubSub.Subscribe, hErr, hClosed]
  | publish topic messages => simp [MockPubSub.step, MockPubSub.Publish, hErr, hClosed]
  | check msg sel =>
    cases sel <;>
      simp [MockPubSub.step, MockPubSub.check, MockPubSub.postToUndeliverable, hErr, hClosed]
  | handleUndeliverable =>
    simp only [MockPubSub.step, MockPubSub.handleUndeliverable]
    rw [(forward_preserves _ _).1, (forward_preserves _ _).2.1]
    exact ⟨hErr, hClosed⟩

theorem run_closed (ops : List Op) :
    ∀ m : MockPubSub, m.Err = none → m.closed = true →
      (m.run ops).Err = none ∧ (m.run ops).closed = true := by
  induction ops with
  | nil => intro m hE hC; exact ⟨hE, hC⟩
  | cons op rest ih =>
    intro m hE hC
    simp only [MockPubSub.run]
    exact ih _ (step_closed m op hE hC).1 (step_closed m op hE hC).2

/-- C7: once `Close` has returned without error on a pubsub with no injected error, every later
`Publish`, whatever operations came in between, on any topic and with any messages, returns
the error `closed` and leaves the pubsub as it was, so no message is queued on any subscriber
stream. -/
theorem Publish_after_Close (m m1 : MockPubSub) (hErr : m.Err = none)
    (hClose : m.Close = (.returned none, m1)) (ops : List Op) (topic : String)
    (messages : List Message) :
    ((m1.run ops).Publish topic messages).1 = .returned (some (.msg "closed")) ∧
    ((m1.run ops).Publish topic messages).2 = m1.run ops ∧
    ∀ ref, ((m1.run ops).Publish topic messages).2.stream ref = (m1.run ops).stream ref := by
  obtain ⟨hE, hC⟩ := Close_returned m m1 hErr hClose
  obtain ⟨hE1, hC1⟩ := run_closed ops m1 hE hC
  simp [MockPubSub.Publish, hE1, hC1]

/-- C7 at a concrete input: a pubsub with three subscriptions is closed, a subscribe is tried,
and then a message is published. -/
theorem Publish_after_Close_witness :
    (((samplePubSub.Close).2.run [.subscribe "a"]).Publish "a" [sampleMessage]).1
      = .returned (some (.msg "closed")) ∧
    (((samplePubSub.Close).2.run [.subscribe "a"]).Publish "a" [sampleMessage]).2
      = (samplePubSub.Close).2.run [.subscribe "a"] ∧
    ∀ ref, (((samplePubSub.Close).2.run [.subscribe "a"]).Publish "a" [sampleMessage]).2.stream ref
      = ((samplePubSub.Close).2.run [.subscribe "a"]).stream ref :=
  Publish_after_Close samplePubSub (samplePubSub.Close).2 (by decide) (by decide)
    [.subscribe "a"] "a" [sampleMessage]

theorem publishLoop_room (r : Nat) (msgs : List Message) :
    ∀ (m : MockPubSub) (c : Chan), m.streams.get? r = some c → c.closed = false →
      c.buf.length + msgs.length ≤ maxBufferSize →
      (m.publishLoop (some r) msgs).1 = .returned none ∧
      (m.publishLoop (some r) msgs).2.streams
        = m.streams.set r { c with buf := c.buf ++ msgs.map Message.Copy } ∧
      (m.publishLoop (some r) msgs).2.checks = m.checks ++ msgs.map Message.Copy := by
  induction msgs with
  | nil =>
    intro m c hget _ _
    simp only [MockPubSub.publishLoop, List.map_nil, List.append_nil, true_and]
    have hlt : r < m.streams.length := by
      rcases Nat.lt_or_ge r m.streams.length with h | h
      · exact h
      · rw [List.get?_eq_none.mpr h] at hget; cases hget
    refine ⟨?_, trivial⟩
    apply List.ext_get?
    intro n
    rw [List.get?_eq_getElem?, List.get?_eq_getElem?, List.getElem?_set]
    by_cases hn : r = n
    · subst hn
      rw [List.get?_eq_getElem?] at hget
      simp [hlt, hget]
    · simp [hn]
  | cons msg rest ih =>
    intro m c hget hopen hroom
    have hlt : r < m.streams.length := by
      rcases Nat.lt_or_ge r m.streams.length with h | h
      · exact h
      · rw [List.get?_eq_none.mpr h] at hget; cases hget
    simp only [List.length_cons] at hroom
    have hsend : c.send msg.Copy = .returned { c with buf := c.buf ++ [msg.Copy] } := by
      unfold Chan.send
      have : c.buf.length < maxBufferSize := by omega
      simp [hopen, this]
    have hget1 : (m.streams.set r { c with buf := c.buf ++ [msg.Copy] }).get? r
        = some { c with buf := c.buf ++ [msg.Copy] } := by
      rw [List.get?_eq_getElem?, List.getElem?_set]
      simp [hlt]
    have hrec := ih
      { m with streams := m.streams.set r { c with buf := c.buf ++ [msg.Copy] },
               checks := m.checks ++ [msg.Copy] }
      { c with buf := c.buf ++ [msg.Copy] } hget1 hopen
      (by simp only [List.length_append, List.length_singleton]; omega)
    simp only [MockPubSub.publishLoop, hget, hsend]
    refine ⟨hrec.1, ?_, ?_⟩
    · rw [hrec.2.1]
      simp [List.set_set]
    · rw [hrec.2.2]
      simp


theorem publishLoop_preserves (r : Option Nat) (msgs : List Message) :
    ∀ m : MockPubSub, (m.publishLoop r msgs).2.MsgChan = m.MsgChan ∧
      (m.publishLoop r msgs).2.closed = m.closed ∧
      (m.publishLoop r msgs).2.undeliverableChan = m.undeliverableChan := by
  induction msgs with
  | nil => intro m; simp [MockPubSub.publishLoop]
  | cons msg rest ih =>
    intro m
    simp only [MockPubSub.publishLoop]
    split
    · simp
    · split
      · simp
      · split
        · exact ih _
        · simp
        · simp

theorem forward_delivers (u : Nat) (l : List Message) :
    ∀ m m1 : MockPubSub, m.msgChan UndeliverableTopic = some u →
      m.forward l = (.returned (), m1) → m1.stream u = m.stream u ++ l := by
  induction l with
  | nil =>
    intro m m1 _ hf
    simp only [MockPubSub.forward, Prod.mk.injEq, true_and] at hf
    subst hf
    simp
  | cons msg rest ih =>
    intro m m1 hu hf
    have hu1 : MockPubSub.msgChan
        { m with undeliverableChan := { m.undeliverableChan with buf := rest } }
        UndeliverableTopic = some u := hu
    simp only [MockPubSub.forward, hu1] at hf
    split at hf
    · cases hf
    · rename_i c hg
      have hlt : u < m.streams.length := by
        rcases Nat.lt_or_ge u m.streams.length with h | h
        · exact h
        · rw [List.get?_eq_none.mpr h] at hg; cases hg
      unfold Chan.send at hf
      by_cases hc : c.closed = true
      · simp [hc] at hf
      · by_cases hroom : c.buf.length < maxBufferSize
        · simp only [hc, hroom, if_true, if_false] at hf
          have hrec := ih _ m1 (by exact hu) hf
          rw [hrec]
          have hg1 : m.streams.get? u = some c := hg
          simp only [MockPubSub.stream, hg1]
          rw [List.get?_eq_getElem?, List.getElem?_set]
          simp [hlt]
        · simp [hc, hroom] at hf

theorem forward_room (u : Nat) (l : List Message) :
    ∀ (m : MockPubSub) (c : Chan), m.msgChan UndeliverableTopic = some u →
      m.streams.get? u = some c → c.closed = false →
      c.buf.length + l.length ≤ maxBufferSize → (m.forward l).1 = .returned () := by
  induction l with
  | nil => intro m c _ _ _ _; rfl
  | cons msg rest ih =>
    intro m c hu hget hopen hroom
    have hu1 : MockPubSub.msgChan
        { m with undeliverableChan := { m.undeliverableChan with buf := rest } }
        UndeliverableTopic = some u := hu
    have hlt : u < m.streams.length := by
      rcases Nat.lt_or_ge u m.streams.length with h | h
      · exact h
      · rw [List.get?_eq_none.mpr h] at hget; cases hget
    have hroom1 : c.buf.length < maxBufferSize := by
      simp only [List.length_cons] at hroom
      omega
    simp only [MockPubSub.forward, hu1, hget, Chan.send, hopen, hroom1, Bool.false_eq_true,
      if_false, if_true]
    refine ih _ ⟨c.buf ++ [msg], false⟩ (by exact hu) ?_ rfl ?_
    · rw [List.get?_eq_getElem?, List.getElem?_set]
      simp [hlt]
    · simp only [List.length_append, List.length_cons, List.length_nil] at hroom ⊢
      omega

/-- C8 (as amended): on an open pubsub with no injected error, where the topic and the
undeliverable topic each have a subscriber whose stream is open and no channel buffer is full
(the topic's stream has room for the message, the undeliverable queue has room for it, and the
stream of the undeliverable subscriber has room for what is queued and the message), when a
message is published to the topic and its subscriber nacks it or lets `Timeout` elapse,
`Publish`, `check` and the `handleUndeliverable` loop all complete, and the published copy is
delivered to the subscriber of the undeliverable topic, after whatever was still queued for
it; the copy has the identifier, the payload and the metadata of the original, unchanged, so
nothing in it names the source topic. -/
theorem nacked_message_routed (m : MockPubSub) (topic : String) (msg : Message)
    (sel : Select) (r u : Nat) (c cu : Chan)
    (hErr : m.Err = none) (hOpen : m.closed = false)
    (hTopic : m.msgChan topic = some r) (hChan : m.streams.get? r = some c)
    (hChanOpen : c.closed = false) (hChanRoom : c.buf.length < maxBufferSize)
    (hSub : m.msgChan UndeliverableTopic = some u) (hUChan : m.streams.get? u = some cu)
    (hUOpen : cu.closed = false)
    (hQueueOpen : m.undeliverableChan.closed = false)
    (hQueueRoom : m.undeliverableChan.buf.length < maxBufferSize)
    (hURoom : cu.buf.length + (if r = u then 1 else 0) + m.undeliverableChan.buf.length + 1
      ≤ maxBufferSize)
    (hSel : sel = .nacked ∨ sel = .timedOut) :
    (m.Publish topic [msg]).1 = .returned none ∧
    ((m.Publish topic [msg]).2.check msg.Copy sel).1 = .returned () ∧
    ((m.Publish topic [msg]).2.check msg.Copy sel).2.handleUndeliverable.1 = .returned () ∧
    (m.publishAndFail topic msg sel).stream u
      = (m.Publish topic [msg]).2.stream u ++ m.undeliverableChan.buf ++ [msg.Copy] ∧
    msg.Copy.UUID = msg.UUID ∧ msg.Copy.Payload = msg.Payload ∧
    msg.Copy.Metadata = msg.Metadata := by
  have hpub : m.Publish topic [msg] = m.publishLoop (some r) [msg] := by
    simp [MockPubSub.Publish, hErr, hOpen, hTopic]
  obtain ⟨hret, hstreams, _⟩ := publishLoop_room r [msg] m c hChan hChanOpen
    (by simp only [List.length_cons, List.length_nil]; omega)
  obtain ⟨hMap, hCl, hUnd⟩ := publishLoop_preserves (some r) [msg] m
  rw [← hpub] at hret hstreams hMap hCl hUnd
  have hlt : r < m.streams.length := by
    rcases Nat.lt_or_ge r m.streams.length with h | h
    · exact h
    · rw [List.get?_eq_none.mpr h] at hChan; cases hChan
  have hcheck : (m.Publish topic [msg]).2.check msg.Copy sel
      = (.returned (),
          { (m.Publish topic [msg]).2 with
            checks := (m.Publish topic [msg]).2.checks.erase msg.Copy,
            undeliverableChan :=
              { (m.Publish topic [msg]).2.undeliverableChan with
                buf := m.undeliverableChan.buf ++ [msg.Copy] } }) := by
    have hpost : (m.Publish topic [msg]).2.check msg.Copy sel
        = MockPubSub.postToUndeliverable
            { (m.Publish topic [msg]).2 with
              checks := (m.Publish topic [msg]).2.checks.erase msg.Copy } msg.Copy := by
      rcases hSel with rfl | rfl <;> rfl
    rw [hpost]
    simp [MockPubSub.postToUndeliverable, Chan.send, hCl, hOpen, hUnd, hQueueOpen, hQueueRoom]
  have hu1 : (m.Publish topic [msg]).2.msgChan UndeliverableTopic = some u := by
    unfold MockPubSub.msgChan at hSub ⊢
    rw [hMap]; exact hSub
  obtain ⟨cu1, hget1, hopen1, hlen1⟩ : ∃ cu1, (m.Publish topic [msg]).2.streams.get? u = some cu1 ∧
      cu1.closed = false ∧ cu1.buf.length = cu.buf.length + (if r = u then 1 else 0) := by
    rw [hstreams, List.get?_eq_getElem?, List.getElem?_set]
    by_cases hru : r = u
    · subst hru
      rw [hChan] at hUChan
      cases hUChan
      exact ⟨{ c with buf := c.buf ++ List.map Message.Copy [msg] }, by simp [hlt], hChanOpen,
        by simp⟩
    · refine ⟨cu, ?_, hUOpen, by simp [hru]⟩
      rw [List.get?_eq_getElem?] at hUChan
      simp [hru, hUChan]
  have hfwd : ((m.Publish topic [msg]).2.check msg.Copy sel).2.handleUndeliverable.1
      = .returned () := by
    rw [hcheck]
    unfold MockPubSub.handleUndeliverable
    apply forward_room u _ _ cu1 (by exact hu1) (by exact hget1) hopen1
    simp only [List.length_append, List.length_cons, List.length_nil]
    omega
  refine ⟨hret, by rw [hcheck], hfwd, ?_, rfl, rfl, rfl⟩
  have hd := forward_delivers u (m.undeliverableChan.buf ++ [msg.Copy])
    ((m.Publish topic [msg]).2.check msg.Copy sel).2
    ((m.Publish topic [msg]).2.check msg.Copy sel).2.handleUndeliverable.2
    (by rw [hcheck]; exact hu1)
    (by
      have h1 := hfwd
      unfold MockPubSub.handleUndeliverable at h1 ⊢
      rw [hcheck] at h1 ⊢
      exact Prod.ext h1 rfl)
  unfold MockPubSub.publishAndFail
  rw [hd, hcheck]
  simp [MockPubSub.stream, List.append_assoc]

/-- C8 (as amended) at a concrete input: the sample message is published on topic `a` and
nacked. -/
theorem nacked_message_routed_witness :
    (samplePubSub.Publish "a" [sampleMessage]).1 = .returned none ∧
    ((samplePubSub.Publish "a" [sampleMessage]).2.check sampleMessage.Copy .nacked
      ).2.handleUndeliverable.1 = .returned () ∧
    (samplePubSub.publishAndFail "a" sampleMessage .nacked).stream 0
      = (samplePubSub.Publish "a" [sampleMessage]).2.stream 0
          ++ samplePubSub.undeliverableChan.buf ++ [sampleMessage.Copy] ∧
    sampleMessage.Copy.UUID = sampleMessage.UUID ∧
    sampleMessage.Copy.Payload = sampleMessage.Payload ∧
    sampleMessage.Copy.Metadata = sampleMessage.Metadata :=
  have key := nacked_message_routed samplePubSub "a" sampleMessage .nacked 1 0 Chan.make Chan.make
    (by decide) (by decide) (by decide) (by decide) (by decide) (by decide) (by decide)
    (by decide) (by decide) (by decide) (by decide) (by decide) (by decide)
  ⟨key.1, key.2.2.1, key.2.2.2.1, key.2.2.2.2⟩

/-- C8 as stated fails: the sample message, published on topic `a` and nacked, reaches the
subscriber of the undeliverable topic exactly as it was published, and so does the same message
published on topic `b`; the delivered message carries no metadata entry naming the topic it
came from. -/
theorem undeliverable_source_topic_counterexample :
    (samplePubSub.publishAndFail "a" sampleMessage .nacked).stream 0 = [sampleMessage] ∧
    (samplePubSub.publishAndFail "b" sampleMessage .nacked).stream 0 = [sampleMessage] ∧
    ¬ ∃ d ∈ (samplePubSub.publishAndFail "a" sampleMessage .nacked).stream 0,
        d.Payload = sampleMessage.Payload ∧ ∃ kv ∈ d.Metadata, kv.2 = "a" := by
  decide


theorem getElem?_two_last {α : Type} (l : List α) (a b : α) :
    (l ++ [a] ++ [b])[l.length + 1]? = some b := by
  rw [List.getElem?_append_right (by simp)]
  simp

theorem getElem?_two_first {α : Type} (l : List α) (a b : α) :
    (l ++ [a] ++ [b])[l.length]? = some a := by
  rw [List.getElem?_append_left (by simp)]
  rw [List.getElem?_append_right (by simp)]
  simp

/-- C9 (as amended): when `Subscribe` has been called twice for a topic on an open pubsub, the
messages then published on that topic (as many as fit the stream's buffer) are each delivered
exactly once, as copies in publication order, to the stream returned by the second `Subscribe`,
and not at all to the stream returned by the first, which the second call replaced. -/
theorem Subscribe_twice_latest_stream (m : MockPubSub) (topic : String)
    (messages : List Message) (hErr : m.Err = none) (hOpen : m.closed = false)
    (hRoom : messages.length ≤ maxBufferSize) :
    (m.Subscribe topic).1 = .ok m.streams.length ∧
    ((m.Subscribe topic).2.Subscribe topic).1 = .ok (m.streams.length + 1) ∧
    (((m.Subscribe topic).2.Subscribe topic).2.Publish topic messages).1 = .returned none ∧
    (((m.Subscribe topic).2.Subscribe topic).2.Publish topic messages).2.stream
        (m.streams.length + 1) = messages.map Message.Copy ∧
    (((m.Subscribe topic).2.Subscribe topic).2.Publish topic messages).2.stream
        m.streams.length = [] := by
  have hS1 : m.Subscribe topic = (.ok m.streams.length,
      { m with streams := m.streams ++ [Chan.make],
               MsgChan := (topic, m.streams.length) ::
                 m.MsgChan.filter (fun e => !(e.1 == topic)) }) := by
    simp [MockPubSub.Subscribe, hErr, hOpen]
  rw [hS1]
  have hS2 : MockPubSub.Subscribe
      { m with streams := m.streams ++ [Chan.make],
               MsgChan := (topic, m.streams.length) ::
                 m.MsgChan.filter (fun e => !(e.1 == topic)) } topic
      = (.ok (m.streams.length + 1),
        { m with streams := m.streams ++ [Chan.make] ++ [Chan.make],
                 MsgChan := (topic, m.streams.length + 1) ::
                   ((topic, m.streams.length) ::
                     m.MsgChan.filter (fun e => !(e.1 == topic))).filter
                       (fun e => !(e.1 == topic)) }) := by
    simp [MockPubSub.Subscribe, hErr, hOpen]
  rw [hS2]
  refine ⟨rfl, rfl, ?_⟩
  have hget : (m.streams ++ [Chan.make] ++ [Chan.make]).get? (m.streams.length + 1)
      = some Chan.make := by
    rw [List.get?_eq_getElem?]
    exact getElem?_two_last _ _ _
  have hloop := publishLoop_room (m.streams.length + 1) messages
    { m with streams := m.streams ++ [Chan.make] ++ [Chan.make],
             MsgChan := (topic, m.streams.length + 1) ::
               ((topic, m.streams.length) ::
                 m.MsgChan.filter (fun e => !(e.1 == topic))).filter
                   (fun e => !(e.1 == topic)) }
    Chan.make hget rfl (by simpa [Chan.make] using hRoom)
  have hpub : MockPubSub.Publish
      { m with streams := m.streams ++ [Chan.make] ++ [Chan.make],
               MsgChan := (topic, m.streams.length + 1) ::
                 ((topic, m.streams.length) ::
                   m.MsgChan.filter (fun e => !(e.1 == topic))).filter
                     (fun e => !(e.1 == topic)) } topic messages
      = MockPubSub.publishLoop
          { m with streams := m.streams ++ [Chan.make] ++ [Chan.make],
                   MsgChan := (topic, m.streams.length + 1) ::
                     ((topic, m.streams.length) ::
                       m.MsgChan.filter (fun e => !(e.1 == topic))).filter
                         (fun e => !(e.1 == topic)) }
          (some (m.streams.length + 1)) messages := by
    simp [MockPubSub.Publish, hErr, hOpen, MockPubSub.msgChan]
  rw [hpub]
  refine ⟨hloop.1, ?_, ?_⟩
  · simp only [MockPubSub.stream]
    rw [hloop.2.1, List.get?_eq_getElem?, List.getElem?_set]
    simp [Chan.make]
  · simp only [MockPubSub.stream]
    rw [hloop.2.1, List.get?_eq_getElem?, List.getElem?_set]
    rw [if_neg (by omega), getElem?_two_first]
    rfl

/-- C9 at a concrete input: two subscriptions on topic `t` of a new pubsub, then one message. -/
theorem Subscribe_twice_latest_stream_witness :
    (NewPubSub.Subscribe "t").1 = .ok NewPubSub.streams.length ∧
    ((NewPubSub.Subscribe "t").2.Subscribe "t").1 = .ok (NewPubSub.streams.length + 1) ∧
    (((NewPubSub.Subscribe "t").2.Subscribe "t").2.Publish "t" [sampleMessage]).1
      = .returned none ∧
    (((NewPubSub.Subscribe "t").2.Subscribe "t").2.Publish "t" [sampleMessage]).2.stream
        (NewPubSub.streams.length + 1) = [sampleMessage].map Message.Copy ∧
    (((NewPubSub.Subscribe "t").2.Subscribe "t").2.Publish "t" [sampleMessage]).2.stream
        NewPubSub.streams.length = [] :=
  Subscribe_twice_latest_stream NewPubSub "t" [sampleMessage] (by decide) (by decide)
    (by decide)

/-- C9 as stated fails: after two subscriptions on topic `t` of a new pubsub (streams 0 and 1),
a published message is queued once on stream 1 and not at all on stream 0. -/
theorem fan_out_counterexample :
    (((NewPubSub.Subscribe "t").2.Subscribe "t").2.Publish "t" [sampleMessage]).1
      = .returned none ∧
    (((NewPubSub.Subscribe "t").2.Subscribe "t").2.Publish "t" [sampleMessage]).2.stream 0
      = [] ∧
    (((NewPubSub.Subscribe "t").2.Subscribe "t").2.Publish "t" [sampleMessage]).2.stream 1
      = [sampleMessage] ∧
    ¬ ((((NewPubSub.Subscribe "t").2.Subscribe "t").2.Publish "t"
          [sampleMessage]).2.stream 0).count sampleMessage = 1 := by
  decide

/-! ## Theorems: the ActivityPub service -/

/-- C10 (as amended): when the service is stopped, the outbox is stopped first, then the inbox,
then the activity handler; these three calls, in this order, are all that `stop` does. -/
theorem Service_stop_order (s : Service) :
    s.stop.trace = s.trace ++ s.stopCalls ∧
    s.stopCalls = [.Stop .outbox, .Stop .inbox, .Stop .activityHandler] ∧
    happensBefore (.Stop .outbox) (.Stop .inbox) s.stopCalls ∧
    happensBefore (.Stop .inbox) (.Stop .activityHandler) s.stopCalls := by
  have hcalls : s.stopCalls = [.Stop .outbox, .Stop .inbox, .Stop .activityHandler] := by
    simp [Service.stopCalls, Service.stop]
  rw [hcalls]
  refine ⟨rfl, rfl, ?_, ?_⟩ <;> decide

/-- C10 as stated fails: stopping a service does not stop the inbox before the outbox; the
outbox is stopped before the inbox. -/
theorem stop_order_counterexample :
    ¬ happensBefore (.Stop .inbox) (.Stop .outbox) (Service.stopCalls ⟨[]⟩) ∧
    happensBefore (.Stop .outbox) (.Stop .inbox) (Service.stopCalls ⟨[]⟩) := by
  decide


/-! ## Theorems: the REST handlers -/

theorem errors_Is_identity :
    (Error.wrap "activity" ErrNotFound).Is ErrNotFound = true ∧
    (Error.msg "not found").Is ErrNotFound = false ∧
    (Error.wrap "activity" (.msg "not found")).Is ErrNotFound = false := by
  decide

/-- C11 (as amended): for a request carrying a non-empty id, `Activity.handle` first parses the
IRI `<ObjectIRI>/activities/<id>`.  When `url.Parse` rejects it, the handler responds 400 with
no body and does not look anything up in the store.  Otherwise it looks up exactly that IRI in
the store, once; it responds 200 with the marshalled activity when the store returns the
activity, 404 with no body exactly when the store reports `ErrNotFound`, and 500 with no body
for any other store error and for a marshal error. -/
theorem Activity_handle_outcomes (h : Activity) (req : Request)
    (hId : h.handler.getIDParam req ≠ "") :
    (∀ err, h.handler.urlParse
        (h.handler.ObjectIRI.String ++ "/activities/" ++ h.handler.getIDParam req) = .error err →
      responses (h.handle req) = [(StatusBadRequest, [])] ∧ storeCalls (h.handle req) = []) ∧
    (∀ iri, h.handler.urlParse
        (h.handler.ObjectIRI.String ++ "/activities/" ++ h.handler.getIDParam req) = .ok iri →
      storeCalls (h.handle req) = [.GetActivity iri] ∧
      (∀ a bytes, h.handler.GetActivity iri = .ok a →
        h.handler.marshal (.activity a) = .ok bytes →
        responses (h.handle req) = [(StatusOK, bytes)]) ∧
      (responses (h.handle req) = [(StatusNotFound, [])] ↔
        ∃ err, h.handler.GetActivity iri = .error err ∧ err.Is ErrNotFound = true) ∧
      (∀ err, h.handler.GetActivity iri = .error err → err.Is ErrNotFound = false →
        responses (h.handle req) = [(StatusInternalServerError, [])]) ∧
      (∀ a err, h.handler.GetActivity iri = .ok a →
        h.handler.marshal (.activity a) = .error err →
        responses (h.handle req) = [(StatusInternalServerError, [])])) := by
  constructor
  · intro err hParse
    have hIRI : h.getActivityIRI req
        = .error (.wrap ("invalid activity ID [" ++ h.handler.getIDParam req ++ "]") err) := by
      simp [Activity.getActivityIRI, hId, hParse]
    unfold Activity.handle
    rw [hIRI]
    simp [responses, storeCalls]
  · intro iri hParse
    have hIRI : h.getActivityIRI req = .ok iri := by
      simp [Activity.getActivityIRI, hId, hParse]
    unfold Activity.handle
    rw [hIRI]
    simp only
    rcases hG : h.handler.GetActivity iri with err | a
    · by_cases hnf : err.Is ErrNotFound = true
      · simp [hnf, storeCalls, responses, StatusNotFound, StatusInternalServerError]
      · simp [hnf, storeCalls, responses, StatusNotFound, StatusInternalServerError]
    · rcases hM : h.handler.marshal (.activity a) with err | bytes
      · simp [hM, storeCalls, responses, StatusNotFound, StatusInternalServerError, StatusOK]
        intro a1 bytes ha
        subst ha
        rw [hM]
        simp
      · simp [hM, storeCalls, responses, StatusNotFound, StatusInternalServerError, StatusOK]
        constructor
        · intro a1 bytes1 ha hb
          subst ha
          rw [hM] at hb
          cases hb
          rfl
        · intro a1 e ha
          subst ha
          rw [hM]
          simp

/-- C11 (as amended) at concrete inputs: the sample handler is asked for activity `a1`, which
the store holds, and for an activity whose id holds a bad percent escape. -/
theorem Activity_handle_outcomes_witness :
    storeCalls (sampleActivity.handle ⟨[("id", "a1")], []⟩)
      = [.GetActivity ⟨"https://org1.com/services/service1/activities/a1"⟩] ∧
    responses (sampleActivity.handle ⟨[("id", "a1")], []⟩) = [(StatusOK, [1, 48])] ∧
    responses (sampleActivity.handle ⟨[("id", "%zz")], []⟩) = [(StatusBadRequest, [])] ∧
    storeCalls (sampleActivity.handle ⟨[("id", "%zz")], []⟩) = [] :=
  have key := (Activity_handle_outcomes sampleActivity ⟨[("id", "a1")], []⟩ (by decide)).2
    ⟨"https://org1.com/services/service1/activities/a1"⟩ rfl
  have bad := (Activity_handle_outcomes sampleActivity ⟨[("id", "%zz")], []⟩ (by decide)).1
    (.msg "invalid URL escape") rfl
  ⟨key.1, key.2.1 { ID := "https://org1.com/services/service1/activities/a1", Body := "Create" }
    [1, 48] rfl rfl, bad.1, bad.2⟩

/-- C11 as stated fails: a request whose id is not empty but holds the control character DEL,
which `url.Parse` rejects, is answered 400 with no body, without any store lookup, and so with
none of 200, 404 and 500. -/
theorem Activity_id_rejected_counterexample :
    sampleRestHandler.getIDParam ⟨[("id", "a\x7f")], []⟩ ≠ "" ∧
    responses (sampleActivity.handle ⟨[("id", "a\x7f")], []⟩) = [(StatusBadRequest, [])] ∧
    storeCalls (sampleActivity.handle ⟨[("id", "a\x7f")], []⟩) = [] ∧
    ∀ r ∈ responses (sampleActivity.handle ⟨[("id", "a\x7f")], []⟩),
      r.1 ≠ StatusOK ∧ r.1 ≠ StatusNotFound ∧ r.1 ≠ StatusInternalServerError := by
  decide

/-- C12: on a collection handler, when `VerifyRequest` returns an error the only response is the
status 500, and when it returns `ok = false` with no error the only response is the status 401;
in both cases the status is written with a bare `WriteHeader`, so no body is written, and the
activity store is not queried. -/
theorem Activities_handle_signature (h : Activities) (req : Request) :
    (∀ ok actor err, h.handler.VerifyRequest req = (ok, actor, some err) →
      h.handle req = [.VerifyRequest req, .WriteHeader StatusInternalServerError] ∧
      responses (h.handle req) = [(StatusInternalServerError, [])] ∧
      storeCalls (h.handle req) = []) ∧
    (∀ actor, h.handler.VerifyRequest req = (false, actor, none) →
      h.handle req = [.VerifyRequest req, .WriteHeader StatusUnauthorized] ∧
      responses (h.handle req) = [(StatusUnauthorized, [])] ∧
      storeCalls (h.handle req) = []) := by
  constructor
  · intro ok actor err hV
    simp [Activities.handle, hV, responses, storeCalls]
  · intro actor hV
    simp [Activities.handle, hV, responses, storeCalls]

/-- C12 at concrete inputs: a request whose signature cannot be checked, and one whose
signature is invalid. -/
theorem Activities_handle_signature_witness :
    responses (sampleInbox.handle ⟨[], []⟩) = [(StatusInternalServerError, [])] ∧
    storeCalls (sampleInbox.handle ⟨[], []⟩) = [] ∧
    responses (sampleInbox.handle ⟨[("signature", "invalid")], []⟩) = [(StatusUnauthorized, [])] ∧
    storeCalls (sampleInbox.handle ⟨[("signature", "invalid")], []⟩) = [] :=
  have h1 := (Activities_handle_signature sampleInbox ⟨[], []⟩).1 false none
    (.msg "unable to fetch the actor key") rfl
  have h2 := (Activities_handle_signature sampleInbox ⟨[("signature", "invalid")], []⟩).2 none rfl
  ⟨h1.2.1, h1.2.2, h2.2.1, h2.2.2⟩


theorem handleActivities_ok (h : Activities) (req : Request) (objectIRI id : URL) (body : Bytes) :
    (StatusOK, body) ∈ responses (h.handleActivities req objectIRI id) ↔
      ∃ it firstURL lastURL,
        h.handler.QueryReferences h.refType objectIRI = .ok it ∧
        h.handler.getPageURL id (-1) = .ok firstURL ∧
        h.handler.getPageURL id
          (h.handler.getLastPageNum it.TotalItems h.handler.PageSize .SortDescending)
            = .ok lastURL ∧
        h.handler.marshal (.orderedCollection
          { Context := ContextActivityStreams, ID := id, First := firstURL, Last := lastURL,
            TotalItems := it.TotalItems, Items := [] }) = .ok body := by
  unfold Activities.handleActivities Activities.getActivities
  rcases hQ : h.handler.QueryReferences h.refType objectIRI with e | it
  · simp [responses, StatusOK, StatusInternalServerError]
  · rcases hF : h.handler.getPageURL id (-1) with e | firstURL
    · simp [responses, StatusOK, StatusInternalServerError]
    · rcases hL : h.handler.getPageURL id
          (h.handler.getLastPageNum it.TotalItems h.handler.PageSize .SortDescending)
        with e | lastURL
      · simp [hL, responses, StatusOK, StatusInternalServerError]
      · rcases hM : h.handler.marshal (.orderedCollection
            { Context := ContextActivityStreams, ID := id, First := firstURL, Last := lastURL,
              TotalItems := it.TotalItems, Items := [] }) with e | bytes
        · simp [hL, hM, responses, StatusOK, StatusInternalServerError]
        · simp [hL, hM, responses, StatusOK, StatusInternalServerError]
          exact eq_comm

theorem handleActivitiesPage_ok (h : Activities) (req : Request) (objectIRI id : URL)
    (body : Bytes) :
    (StatusOK, body) ∈ responses (h.handleActivitiesPage req objectIRI id) ↔
      ∃ it activities id1 prev next,
        h.handler.QueryActivities h.refType objectIRI (h.pageOpts req) = .ok it ∧
        h.handler.ReadActivities it (h.handler.GetQueryOptions (h.pageOpts req)).PageSize
          = .ok activities ∧
        h.handler.getIDPrevNextURL id it.TotalItems (h.handler.GetQueryOptions (h.pageOpts req))
          = .ok (id1, prev, next) ∧
        h.handler.marshal (.orderedCollectionPage
          { Context := ContextActivityStreams, ID := id1, PartOf := none, Prev := prev,
            Next := next, TotalItems := it.TotalItems,
            Items := activities.map ObjectProperty.activity }) = .ok body := by
  unfold Activities.handleActivitiesPage Activities.getPage
  rcases hQ : h.handler.QueryActivities h.refType objectIRI (h.pageOpts req) with e | it
  · simp [responses, StatusOK, StatusInternalServerError]
  · rcases hR : h.handler.ReadActivities it
        (h.handler.GetQueryOptions (h.pageOpts req)).PageSize with e | activities
    · simp [hR, responses, StatusOK, StatusInternalServerError]
    · rcases hU : h.handler.getIDPrevNextURL id it.TotalItems
          (h.handler.GetQueryOptions (h.pageOpts req)) with e | ⟨id1, prev, next⟩
      · simp [hR, hU, responses, StatusOK, StatusInternalServerError]
      · rcases hM : h.handler.marshal (.orderedCollectionPage
            { Context := ContextActivityStreams, ID := id1, PartOf := none, Prev := prev,
              Next := next, TotalItems := it.TotalItems,
              Items := activities.map ObjectProperty.activity }) with e | bytes
        · simp [hR, hU, hM, responses, StatusOK, StatusInternalServerError]
        · simp [hR, hU, hM, responses, StatusOK, StatusInternalServerError]
          constructor
          · intro hb
            subst hb
            exact ⟨id1, prev, next, ⟨rfl, rfl, rfl⟩, hM⟩
          · rintro ⟨x, x1, x2, ⟨rfl, rfl, rfl⟩, hb⟩
            rw [hM] at hb
            cases hb
            rfl


/-- C13: a collection handler answers 200 exactly when the request is authenticated, the object
IRI and the collection id are resolved, and the collection is built and marshalled; the body is
then, for a request that is not a paging request, the marshalled ordered-collection envelope
with no items, with `first` and `last` set and with `totalItems` equal to the reference
iterator's `TotalItems`; and for a paging request the marshalled ordered-collection page whose
items are the activities read from the store, one item per activity, in the same order. -/
theorem Activities_handle_envelope_or_page (h : Activities) (req : Request) (body : Bytes) :
    (StatusOK, body) ∈ responses (h.handle req) ↔
      ∃ actor objectIRI id,
        h.handler.VerifyRequest req = (true, actor, none) ∧
        h.getObjectIRI req = .ok objectIRI ∧ h.getID objectIRI = .ok id ∧
        ((h.handler.isPaging req = false ∧
          ∃ it firstURL lastURL,
            h.handler.QueryReferences h.refType objectIRI = .ok it ∧
            h.handler.getPageURL id (-1) = .ok firstURL ∧
            h.handler.getPageURL id
              (h.handler.getLastPageNum it.TotalItems h.handler.PageSize .SortDescending)
                = .ok lastURL ∧
            h.handler.marshal (.orderedCollection
              { Context := ContextActivityStreams, ID := id, First := firstURL, Last := lastURL,
                TotalItems := it.TotalItems, Items := [] }) = .ok body) ∨
         (h.handler.isPaging req = true ∧
          ∃ it activities id1 prev next,
            h.handler.QueryActivities h.refType objectIRI (h.pageOpts req) = .ok it ∧
            h.handler.ReadActivities it (h.handler.GetQueryOptions (h.pageOpts req)).PageSize
              = .ok activities ∧
            h.handler.getIDPrevNextURL id it.TotalItems
              (h.handler.GetQueryOptions (h.pageOpts req)) = .ok (id1, prev, next) ∧
            h.handler.marshal (.orderedCollectionPage
              { Context := ContextActivityStreams, ID := id1, PartOf := none, Prev := prev,
                Next := next, TotalItems := it.TotalItems,
                Items := activities.map ObjectProperty.activity }) = .ok body)) := by
  unfold Activities.handle
  rcases hV : h.handler.VerifyRequest req with ⟨ok, actor, _ | err⟩
  · cases ok
    · simp [responses, StatusOK, StatusUnauthorized]
    · rcases hO : h.getObjectIRI req with e | objectIRI
      · simp [responses, StatusOK, StatusInternalServerError]
      · rcases hI : h.getID objectIRI with e | id
        · simp [hI, responses, StatusOK, StatusInternalServerError]
        · by_cases hP : h.handler.isPaging req = true
          · simp only [hI, hP, if_true, responses]
            rw [handleActivitiesPage_ok]
            simp [hI]
          · simp only [hI, hP, if_false, responses]
            rw [handleActivities_ok]
            simp [hP, hI]
  · simp [responses, StatusOK, StatusInternalServerError]

/-- C13 at concrete inputs: the sample inbox is asked for the collection and for a page. -/
theorem Activities_handle_envelope_or_page_witness :
    (StatusOK, [2, 3, 0]) ∈ responses (sampleInbox.handle ⟨[("signature", "valid")], []⟩) ∧
    (StatusOK, [3, 3, 2]) ∈ responses
      (sampleInbox.handle ⟨[("signature", "valid")], [("page", "true")]⟩) :=
  ⟨(Activities_handle_envelope_or_page sampleInbox ⟨[("signature", "valid")], []⟩ [2, 3, 0]).mpr
      ⟨some ⟨"https://org2.com/services/service2"⟩, ⟨"https://org1.com/services/service1"⟩,
        ⟨"https://org1.com/services/service1/inbox"⟩, rfl, rfl, rfl,
        Or.inl ⟨rfl, _, _, _, rfl, rfl, rfl, rfl⟩⟩,
   (Activities_handle_envelope_or_page sampleInbox
      ⟨[("signature", "valid")], [("page", "true")]⟩ [3, 3, 2]).mpr
      ⟨some ⟨"https://org2.com/services/service2"⟩, ⟨"https://org1.com/services/service1"⟩,
        ⟨"https://org1.com/services/service1/inbox"⟩, rfl, rfl, rfl,
        Or.inr ⟨rfl, _, _, _, _, _, rfl, rfl, rfl, rfl⟩⟩⟩

/-- C15: in `getActivities` and in `getPage`, when the store query returns an iterator, `Close`
is called on that iterator exactly once, as the last action before the function returns,
whatever the later steps do (page URL error, read error, prev/next URL error, or success); when
the query fails there is no iterator and nothing is closed. -/
theorem iterator_closed_once (h : Activities) (objectIRI id : URL) (opts : List QueryOpt) :
    (∀ it, h.handler.QueryReferences h.refType objectIRI = .ok it →
      closeCalls (h.getActivities objectIRI id).2 = [.CloseReferenceIterator it] ∧
      (h.getActivities objectIRI id).2.getLast? = some (.CloseReferenceIterator it)) ∧
    (∀ it, h.handler.QueryActivities h.refType objectIRI opts = .ok it →
      closeCalls (h.getPage objectIRI id opts).2 = [.CloseActivityIterator it] ∧
      (h.getPage objectIRI id opts).2.getLast? = some (.CloseActivityIterator it)) ∧
    (∀ e, h.handler.QueryReferences h.refType objectIRI = .error e →
      closeCalls (h.getActivities objectIRI id).2 = []) ∧
    (∀ e, h.handler.QueryActivities h.refType objectIRI opts = .error e →
      closeCalls (h.getPage objectIRI id opts).2 = []) := by
  refine ⟨?_, ?_, ?_, ?_⟩
  · intro it hQ
    unfold Activities.getActivities
    rw [hQ]
    simp only
    rcases hF : h.handler.getPageURL id (-1) with e | firstURL
    · simp [closeCalls]
    · rcases hL : h.handler.getPageURL id
          (h.handler.getLastPageNum it.TotalItems h.handler.PageSize .SortDescending)
        with e | lastURL
      · simp [hL, closeCalls]
      · simp [hL, closeCalls]
  · intro it hQ
    unfold Activities.getPage
    rw [hQ]
    simp only
    rcases hR : h.handler.ReadActivities it (h.handler.GetQueryOptions opts).PageSize
      with e | activities
    · simp [closeCalls]
    · rcases hU : h.handler.getIDPrevNextURL id it.TotalItems (h.handler.GetQueryOptions opts)
        with e | ⟨id1, prev, next⟩
      · simp [hU, closeCalls]
      · simp [hU, closeCalls]
  · intro e hQ
    simp [Activities.getActivities, hQ, closeCalls]
  · intro e hQ
    simp [Activities.getPage, hQ, closeCalls]

/-- C15 at a concrete input: the sample inbox reads its collection and a page. -/
theorem iterator_closed_once_witness :
    closeCalls (sampleInbox.getActivities ⟨"https://org1.com/services/service1"⟩
        ⟨"https://org1.com/services/service1/inbox"⟩).2
      = [.CloseReferenceIterator
          { TotalItems := 3, closeErr := none, refs := sampleActivities.map (fun a => ⟨a.ID⟩) }] ∧
    closeCalls (sampleInbox.getPage ⟨"https://org1.com/services/service1"⟩
        ⟨"https://org1.com/services/service1/inbox"⟩ []).2
      = [.CloseActivityIterator
          { TotalItems := 3, closeErr := none, activities := sampleActivities }] :=
  have key := iterator_closed_once sampleInbox ⟨"https://org1.com/services/service1"⟩
    ⟨"https://org1.com/services/service1/inbox"⟩ []
  ⟨(key.1 _ rfl).1, (key.2.1 _ rfl).1⟩


theorem handleAll_activities (calls : List (ActivityType × String)) :
    ∀ h : UndeliverableHandler,
      (h.handleAll calls).Activities
        = h.Activities ++ calls.map (fun c => { Activity := c.1, ToURL := c.2 }) := by
  induction calls with
  | nil => intro h; simp [UndeliverableHandler.handleAll]
  | cons c cs ih =>
    intro h
    simp only [UndeliverableHandler.handleAll]
    rw [ih]
    simp [UndeliverableHandler.HandleUndeliverableActivity, UndeliverableHandler.Activities]

/-- C17: after any sequence of `n` calls of `HandleUndeliverableActivity` on a new handler,
`Activities()` returns exactly `n` records, in call order, the i-th holding the activity and
the destination URL passed to the i-th call. -/
theorem UndeliverableHandler_records (calls : List (ActivityType × String)) :
    (NewUndeliverableHandler.handleAll calls).Activities
      = calls.map (fun c => { Activity := c.1, ToURL := c.2 }) ∧
    (NewUndeliverableHandler.handleAll calls).Activities.length = calls.length ∧
    ∀ i a u, calls.get? i = some (a, u) →
      (NewUndeliverableHandler.handleAll calls).Activities.get? i
        = some { Activity := a, ToURL := u } := by
  have hall : (NewUndeliverableHandler.handleAll calls).Activities
      = calls.map (fun c => { Activity := c.1, ToURL := c.2 }) := by
    rw [handleAll_activities calls NewUndeliverableHandler]
    rfl
  rw [hall]
  refine ⟨rfl, by simp, ?_⟩
  intro i a u hi
  simp only [List.get?_eq_getElem?] at hi ⊢
  rw [List.getElem?_map, hi]
  rfl

/-- C17 at a concrete input: two activities are handed off, the second one found in the
records at position 1. -/
theorem UndeliverableHandler_records_witness :
    (NewUndeliverableHandler.handleAll
        [(⟨"a1", "Create"⟩, "https://org2.com/inbox"),
         (⟨"a2", "Like"⟩, "https://org3.com/inbox")]).Activities.get? 1
      = some { Activity := ⟨"a2", "Like"⟩, ToURL := "https://org3.com/inbox" } :=
  (UndeliverableHandler_records
    [(⟨"a1", "Create"⟩, "https://org2.com/inbox"),
     (⟨"a2", "Like"⟩, "https://org3.com/inbox")]).2.2 1 ⟨"a2", "Like"⟩ "https://org3.com/inbox" rfl


/-! ## Theorems: the witness store -/

theorem records_of_map_fillProof (id w : String) (p : Bytes)
    (recs : List (String × WitnessProof)) :
    ((recs.map (fillProof id w p)).filter (fun r => r.1 == id)).map (fun r => r.2)
      = ((recs.filter (fun r => r.1 == id)).map (fun r => r.2)).map
          (fun r => if r.Witness == w then { r with Proof := p } else r) := by
  induction recs with
  | nil => rfl
  | cons r rs ih =>
    simp only [List.map_cons]
    by_cases hr : (r.1 == id) = true
    · have hr1 : ((fillProof id w p r).1 == id) = true := by rw [fillProof_fst]; exact hr
      simp only [List.filter_cons, hr1, hr, if_true, List.map_cons]
      rw [ih]
      congr 1
      unfold fillProof isRecordOf
      by_cases hw : (r.2.Witness == w) = true
      · simp [hr, hw]
      · simp [hr, hw]
    · have hr1 : ¬ ((fillProof id w p r).1 == id) = true := by rw [fillProof_fst]; exact hr
      simp only [List.filter_cons, hr1, hr, if_false]
      exact ih

/-- C18: when witness records `ws` have been stored for `vcID` with `Put`, `AddProof` for a
witness among them succeeds, and a following `Get(vcID)` returns the records stored under
`vcID` (those put now after those put before), as many as were put, each as it was except
that the records of that witness carry the given proof bytes. -/
theorem AddProof_fills_record (s0 : WitnessStore) (vcID : String) (ws : List WitnessProof)
    (w : WitnessProof) (p : Bytes) (hw : w ∈ ws) :
    ((s0.Put vcID ws).AddProof vcID w.Witness p).1 = none ∧
    ((s0.Put vcID ws).AddProof vcID w.Witness p).2.Get vcID
      = .ok ((((s0.records.filter (fun r => r.1 == vcID)).map (fun r => r.2)) ++ ws).map
          (fun r => if r.Witness == w.Witness then { r with Proof := p } else r)) ∧
    (resultOf (((s0.Put vcID ws).AddProof vcID w.Witness p).2.Get vcID)).length
      = (resultOf (s0.Get vcID)).length + ws.length ∧
    (∃ r ∈ resultOf (((s0.Put vcID ws).AddProof vcID w.Witness p).2.Get vcID),
      r.Witness = w.Witness ∧ r.Kind = w.Kind ∧ r.Proof = p) ∧
    (∀ r ∈ resultOf (((s0.Put vcID ws).AddProof vcID w.Witness p).2.Get vcID),
      r.Witness = w.Witness → r.Proof = p) := by
  have hany : (s0.Put vcID ws).records.any (isRecordOf vcID w.Witness) = true := by
    rw [List.any_eq_true]
    refine ⟨(vcID, w), ?_, by simp [isRecordOf]⟩
    simp only [WitnessStore.Put, List.mem_append, List.mem_map]
    exact Or.inr ⟨w, hw, rfl⟩
  have hadd : (s0.Put vcID ws).AddProof vcID w.Witness p
      = (none, { records := (s0.Put vcID ws).records.map (fillProof vcID w.Witness p) }) := by
    simp [WitnessStore.AddProof, hany]
  have hput : ((s0.Put vcID ws).records.filter (fun r => r.1 == vcID)).map (fun r => r.2)
      = ((s0.records.filter (fun r => r.1 == vcID)).map (fun r => r.2)) ++ ws := by
    simp [WitnessStore.Put, List.filter_append, List.filter_map, Function.comp_def]
  have hget : ((s0.Put vcID ws).AddProof vcID w.Witness p).2.Get vcID
      = .ok ((((s0.records.filter (fun r => r.1 == vcID)).map (fun r => r.2)) ++ ws).map
          (fun r => if r.Witness == w.Witness then { r with Proof := p } else r)) := by
    rw [hadd]
    have hne : ((WitnessStore.mk ((s0.Put vcID ws).records.map
        (fillProof vcID w.Witness p))).records.filter (fun r => r.1 == vcID)).length ≠ 0 := by
      have hlen1 := congrArg List.length (records_of_map_fillProof vcID w.Witness p
        (s0.Put vcID ws).records)
      have hlen2 := congrArg List.length hput
      simp only [List.length_map, List.length_append] at hlen1 hlen2
      have : 0 < ws.length := List.length_pos_of_mem hw
      simp only
      omega
    rw [WitnessStore_Get_ok _ vcID hne, records_of_map_fillProof, hput]
  have hbefore : (resultOf (s0.Get vcID)).length
      = ((s0.records.filter (fun r => r.1 == vcID)).map (fun r => r.2)).length := by
    unfold WitnessStore.Get
    cases hL : (s0.records.filter (fun r => r.1 == vcID)).map (fun r => r.2) with
    | nil => rfl
    | cons a as => rfl
  refine ⟨by rw [hadd], hget, ?_, ?_, ?_⟩
  · rw [hget, hbefore]
    simp [resultOf]
  · rw [hget]
    refine ⟨{ w with Proof := p }, ?_, rfl, rfl, rfl⟩
    simp only [resultOf, List.mem_map, List.mem_append]
    exact ⟨w, Or.inr hw, by simp⟩
  · rw [hget]
    intro r hr hrw
    simp only [resultOf, List.mem_map] at hr
    obtain ⟨r0, _, hr0⟩ := hr
    by_cases h0 : (r0.Witness == w.Witness) = true
    · rw [if_pos h0] at hr0
      rw [← hr0]
    · rw [if_neg h0] at hr0
      subst hr0
      exact absurd (by simpa using hrw) h0


/-- C18 at a concrete input, the one of the store's test: one pending record is put for
`vcID`, then its proof is added. -/
theorem AddProof_fills_record_witness :
    (((WitnessStore.mk []).Put "vcID" [⟨.Batch, "witness", []⟩]).AddProof "vcID" "witness"
        [1, 2]).1 = none ∧
    (((WitnessStore.mk []).Put "vcID" [⟨.Batch, "witness", []⟩]).AddProof "vcID" "witness"
        [1, 2]).2.Get "vcID" = .ok [⟨.Batch, "witness", [1, 2]⟩] :=
  have key := AddProof_fills_record (WitnessStore.mk []) "vcID" [⟨.Batch, "witness", []⟩]
    ⟨.Batch, "witness", []⟩ [1, 2] (by decide)
  ⟨key.1, key.2.1⟩

/-- C19: for a `vcID` with no stored witness record, `AddProof` returns an error whose text says
"not found" and leaves the store as it was, and `Get` returns an error whose text says
"not found", with an empty result. -/
theorem unknown_vcID_not_found (s : WitnessStore) (vcID witness : String) (p : Bytes)
    (hNone : s.records.filter (fun r => r.1 == vcID) = []) :
    (∃ e, (s.AddProof vcID witness p).1 = some e ∧ e.mentionsNotFound) ∧
    (s.AddProof vcID witness p).2 = s ∧
    (∃ e, s.Get vcID = .error e ∧ e.mentionsNotFound) ∧
    resultOf (s.Get vcID) = [] := by
  have hany : s.records.any (isRecordOf vcID witness) = false := by
    rw [List.any_eq_false]
    intro r hr hrec
    have hmem : r ∈ s.records.filter (fun r => r.1 == vcID) := by
      apply List.mem_filter.mpr
      simp only [isRecordOf, Bool.and_eq_true] at hrec
      exact ⟨hr, hrec.1⟩
    rw [hNone] at hmem
    cases hmem
  have hget : s.Get vcID = .error (.msg ("vcID[" ++ vcID ++ "] not found in the store")) := by
    simp [WitnessStore.Get, hNone]
  have hadd : s.AddProof vcID witness p
      = (some (.msg ("witness[" ++ witness ++ "] not found for vcID[" ++ vcID ++ "]")), s) := by
    simp [WitnessStore.AddProof, hany]
  refine ⟨⟨_, by rw [hadd], ?_⟩, by rw [hadd], ⟨_, hget, ?_⟩, by rw [hget]; rfl⟩
  · refine ⟨"witness[" ++ witness ++ "] ", " for vcID[" ++ vcID ++ "]", ?_⟩
    have hsplit : "] not found for vcID[" = "] " ++ "not found" ++ " for vcID[" := by decide
    simp only [Error.errorText]
    rw [hsplit]
    simp only [String.append_assoc]
  · refine ⟨"vcID[" ++ vcID ++ "] ", " in the store", ?_⟩
    have hsplit : "] not found in the store" = "] " ++ "not found" ++ " in the store" := by decide
    simp only [Error.errorText]
    rw [hsplit]
    simp only [String.append_assoc]

/-- C19 at a concrete input, the one of the store's test: an empty store. -/
theorem unknown_vcID_not_found_witness :
    ((WitnessStore.mk []).AddProof "vcID" "witness" [1, 2]).2 = WitnessStore.mk [] ∧
    resultOf ((WitnessStore.mk []).Get "vcID") = [] :=
  have key := unknown_vcID_not_found (WitnessStore.mk []) "vcID" "witness" [1, 2] rfl
  ⟨key.2.1, key.2.2.2⟩

/-- C20: on an open pubsub (not closed, no injected error) whose topic has a subscriber stream
with room for the messages, `Publish(topic, m1..mn)` returns no error and the stream receives,
after what it already held, exactly `n` messages: the copies of `m1..mn` in argument order,
each with the payload of its original. -/
theorem Publish_fifo (m : MockPubSub) (topic : String) (messages : List Message) (r : Nat)
    (c : Chan) (hErr : m.Err = none) (hOpen : m.closed = false)
    (hSub : m.msgChan topic = some r) (hChan : m.streams.get? r = some c)
    (hChanOpen : c.closed = false)
    (hRoom : c.buf.length + messages.length ≤ maxBufferSize) :
    (m.Publish topic messages).1 = .returned none ∧
    (m.Publish topic messages).2.stream r = m.stream r ++ messages.map Message.Copy ∧
    ((m.Publish topic messages).2.stream r).length = (m.stream r).length + messages.length ∧
    (∀ i msg, messages.get? i = some msg →
      ((m.Publish topic messages).2.stream r).get? ((m.stream r).length + i) = some msg.Copy ∧
      msg.Copy.Payload = msg.Payload) := by
  have hloop := publishLoop_room r messages m c hChan hChanOpen hRoom
  have hpub : m.Publish topic messages = m.publishLoop (some r) messages := by
    simp [MockPubSub.Publish, hErr, hOpen, hSub]
  have hlt : r < m.streams.length := by
    rcases Nat.lt_or_ge r m.streams.length with h | h
    · exact h
    · rw [List.get?_eq_none.mpr h] at hChan; cases hChan
  have hstream : (m.Publish topic messages).2.stream r
      = m.stream r ++ messages.map Message.Copy := by
    rw [hpub]
    simp only [MockPubSub.stream, hloop.2.1, hChan]
    rw [List.get?_eq_getElem?, List.getElem?_set]
    simp [hlt]
  refine ⟨by rw [hpub]; exact hloop.1, hstream, by rw [hstream]; simp, ?_⟩
  intro i msg hi
  refine ⟨?_, rfl⟩
  rw [hstream, List.get?_eq_getElem?, List.getElem?_append_right (by omega)]
  simp only [Nat.add_sub_cancel_left, List.getElem?_map]
  rw [List.get?_eq_getElem?] at hi
  rw [hi]
  rfl

/-- C20 at a concrete input: two messages are published on topic `a` of the sample pubsub. -/
theorem Publish_fifo_witness :
    (samplePubSub.Publish "a" [sampleMessage, ⟨"m-2", [], [4]⟩]).1 = .returned none ∧
    (samplePubSub.Publish "a" [sampleMessage, ⟨"m-2", [], [4]⟩]).2.stream 1
      = samplePubSub.stream 1 ++ [sampleMessage, ⟨"m-2", [], [4]⟩].map Message.Copy :=
  have key := Publish_fifo samplePubSub "a" [sampleMessage, ⟨"m-2", [], [4]⟩] 1 Chan.make
    (by decide) (by decide) (by decide) (by decide) (by decide) (by decide)
  ⟨key.1, key.2.1⟩


/-! ## Theorems: collection pages -/

theorem decodeItem_encodeItem (items : List ObjectProperty) :
    (items.map encodeItem).map decodeItem = items := by
  induction items with
  | nil => rfl
  | cons i is ih =>
    simp only [List.map_cons, ih]
    cases i <;> rfl

theorem keys_insertMember (m : String × JSONValue) (d : JSONDoc) (k : String) :
    k ∈ (insertMember m d).map (fun x => x.1) ↔ k = m.1 ∨ k ∈ d.map (fun x => x.1) := by
  induction d with
  | nil => simp [insertMember]
  | cons x xs ih =>
    simp only [insertMember]
    split
    · simp
    · simp only [List.map_cons, List.mem_cons, ih]
      tauto

theorem keys_canonicalize (d : JSONDoc) (k : String) :
    k ∈ (canonicalize d).map (fun x => x.1) ↔ k ∈ d.map (fun x => x.1) := by
  induction d with
  | nil => simp [canonicalize]
  | cons m ms ih =>
    simp only [canonicalize, keys_insertMember, ih, List.map_cons, List.mem_cons]

theorem lookup_insertMember (m : String × JSONValue) (d : JSONDoc) (k : String)
    (hm : m.1 ∉ d.map (fun x => x.1)) :
    (insertMember m d).lookup k = if k == m.1 then some m.2 else d.lookup k := by
  induction d with
  | nil =>
    simp only [insertMember, List.lookup]
    cases hk : k == m.1 <;> simp
  | cons x xs ih =>
    have hx : m.1 ≠ x.1 := by
      intro h
      apply hm
      simp [h]
    have hxs : m.1 ∉ xs.map (fun x => x.1) := by
      intro h
      apply hm
      simp only [List.map_cons, List.mem_cons]
      exact Or.inr h
    simp only [insertMember]
    split
    · cases hk : k == m.1 <;> simp [List.lookup, hk]
    · rcases x with ⟨xk, xv⟩
      rcases m with ⟨mk, mv⟩
      simp only [List.lookup] at ih ⊢
      rw [ih hxs]
      by_cases hkx : k = xk
      · subst hkx
        have : (k == mk) = false := by
          simp only [beq_eq_false_iff_ne]
          exact fun h => hx h.symm
        simp [this]
      · have : (k == xk) = false := by simpa using hkx
        simp [this]

theorem lookup_canonicalize (d : JSONDoc) (k : String) (hd : (d.map (fun x => x.1)).Nodup) :
    (canonicalize d).lookup k = d.lookup k := by
  induction d with
  | nil => rfl
  | cons m ms ih =>
    rw [List.map_cons, List.nodup_cons] at hd
    simp only [canonicalize]
    rw [lookup_insertMember m (canonicalize ms) k
      (fun h => hd.1 ((keys_canonicalize ms m.1).mp h)), ih hd.2]
    rcases m with ⟨mk, mv⟩
    cases hk : k == mk <;> simp [List.lookup, hk]


theorem CollectionPage_Unmarshal_canonicalize (d : JSONDoc)
    (hd : (d.map (fun x => x.1)).Nodup) :
    CollectionPageType.Unmarshal (canonicalize d) = CollectionPageType.Unmarshal d := by
  simp only [CollectionPageType.Unmarshal, lookup_canonicalize d _ hd]

theorem OrderedCollectionPage_Unmarshal_canonicalize (d : JSONDoc)
    (hd : (d.map (fun x => x.1)).Nodup) :
    OrderedCollectionPageType.Unmarshal (canonicalize d)
      = OrderedCollectionPageType.Unmarshal d := by
  simp only [OrderedCollectionPageType.Unmarshal, lookup_canonicalize d _ hd]

theorem pageDocument_keys_nodup (typeName context : String) (id : URL)
    (partOf prev next : Option URL) (totalItems : Int) (items : List ObjectProperty) :
    ((pageDocument typeName "items" context id partOf prev next totalItems items).map
        (fun x => x.1)).Nodup ∧
    ((pageDocument typeName "orderedItems" context id partOf prev next totalItems items).map
        (fun x => x.1)).Nodup := by
  cases partOf <;> cases prev <;> cases next <;> cases items <;>
    simp [pageDocument, itemsMember, urlMember]

theorem CollectionPage_Unmarshal_document (p : CollectionPageType) :
    CollectionPageType.Unmarshal (pageDocument "CollectionPage" "items" p.Context p.ID p.PartOf
      p.Prev p.Next p.TotalItems p.Items) = .ok p := by
  rcases p with ⟨ctx, ⟨id⟩, partOf, prev, next, total, items⟩
  have hdec := decodeItem_encodeItem items
  cases partOf <;> cases prev <;> cases next <;> cases items <;>
    first
    | rfl
    | (simp only [List.map_cons] at hdec
       show Except.ok _ = Except.ok _
       simp only [List.map_cons, hdec])


theorem OrderedCollectionPage_Unmarshal_document (p : OrderedCollectionPageType) :
    OrderedCollectionPageType.Unmarshal (pageDocument "OrderedCollectionPage" "orderedItems"
      p.Context p.ID p.PartOf p.Prev p.Next p.TotalItems p.Items) = .ok p := by
  rcases p with ⟨ctx, ⟨id⟩, partOf, prev, next, total, items⟩
  have hdec := decodeItem_encodeItem items
  cases partOf <;> cases prev <;> cases next <;> cases items <;>
    first
    | rfl
    | (simp only [List.map_cons] at hdec
       show Except.ok _ = Except.ok _
       simp only [List.map_cons, hdec])

theorem CollectionPage_roundtrip (p : CollectionPageType) :
    CollectionPageType.Unmarshal p.MarshalCanonical = .ok p := by
  unfold CollectionPageType.MarshalCanonical
  rw [CollectionPage_Unmarshal_canonicalize _ (pageDocument_keys_nodup _ _ _ _ _ _ _ _).1]
  exact CollectionPage_Unmarshal_document p

theorem OrderedCollectionPage_roundtrip (p : OrderedCollectionPageType) :
    OrderedCollectionPageType.Unmarshal p.MarshalCanonical = .ok p := by
  unfold OrderedCollectionPageType.MarshalCanonical
  rw [OrderedCollectionPage_Unmarshal_canonicalize _
    (pageDocument_keys_nodup _ _ _ _ _ _ _ _).2]
  exact OrderedCollectionPage_Unmarshal_document p

theorem canonical_page_document (typeName itemsKey : String) (id partOf prev next : URL)
    (items : List URL) (hKey : itemsKey = "items" ∨ itemsKey = "orderedItems") :
    canonicalize (pageDocument typeName itemsKey ContextActivityStreams id (some partOf)
        (some prev) (some next) ((items.map ObjectProperty.iri).length)
        (items.map ObjectProperty.iri))
      = canonicalize (expectedPageDocument typeName itemsKey id partOf prev next items) := by
  have hlen : ((items.map ObjectProperty.iri).length : Int) = (items.length : Int) := by
    simp
  rw [hlen]
  rcases hKey with rfl | rfl <;> cases items <;> rfl


/-- C16: for every collection page and ordered collection page built from an id, a `partOf`
IRI, `prev` and `next` IRIs and a list of item IRIs, unmarshalling the canonical marshalling
yields the page again, so with the same id, `partOf`, `prev`, `next` and `totalItems` and the
same items in the same order; and the canonical marshalling equals the canonical form of the
expected JSON document of the test. -/
theorem collection_page_round_trip (id partOf prev next : URL) (items : List URL) :
    CollectionPageType.Unmarshal
        (NewCollectionPage (items.map ObjectProperty.iri) ContextActivityStreams id partOf prev
          next).MarshalCanonical
      = .ok { Context := ContextActivityStreams, ID := id, PartOf := some partOf,
              Prev := some prev, Next := some next, TotalItems := items.length,
              Items := items.map ObjectProperty.iri } ∧
    (NewCollectionPage (items.map ObjectProperty.iri) ContextActivityStreams id partOf prev
        next).MarshalCanonical
      = canonicalize (expectedPageDocument "CollectionPage" "items" id partOf prev next items) ∧
    OrderedCollectionPageType.Unmarshal
        (NewOrderedCollectionPage (items.map ObjectProperty.iri) ContextActivityStreams id partOf
          prev next).MarshalCanonical
      = .ok { Context := ContextActivityStreams, ID := id, PartOf := some partOf,
              Prev := some prev, Next := some next, TotalItems := items.length,
              Items := items.map ObjectProperty.iri } ∧
    (NewOrderedCollectionPage (items.map ObjectProperty.iri) ContextActivityStreams id partOf
        prev next).MarshalCanonical
      = canonicalize (expectedPageDocument "OrderedCollectionPage" "orderedItems" id partOf prev
          next items) := by
  refine ⟨?_, ?_, ?_, ?_⟩
  · rw [CollectionPage_roundtrip]
    simp [NewCollectionPage]
  · exact canonical_page_document "CollectionPage" "items" id partOf prev next items (Or.inl rfl)
  · rw [OrderedCollectionPage_roundtrip]
    simp [NewOrderedCollectionPage]
  · exact canonical_page_document "OrderedCollectionPage" "orderedItems" id partOf prev next
      items (Or.inr rfl)

/-- C16 at the input of the test: page 2 of the inbox of `service1`, with three activities;
the canonical marshalling has its members in key order. -/
theorem collection_page_round_trip_witness :
    (NewCollectionPage
        ([⟨"https://org1.com/activities/activity1"⟩, ⟨"https://org1.com/activities/activity2"⟩,
          ⟨"https://org1.com/activities/activity3"⟩].map ObjectProperty.iri)
        ContextActivityStreams ⟨"https://org1.com/services/service1/inbox?page=2"⟩
        ⟨"https://org1.com/services/service1/inbox"⟩
        ⟨"https://org1.com/services/service1/inbox?page=1"⟩
        ⟨"https://org1.com/services/service1/inbox?page=3"⟩).MarshalCanonical
      = [("@context", .str "https://www.w3.org/ns/activitystreams"),
         ("id", .str "https://org1.com/services/service1/inbox?page=2"),
         ("items", .arr [.str "https://org1.com/activities/activity1",
                         .str "https://org1.com/activities/activity2",
                         .str "https://org1.com/activities/activity3"]),
         ("next", .str "https://org1.com/services/service1/inbox?page=3"),
         ("partOf", .str "https://org1.com/services/service1/inbox"),
         ("prev", .str "https://org1.com/services/service1/inbox?page=1"),
         ("totalItems", .num 3),
         ("type", .str "CollectionPage")] :=
  (collection_page_round_trip ⟨"https://org1.com/services/service1/inbox?page=2"⟩
    ⟨"https://org1.com/services/service1/inbox"⟩
    ⟨"https://org1.com/services/service1/inbox?page=1"⟩
    ⟨"https://org1.com/services/service1/inbox?page=3"⟩
    [⟨"https://org1.com/activities/activity1"⟩, ⟨"https://org1.com/activities/activity2"⟩,
     ⟨"https://org1.com/activities/activity3"⟩]).2.1.trans (by decide)


/-! ## Theorems: failure paths, authentication, lifecycle order -/

/-- C22: whenever `HandleProof` returns an error, nothing has been sent on the downstream
channel, and the returned error wraps the error of the collaborator that failed (`Watch`, the
JSON decoder, `Store.Get` or `AddProof`); and when the credential load fails `AddProof` is not
called. -/
theorem HandleProof_error_sends_nothing {σ : Type} (P : Providers σ)
    (h : WitnessProofHandler σ) (witness : URL) (anchorCredID : String)
    (startTime endTime : Time) (proof : Bytes) (e : Error)
    (hErr : (HandleProof P h witness anchorCredID startTime endTime proof).1 = some e) :
    sendCalls (newCalls h.calls.length
        (HandleProof P h witness anchorCredID startTime endTime proof).2.calls) = [] ∧
    (HandleProof P h witness anchorCredID startTime endTime proof).2.vcCh = h.vcCh ∧
    (∃ cause, e.Unwrap = some cause ∧
      ((P.Watch anchorCredID endTime proof h.world).1 = some cause ∨
       P.Unmarshal proof = .error cause ∨
       (P.StoreGet anchorCredID (P.Watch anchorCredID endTime proof h.world).2).1
         = .error cause ∨
       (P.AddProof anchorCredID witness.String proof
         (P.StoreGet anchorCredID (P.Watch anchorCredID endTime proof h.world).2).2).1
         = some cause)) ∧
    (∀ cause,
      (P.StoreGet anchorCredID (P.Watch anchorCredID endTime proof h.world).2).1 = .error cause →
      addProofCalls (newCalls h.calls.length
        (HandleProof P h witness anchorCredID startTime endTime proof).2.calls) = []) := by
  revert hErr
  unfold HandleProof
  rcases hW : P.Watch anchorCredID endTime proof h.world with ⟨_ | we, w1⟩
  · rcases hU : P.Unmarshal proof with ue | wp
    · intro hErr
      simp only [Option.some.injEq] at hErr
      subst hErr
      simp [newCalls, sendCalls, addProofCalls, Error.Unwrap]
    · dsimp only
      rcases hG : P.StoreGet anchorCredID w1 with ⟨ge | vc, w2⟩
      · intro hErr
        simp only [Option.some.injEq] at hErr
        subst hErr
        simp [newCalls, sendCalls, addProofCalls, Error.Unwrap]
      · dsimp only
        by_cases hl : vc.Proofs.length > 1
        · rw [if_pos hl]
          intro hErr
          cases hErr
        · rw [if_neg hl]
          rcases hA : P.AddProof anchorCredID witness.String proof w2 with ⟨_ | ae, w3⟩
          · intro hErr
            cases hErr
          · intro hErr
            simp only [Option.some.injEq] at hErr
            subst hErr
            simp [newCalls, sendCalls, addProofCalls, Error.Unwrap]
  · intro hErr
    simp only [Option.some.injEq] at hErr
    subst hErr
    simp [newCalls, sendCalls, addProofCalls, Error.Unwrap]

/-- C22 at a concrete input: witness `w3`, for which no record is pending, submits a proof for
`vc1`; `AddProof` fails. -/
theorem HandleProof_error_sends_nothing_witness :
    sendCalls (newCalls sampleHandler.calls.length
        (HandleProof (World.providers sampleUnmarshal) sampleHandler ⟨"https://w3.example"⟩ "vc1"
          0 300 sampleProofA).2.calls) = [] ∧
    (HandleProof (World.providers sampleUnmarshal) sampleHandler ⟨"https://w3.example"⟩ "vc1"
        0 300 sampleProofA).2.vcCh = sampleHandler.vcCh :=
  have key := HandleProof_error_sends_nothing (World.providers sampleUnmarshal) sampleHandler
    ⟨"https://w3.example"⟩ "vc1" 0 300 sampleProofA
    (.wrap "failed to add witness[https://w3.example] proof for credential[vc1]"
      (.msg "witness[https://w3.example] not found for vcID[vc1]")) (by decide)
  ⟨key.1, key.2.1⟩

/-- C23: `Activity.handle` never consults the signature verifier: its trace holds no
`VerifyRequest` call, and two runs on the same request and the same store that differ only in
what the verifier would return perform the same actions, so the status code and the body are
identical. -/
theorem Activity_handle_ignores_verifier (h : Activity)
    (verify : Request → Bool × Option URL × Option Error) (req : Request) :
    verifyCalls (h.handle req) = [] ∧
    (h.withVerifier verify).handle req = h.handle req ∧
    responses ((h.withVerifier verify).handle req) = responses (h.handle req) := by
  have hsame : (h.withVerifier verify).handle req = h.handle req := by
    simp only [Activity.handle, Activity.getActivityIRI, Activity.withVerifier]
  refine ⟨?_, hsame, by rw [hsame]⟩
  unfold Activity.handle
  rcases h.getActivityIRI req with e | iri
  · simp [verifyCalls]
  · dsimp only
    rcases h.handler.GetActivity iri with e | a
    · dsimp only
      split <;> simp [verifyCalls]
    · dsimp only
      rcases h.handler.marshal (.activity a) with e | bytes <;> simp [verifyCalls]

/-- C26: `Service.start` starts the activity handler, then the inbox, then the outbox, each
exactly once; `Service.stop` stops the outbox, then the inbox, then the activity handler, each
exactly once; so the components are stopped in the reverse of the order they were started. -/
theorem Service_stop_reverses_start (s : Service) :
    s.startCalls = [.Start .activityHandler, .Start .inbox, .Start .outbox] ∧
    s.stopCalls = [.Stop .outbox, .Stop .inbox, .Stop .activityHandler] ∧
    s.stopCalls.map LifecycleCall.component
      = (s.startCalls.map LifecycleCall.component).reverse ∧
    (∀ c, s.startCalls.count (.Start c) = 1 ∧ s.stopCalls.count (.Stop c) = 1) := by
  have hstart : s.startCalls = [.Start .activityHandler, .Start .inbox, .Start .outbox] := by
    simp [Service.startCalls, Service.start]
  have hstop : s.stopCalls = [.Stop .outbox, .Stop .inbox, .Stop .activityHandler] := by
    simp [Service.stopCalls, Service.stop]
  rw [hstart, hstop]
  refine ⟨rfl, rfl, rfl, ?_⟩
  intro c
  cases c <;> decide

/-- C27: when the subscriber acks a published copy (the ack is what `check` sees, before the
timeout and before any nack), `check` returns without posting the message: the undeliverable
channel, the topic map and every subscriber stream are as they were, whatever the state of the
pubsub. -/
theorem acked_message_not_posted (m : MockPubSub) (msg : Message) :
    (m.check msg .acked).1 = .returned () ∧
    (m.check msg .acked).2.undeliverableChan = m.undeliverableChan ∧
    (m.check msg .acked).2.streams = m.streams ∧
    (m.check msg .acked).2.MsgChan = m.MsgChan ∧
    (m.check msg .acked).2.closed = m.closed := by
  simp [MockPubSub.check]

theorem status500_ne_200 : StatusInternalServerError ≠ StatusOK := by decide

theorem status401_ne_200 : StatusUnauthorized ≠ StatusOK := by decide

theorem handleActivities_responses (h : Activities) (req : Request) (objectIRI id : URL) :
    ∃ status body, responses (h.handleActivities req objectIRI id) = [(status, body)] ∧
      (status = StatusOK ∨ status = StatusInternalServerError) ∧
      (status = StatusOK →
        ∃ it c, h.handler.QueryReferences h.refType objectIRI = .ok it ∧
          (h.getActivities objectIRI id).1 = .ok c ∧
          h.handler.marshal (.orderedCollection c) = .ok body) := by
  unfold Activities.handleActivities Activities.getActivities
  rcases hQ : h.handler.QueryReferences h.refType objectIRI with e | it
  · exact ⟨StatusInternalServerError, [], by simp [responses], Or.inr rfl,
            fun h200 => absurd h200 status500_ne_200⟩
  · rcases hF : h.handler.getPageURL id (-1) with e | firstURL
    · exact ⟨StatusInternalServerError, [], by simp [responses], Or.inr rfl,
            fun h200 => absurd h200 status500_ne_200⟩
    · rcases hL : h.handler.getPageURL id
          (h.handler.getLastPageNum it.TotalItems h.handler.PageSize .SortDescending)
        with e | lastURL
      · exact ⟨StatusInternalServerError, [], by simp [hL, responses], Or.inr rfl,
            fun h200 => absurd h200 status500_ne_200⟩
      · rcases hM : h.handler.marshal (.orderedCollection
            { Context := ContextActivityStreams, ID := id, First := firstURL, Last := lastURL,
              TotalItems := it.TotalItems, Items := [] }) with e | bytes
        · exact ⟨StatusInternalServerError, [], by simp [hL, hM, responses], Or.inr rfl,
            fun h200 => absurd h200 status500_ne_200⟩
        · exact ⟨StatusOK, bytes, by simp [hL, hM, responses], Or.inl rfl,
            fun _ => ⟨it, _, rfl, by simp [hL], hM⟩⟩

theorem handleActivitiesPage_responses (h : Activities) (req : Request) (objectIRI id : URL) :
    ∃ status body, responses (h.handleActivitiesPage req objectIRI id) = [(status, body)] ∧
      (status = StatusOK ∨ status = StatusInternalServerError) ∧
      (status = StatusOK →
        ∃ it p, h.handler.QueryActivities h.refType objectIRI (h.pageOpts req) = .ok it ∧
          (h.getPage objectIRI id (h.pageOpts req)).1 = .ok p ∧
          h.handler.marshal (.orderedCollectionPage p) = .ok body) := by
  unfold Activities.handleActivitiesPage Activities.getPage
  rcases hQ : h.handler.QueryActivities h.refType objectIRI (h.pageOpts req) with e | it
  · exact ⟨StatusInternalServerError, [], by simp [responses], Or.inr rfl,
            fun h200 => absurd h200 status500_ne_200⟩
  · rcases hR : h.handler.ReadActivities it
        (h.handler.GetQueryOptions (h.pageOpts req)).PageSize with e | activities
    · exact ⟨StatusInternalServerError, [], by simp [hR, responses], Or.inr rfl,
            fun h200 => absurd h200 status500_ne_200⟩
    · rcases hU : h.handler.getIDPrevNextURL id it.TotalItems
          (h.handler.GetQueryOptions (h.pageOpts req)) with e | ⟨id1, prev, next⟩
      · exact ⟨StatusInternalServerError, [], by simp [hR, hU, responses], Or.inr rfl,
            fun h200 => absurd h200 status500_ne_200⟩
      · rcases hM : h.handler.marshal (.orderedCollectionPage
            { Context := ContextActivityStreams, ID := id1, PartOf := none, Prev := prev,
              Next := next, TotalItems := it.TotalItems,
              Items := activities.map ObjectProperty.activity }) with e | bytes
        · exact ⟨StatusInternalServerError, [], by simp [hR, hU, hM, responses], Or.inr rfl,
            fun h200 => absurd h200 status500_ne_200⟩
        · exact ⟨StatusOK, bytes, by simp [hR, hU, hM, responses], Or.inl rfl,
            fun _ => ⟨it, _, rfl, by simp [hR, hU], hM⟩⟩

/-- C24: on every path `Activities.handle` writes exactly one status code, which is 200, 401 or
500; and 200 is written only when the signature verified, the object IRI and the collection id
were resolved, the store query succeeded, the collection (or the page, for a paging request) was
built, and marshalling it succeeded, the marshalled bytes being the body. -/
theorem Activities_handle_responds_once (h : Activities) (req : Request) :
    ∃ status body, responses (h.handle req) = [(status, body)] ∧
      (status = StatusOK ∨ status = StatusUnauthorized ∨ status = StatusInternalServerError) ∧
      (status = StatusOK →
        ∃ actor objectIRI id,
          h.handler.VerifyRequest req = (true, actor, none) ∧
          h.getObjectIRI req = .ok objectIRI ∧ h.getID objectIRI = .ok id ∧
          ((h.handler.isPaging req = false ∧
              ∃ it c, h.handler.QueryReferences h.refType objectIRI = .ok it ∧
                (h.getActivities objectIRI id).1 = .ok c ∧
                h.handler.marshal (.orderedCollection c) = .ok body) ∨
           (h.handler.isPaging req = true ∧
              ∃ it p, h.handler.QueryActivities h.refType objectIRI (h.pageOpts req) = .ok it ∧
                (h.getPage objectIRI id (h.pageOpts req)).1 = .ok p ∧
                h.handler.marshal (.orderedCollectionPage p) = .ok body))) := by
  unfold Activities.handle
  rcases hV : h.handler.VerifyRequest req with ⟨ok, actor, _ | err⟩
  · cases ok
    · exact ⟨StatusUnauthorized, [], by simp [responses], Or.inr (Or.inl rfl),
        fun h200 => absurd h200 status401_ne_200⟩
    · dsimp only
      rcases hO : h.getObjectIRI req with e | objectIRI
      · exact ⟨StatusInternalServerError, [], by simp [responses], Or.inr (Or.inr rfl),
            fun h200 => absurd h200 status500_ne_200⟩
      · dsimp only
        rcases hI : h.getID objectIRI with e | id
        · exact ⟨StatusInternalServerError, [], by simp [responses], Or.inr (Or.inr rfl),
            fun h200 => absurd h200 status500_ne_200⟩
        · dsimp only
          by_cases hP : h.handler.isPaging req = true
          · obtain ⟨status, body, hr, hs, hok⟩ := handleActivitiesPage_responses h req objectIRI id
            refine ⟨status, body, by simp [hP, responses, hr], ?_, ?_⟩
            · rcases hs with hs | hs
              · exact Or.inl hs
              · exact Or.inr (Or.inr hs)
            · intro h200
              exact ⟨actor, objectIRI, id, rfl, rfl, hI, Or.inr ⟨hP, hok h200⟩⟩
          · obtain ⟨status, body, hr, hs, hok⟩ := handleActivities_responses h req objectIRI id
            refine ⟨status, body, by simp [hP, responses, hr], ?_, ?_⟩
            · rcases hs with hs | hs
              · exact Or.inl hs
              · exact Or.inr (Or.inr hs)
            · intro h200
              exact ⟨actor, objectIRI, id, rfl, rfl, hI,
                Or.inl ⟨by simpa using hP, hok h200⟩⟩
  · exact ⟨StatusInternalServerError, [], by simp [responses], Or.inr (Or.inr rfl),
            fun h200 => absurd h200 status500_ne_200⟩

/-- C25: the result of `getActivities` and of `getPage` is the same whatever the deferred
`it.Close()` returns: replacing the iterators' `Close` result by any other (an error, or none)
leaves the returned pair of collection and error unchanged, reading the activities off an
iterator being independent of what its `Close` returns. -/
theorem iterator_Close_result_dropped (h : Activities) (closeResult : Option Error)
    (objectIRI id : URL) (opts : List QueryOpt)
    (hRead : ∀ (it : ActivityIterator) (n : Int),
      h.handler.ReadActivities { it with closeErr := closeResult } n
        = h.handler.ReadActivities it n) :
    ((h.withCloseResult closeResult).getActivities objectIRI id).1
      = (h.getActivities objectIRI id).1 ∧
    ((h.withCloseResult closeResult).getPage objectIRI id opts).1
      = (h.getPage objectIRI id opts).1 := by
  constructor
  · simp only [Activities.getActivities, Activities.withCloseResult]
    rcases h.handler.QueryReferences h.refType objectIRI with e | it
    · rfl
    · dsimp only
      rcases h.handler.getPageURL id (-1) with e | firstURL
      · rfl
      · dsimp only
        rcases h.handler.getPageURL id
          (h.handler.getLastPageNum it.TotalItems h.handler.PageSize .SortDescending)
          with e | lastURL <;> rfl
  · simp only [Activities.getPage, Activities.withCloseResult]
    rcases h.handler.QueryActivities h.refType objectIRI opts with e | it
    · rfl
    · dsimp only
      rw [hRead]
      rcases h.handler.ReadActivities it (h.handler.GetQueryOptions opts).PageSize
        with e | activities
      · rfl
      · dsimp only
        rcases h.handler.getIDPrevNextURL id it.TotalItems (h.handler.GetQueryOptions opts)
          with e | ⟨id1, prev, next⟩ <;> rfl

/-- C25 at a concrete input: the sample inbox, with iterators whose `Close` fails. -/
theorem iterator_Close_result_dropped_witness :
    ((sampleInbox.withCloseResult (some (.msg "close failed"))).getActivities
        ⟨"https://org1.com/services/service1"⟩
        ⟨"https://org1.com/services/service1/inbox"⟩).1
      = (sampleInbox.getActivities ⟨"https://org1.com/services/service1"⟩
          ⟨"https://org1.com/services/service1/inbox"⟩).1 ∧
    ((sampleInbox.withCloseResult (some (.msg "close failed"))).getPage
        ⟨"https://org1.com/services/service1"⟩
        ⟨"https://org1.com/services/service1/inbox"⟩ [.WithPageSize 2]).1
      = (sampleInbox.getPage ⟨"https://org1.com/services/service1"⟩
          ⟨"https://org1.com/services/service1/inbox"⟩ [.WithPageSize 2]).1 :=
  iterator_Close_result_dropped sampleInbox (some (.msg "close failed"))
    ⟨"https://org1.com/services/service1"⟩ ⟨"https://org1.com/services/service1/inbox"⟩
    [.WithPageSize 2] (fun _ _ => rfl)

/-! ## Theorems: undeliverable messages without a listener, lock discipline -/

theorem handleUndeliverable_drops (m : MockPubSub)
    (hNo : m.msgChan UndeliverableTopic = none) :
    m.handleUndeliverable
      = (.returned (), { m with undeliverableChan := { m.undeliverableChan with buf := [] } }) := by
  have key : ∀ (l : List Message) (m : MockPubSub), m.msgChan UndeliverableTopic = none →
      l ≠ [] → m.forward l
        = (.returned (),
            { m with undeliverableChan := { m.undeliverableChan with buf := [] } }) := by
    intro l
    induction l with
    | nil => intro m _ hne; exact absurd rfl hne
    | cons msg rest ih =>
      intro m hNo _
      have hNo1 : MockPubSub.msgChan
          { m with undeliverableChan := { m.undeliverableChan with buf := rest } }
          UndeliverableTopic = none := hNo
      simp only [MockPubSub.forward, hNo1]
      cases rest with
      | nil => rfl
      | cons x xs => rw [ih _ hNo1 (by simp)]
  unfold MockPubSub.handleUndeliverable
  rcases hb : m.undeliverableChan.buf with _ | ⟨x, xs⟩
  · rcases m with ⟨_, _, _, ⟨_, _⟩, _, _, _⟩
    simp only at hb
    subst hb
    rfl
  · rw [← hb]
    exact key _ m hNo (by rw [hb]; simp)

/-- C28: a nacked or timed-out message is not enqueued at all once the pubsub is closed; with
no subscription for the undeliverable topic, `handleUndeliverable` takes everything off the
undeliverable queue and discards it, returning without error and leaving every stream as it
was; and on an open pubsub where that has happened the loop keeps working: after a subscriber
arrives on the undeliverable topic, the next nacked or timed-out message is delivered to it. -/
theorem undeliverable_dropped (m : MockPubSub) (msg later : Message) (sel : Select)
    (hSel : sel = .nacked ∨ sel = .timedOut) :
    (m.closed = true →
      (m.check msg sel).1 = .returned () ∧
      (m.check msg sel).2.undeliverableChan = m.undeliverableChan ∧
      (m.check msg sel).2.streams = m.streams) ∧
    (m.msgChan UndeliverableTopic = none →
      m.handleUndeliverable.1 = .returned () ∧
      m.handleUndeliverable.2.streams = m.streams ∧
      m.handleUndeliverable.2.undeliverableChan.buf = []) ∧
    (m.Err = none → m.closed = false → m.undeliverableChan.closed = false →
      m.undeliverableChan.buf.length < maxBufferSize →
      m.msgChan UndeliverableTopic = none →
      (m.check msg sel).1 = .returned () ∧
      (m.check msg sel).2.undeliverableChan.buf = m.undeliverableChan.buf ++ [msg] ∧
      (m.check msg sel).2.handleUndeliverable.1 = .returned () ∧
      (m.check msg sel).2.handleUndeliverable.2.streams = m.streams ∧
      (m.check msg sel).2.handleUndeliverable.2.undeliverableChan.buf = [] ∧
      ((m.check msg sel).2.handleUndeliverable.2.Subscribe UndeliverableTopic).1
        = .ok m.streams.length ∧
      ((((m.check msg sel).2.handleUndeliverable.2.Subscribe UndeliverableTopic).2.check
          later sel).2.handleUndeliverable.2).stream m.streams.length = [later]) := by
  have hcheck : m.check msg sel
      = MockPubSub.postToUndeliverable { m with checks := m.checks.erase msg } msg := by
    rcases hSel with rfl | rfl <;> rfl
  refine ⟨?_, ?_, ?_⟩
  · intro hClosed
    rw [hcheck]
    simp [MockPubSub.postToUndeliverable, hClosed]
  · intro hNo
    rw [handleUndeliverable_drops m hNo]
    exact ⟨rfl, rfl, rfl⟩
  · intro hErr hOpen hCh hRoom hNo
    have hpost : m.check msg sel
        = (.returned (), { m with checks := m.checks.erase msg,
                                  undeliverableChan :=
                                    { m.undeliverableChan with
                                      buf := m.undeliverableChan.buf ++ [msg] } }) := by
      rw [hcheck]
      simp [MockPubSub.postToUndeliverable, Chan.send, hOpen, hCh, hRoom]
    rw [hpost]
    dsimp only
    rw [handleUndeliverable_drops _ (by exact hNo)]
    refine ⟨rfl, rfl, rfl, rfl, rfl, ?_, ?_⟩
    · simp [MockPubSub.Subscribe, hErr, hOpen]
    · have hcheck2 : ∀ m2 : MockPubSub, m2.check later sel
          = MockPubSub.postToUndeliverable { m2 with checks := m2.checks.erase later } later := by
        intro m2
        rcases hSel with rfl | rfl <;> rfl
      rw [hcheck2]
      simp [MockPubSub.Subscribe, MockPubSub.postToUndeliverable, Chan.send,
        MockPubSub.handleUndeliverable, MockPubSub.forward, MockPubSub.msgChan,
        MockPubSub.stream, Chan.make, maxBufferSize, hErr, hOpen, hCh]

/-- C28 at a concrete input: a new pubsub, to which nobody has subscribed; the sample message
is nacked. -/
theorem undeliverable_dropped_witness :
    (NewPubSub.check sampleMessage .nacked).2.handleUndeliverable.1 = .returned () ∧
    (NewPubSub.check sampleMessage .nacked).2.handleUndeliverable.2.streams = [] ∧
    (NewPubSub.check sampleMessage .nacked).2.handleUndeliverable.2.undeliverableChan.buf = [] ∧
    ((((NewPubSub.check sampleMessage .nacked).2.handleUndeliverable.2.Subscribe
        UndeliverableTopic).2.check sampleMessage .nacked).2.handleUndeliverable.2).stream 0
      = [sampleMessage] :=
  have key := (undeliverable_dropped NewPubSub sampleMessage sampleMessage .nacked
    (Or.inl rfl)).2.2 rfl rfl rfl (by decide) rfl
  ⟨key.2.2.1, key.2.2.2.1, key.2.2.2.2.1, key.2.2.2.2.2.2⟩

/-- C21 fails on the code: `Subscribe` on an open pubsub writes the topic map while it holds the
mutex only for reading (`RLock`), so the write is not made under the exclusive lock; `Close`
sets the closed flag under `Lock`, and `HandleUndeliverableActivity` appends to the activities
under `Lock`. -/
theorem Subscribe_writes_map_under_read_lock :
    NewPubSub.SubscribeOps = [.Read .Err, .RLock, .Read .closed, .Write .MsgChan, .RUnlock] ∧
    writesExclusive [.MsgChan, .closed, .activities] .not NewPubSub.SubscribeOps = false ∧
    (∀ m : MockPubSub, m.Err = none → m.closed = false →
      writesExclusive [.MsgChan, .closed, .activities] .not m.SubscribeOps = false) ∧
    (∀ m : MockPubSub,
      writesExclusive [.MsgChan, .closed, .activities] .not m.CloseOps = true) ∧
    writesExclusive [.MsgChan, .closed, .activities] .not
      UndeliverableHandler.HandleUndeliverableActivityOps = true := by
  refine ⟨rfl, by decide, ?_, ?_, by decide⟩
  · intro m hErr hOpen
    simp only [MockPubSub.SubscribeOps, hErr, hOpen]
    decide
  · intro m
    unfold MockPubSub.CloseOps
    cases m.Err
    · decide
    · dsimp only
      decide

/-! ## Theorems: the local URL of a Sidetree endpoint -/

theorem Index_nil (sub : Bytes) (hsub : sub ≠ []) : strings.Index [] sub = none := by
  cases sub with
  | nil => exact absurd rfl hsub
  | cons a as => simp [strings.Index, List.isPrefixOf]

theorem Index_cons_none (c : Nat) (t sub : Bytes) :
    strings.Index (c :: t) sub = none ↔
      sub.isPrefixOf (c :: t) = false ∧ strings.Index t sub = none := by
  simp only [strings.Index]
  by_cases hp : sub.isPrefixOf (c :: t) = true
  · simp [hp]
  · simp [hp]

theorem isPrefixOf_append_self : ∀ l r : Bytes, l.isPrefixOf (l ++ r) = true := by
  intro l
  induction l with
  | nil => intro r; simp [List.isPrefixOf]
  | cons a l ih => intro r; simp [List.isPrefixOf, ih]

theorem isPrefixOf_eq_append : ∀ sub s : Bytes, sub.isPrefixOf s = true →
    s = sub ++ s.drop sub.length := by
  intro sub
  induction sub with
  | nil => intro s _; simp
  | cons a sub ih =>
    intro s hp
    cases s with
    | nil => simp [List.isPrefixOf] at hp
    | cons c t =>
      simp only [List.isPrefixOf, Bool.and_eq_true, beq_iff_eq] at hp
      simp only [List.length_cons, List.drop_succ_cons, List.cons_append, List.cons.injEq]
      exact ⟨hp.1.symm, ih t hp.2⟩

theorem Index_at_start (s sub : Bytes) (hp : sub.isPrefixOf s = true) :
    strings.Index s sub = some 0 := by
  cases s with
  | nil => simp [strings.Index, hp]
  | cons c t => simp [strings.Index, hp]

theorem Index_eq_some (sub : Bytes) : ∀ (s : Bytes) (j : Nat), strings.Index s sub = some j →
    s = s.take j ++ sub ++ s.drop (j + sub.length) := by
  intro s
  induction s with
  | nil =>
    intro j hj
    simp only [strings.Index] at hj
    split at hj
    · rename_i hp
      have : sub = [] := by
        cases sub with
        | nil => rfl
        | cons a as => simp [List.isPrefixOf] at hp
      subst this
      simp
    · cases hj
  | cons c t ih =>
    intro j hj
    simp only [strings.Index] at hj
    split at hj
    · rename_i hp
      cases hj
      simpa using isPrefixOf_eq_append sub (c :: t) hp
    · rcases hI : strings.Index t sub with _ | k
      · rw [hI] at hj; cases hj
      · rw [hI] at hj
        simp only [Option.map_some', Option.some.injEq] at hj
        subst hj
        have := ih k hI
        simp only [List.take_succ_cons, List.cons_append, List.cons.injEq, true_and]
        rw [show k + 1 + sub.length = (k + sub.length) + 1 by omega, List.drop_succ_cons]
        exact this

theorem Index_drop_none (sub : Bytes) : ∀ (k : Nat) (s : Bytes), strings.Index s sub = none →
    strings.Index (s.drop k) sub = none := by
  intro k
  induction k with
  | zero => intro s hs; simpa using hs
  | succ k ih =>
    intro s hs
    cases s with
    | nil => simpa using hs
    | cons c t =>
      rw [List.drop_succ_cons]
      exact ih t ((Index_cons_none c t sub).mp hs).2

theorem isPrefixOf_before (h : Nat) : ∀ (w X P Z : Bytes), h ∉ w →
    w.isPrefixOf (X ++ h :: P) = true → w.isPrefixOf (X ++ Z) = true := by
  intro w
  induction w with
  | nil => intro X P Z _ _; simp [List.isPrefixOf]
  | cons c w ih =>
    intro X P Z hw hp
    cases X with
    | nil =>
      simp only [List.nil_append, List.isPrefixOf, Bool.and_eq_true, beq_iff_eq] at hp
      exact absurd hp.1 (by intro hc; exact hw (by simp [hc]))
    | cons x X =>
      simp only [List.cons_append, List.isPrefixOf, Bool.and_eq_true, beq_iff_eq] at hp ⊢
      exact ⟨hp.1, ih X P Z (fun hm => hw (List.mem_cons_of_mem _ hm)) hp.2⟩

theorem Index_none_splice (h : Nat) (sep : Bytes) (hsep : h ∉ sep) (E L : Bytes) :
    ∀ A : Bytes, strings.Index (A ++ h :: E) sep = none → strings.Index (h :: L) sep = none →
      strings.Index (A ++ h :: L) sep = none := by
  intro A
  induction A with
  | nil => intro _ hL; simpa using hL
  | cons a A ih =>
    intro hE hL
    rw [List.cons_append, Index_cons_none] at hE ⊢
    refine ⟨?_, ih hE.2 hL⟩
    rcases hb : sep.isPrefixOf (a :: (A ++ h :: L)) with _ | _
    · rfl
    · have := isPrefixOf_before h sep (a :: A) L (h :: E) hsep hb
      rw [List.cons_append, hE.1] at this
      cases this

theorem Index_skip (h : Nat) (ext rest : Bytes) : ∀ p : Bytes, h ∉ p →
    strings.Index (p ++ rest) (h :: ext)
      = (strings.Index rest (h :: ext)).map (· + p.length) := by
  intro p
  induction p with
  | nil => intro _; simp
  | cons c p ih =>
    intro hp
    have hc : (h == c) = false := by
      simp only [beq_eq_false_iff_ne, ne_eq]
      intro hc
      exact hp (by simp [hc])
    rw [List.cons_append]
    simp only [strings.Index, List.isPrefixOf, hc, Bool.false_and,
      Bool.false_eq_true, if_false]
    rw [ih (fun hm => hp (List.mem_cons_of_mem _ hm))]
    cases strings.Index rest (h :: ext) <;> simp [Nat.add_assoc]

theorem replaceLoop_skip (h : Nat) (ext loc : Bytes) (p : Bytes) (hp : h ∉ p) :
    ∀ (n : Nat) (rest : Bytes), strings.replaceLoop (h :: ext) loc n (p ++ rest)
      = p ++ strings.replaceLoop (h :: ext) loc n rest := by
  intro n
  cases n with
  | zero => intro rest; rfl
  | succ n =>
    intro rest
    simp only [strings.replaceLoop]
    rw [Index_skip h ext rest p hp]
    rcases strings.Index rest (h :: ext) with _ | j
    · rfl
    · simp only [Option.map_some']
      rw [show j + p.length = p.length + j by omega, List.take_append,
        show p.length + j + (h :: ext).length = p.length + (j + (h :: ext).length) by omega,
        List.drop_append]
      simp [List.append_assoc]

theorem replaceLoop_keeps_none (h : Nat) (ext loc sep : Bytes) (hsep : h ∉ sep)
    (hloc : ∀ Y, strings.Index Y sep = none → strings.Index (h :: loc ++ Y) sep = none) :
    ∀ (n : Nat) (s : Bytes), strings.Index s sep = none →
      strings.Index (strings.replaceLoop (h :: ext) (h :: loc) n s) sep = none := by
  intro n
  induction n with
  | zero => intro s hs; exact hs
  | succ n ih =>
    intro s hs
    simp only [strings.replaceLoop]
    rcases hI : strings.Index s (h :: ext) with _ | j
    · exact hs
    · dsimp only
      have hshape := Index_eq_some (h :: ext) s j hI
      have hrest := ih _ (Index_drop_none sep (j + (h :: ext).length) s hs)
      rw [hshape] at hs
      have := Index_none_splice h sep hsep (ext ++ List.drop (j + (h :: ext).length) s)
        (loc ++ strings.replaceLoop (h :: ext) (h :: loc) n (List.drop (j + (h :: ext).length) s))
        (s.take j) (by simpa [List.append_assoc] using hs) (by simpa using hloc _ hrest)
      simpa [List.append_assoc] using this

theorem genSplit_length_pos (sep : Bytes) (n : Nat) (s : Bytes) :
    1 ≤ (strings.genSplit sep n s).length := by
  cases n with
  | zero => simp [strings.genSplit]
  | succ n =>
    simp only [strings.genSplit]
    split <;> simp

theorem genSplit_of_none (sep : Bytes) (n : Nat) (s : Bytes) (hs : strings.Index s sep = none) :
    strings.genSplit sep n s = [s] := by
  cases n with
  | zero => rfl
  | succ n => simp [strings.genSplit, hs]

theorem genSplit_single (sep : Bytes) (hsep : sep ≠ []) (n : Nat) (s : Bytes)
    (hlen : (strings.genSplit sep n s).length = 1) (hn : s.length ≤ n) :
    strings.Index s sep = none := by
  cases n with
  | zero =>
    have : s = [] := List.length_eq_zero.mp (by omega)
    subst this
    exact Index_nil sep hsep
  | succ n =>
    simp only [strings.genSplit] at hlen
    split at hlen
    · assumption
    · have := genSplit_length_pos sep n (List.drop (‹Nat› + sep.length) s)
      simp only [List.length_cons] at hlen
      omega


theorem genSplit_enough (sep : Bytes) : ∀ (n m : Nat) (s : Bytes), s.length ≤ n →
    s.length ≤ m → sep ≠ [] → strings.genSplit sep n s = strings.genSplit sep m s := by
  intro n
  induction n with
  | zero =>
    intro m s hn _ hsep
    have : s = [] := List.length_eq_zero.mp (by omega)
    subst this
    cases m with
    | zero => rfl
    | succ m => simp [strings.genSplit, Index_nil sep hsep]
  | succ n ih =>
    intro m s hn hm hsep
    have hpos : 0 < sep.length := List.length_pos.mpr hsep
    cases m with
    | zero =>
      have : s = [] := List.length_eq_zero.mp (by omega)
      subst this
      simp [strings.genSplit, Index_nil sep hsep]
    | succ m =>
      simp only [strings.genSplit]
      rcases strings.Index s sep with _ | j
      · rfl
      · dsimp only
        rw [ih m _ (by rw [List.length_drop]; omega) (by rw [List.length_drop]; omega) hsep]

theorem replaceLoop_enough (old new : Bytes) : ∀ (n m : Nat) (s : Bytes), s.length ≤ n →
    s.length ≤ m → old ≠ [] →
    strings.replaceLoop old new n s = strings.replaceLoop old new m s := by
  intro n
  induction n with
  | zero =>
    intro m s hn _ hold
    have : s = [] := List.length_eq_zero.mp (by omega)
    subst this
    cases m with
    | zero => rfl
    | succ m => simp [strings.replaceLoop, Index_nil old hold]
  | succ n ih =>
    intro m s hn hm hold
    have hpos : 0 < old.length := List.length_pos.mpr hold
    cases m with
    | zero =>
      have : s = [] := List.length_eq_zero.mp (by omega)
      subst this
      simp [strings.replaceLoop, Index_nil old hold]
    | succ m =>
      simp only [strings.replaceLoop]
      rcases strings.Index s old with _ | j
      · rfl
      · dsimp only
        rw [ih m _ (by rw [List.length_drop]; omega) (by rw [List.length_drop]; omega) hold]

theorem genSplit_two (sep : Bytes) (hsep : sep ≠ []) (n : Nat) (u : Bytes) (hn : u.length ≤ n)
    (hlen : (strings.genSplit sep n u).length = 2) :
    ∃ rest, u = (strings.genSplit sep n u).headD [] ++ (sep ++ rest) ∧
      strings.Index rest sep = none := by
  cases n with
  | zero => simp [strings.genSplit] at hlen
  | succ n =>
    simp only [strings.genSplit] at hlen ⊢
    rcases hI : strings.Index u sep with _ | m
    · simp [hI] at hlen
    · simp only [hI, List.length_cons, Nat.add_right_cancel_iff] at hlen
      have hpos : 0 < sep.length := List.length_pos.mpr hsep
      have hrest := genSplit_single sep hsep n (u.drop (m + sep.length)) (by omega)
        (by rw [List.length_drop]; omega)
      refine ⟨u.drop (m + sep.length), ?_, hrest⟩
      have := Index_eq_some sep u m hI
      simpa [List.append_assoc] using this

theorem lookup_mem (l : List (Bytes × Bytes)) (a b : Bytes) (h : l.lookup a = some b) :
    (a, b) ∈ l := by
  induction l with
  | nil => simp at h
  | cons e es ih =>
    rcases e with ⟨k, v⟩
    simp only [List.lookup] at h
    split at h
    · rename_i hk
      have hk1 : a = k := by simpa using hk
      cases h
      simp [hk1]
    · exact List.mem_cons_of_mem _ (ih h)

theorem goString_sep : goString "/sidetree/v1/" = [47, 115, 105, 100, 101, 116, 114, 101, 101, 47, 118, 49, 47] := by decide

theorem Index_local_none (d : Nat) (hd : d ≠ 47) (Y : Bytes)
    (hY : strings.Index Y (goString "/sidetree/v1/") = none) :
    strings.Index (104 :: [116, 116, 112, 115, 58, 47, 47, 108, 111, 99, 97, 108, 104, 111, 115, 116, 58, 52, 56, d, 50, 54] ++ Y) (goString "/sidetree/v1/") = none := by
  have hd1 : ¬ 47 = d := fun h => hd h.symm
  rw [goString_sep] at hY ⊢
  simp [strings.Index, List.isPrefixOf, hY, hd1]

theorem Index_local_some (d : Nat) (hd : d ≠ 47) (Y : Bytes) :
    strings.Index (104 :: [116, 116, 112, 115, 58, 47, 47, 108, 111, 99, 97, 108, 104, 111, 115, 116, 58, 52, 56, d, 50, 54] ++ (goString "/sidetree/v1/" ++ Y)) (goString "/sidetree/v1/")
      = some 23 := by
  have hd1 : ¬ 47 = d := fun h => hd h.symm
  rw [goString_sep]
  simp [strings.Index, List.isPrefixOf, hd1]

theorem Contains_local (d : Nat) :
    strings.Contains (104 :: [116, 116, 112, 115, 58, 47, 47, 108, 111, 99, 97, 108, 104, 111, 115, 116, 58, 52, 56, d, 50, 54]) (goString "localhost") = true := by
  rw [show goString "localhost" = [108, 111, 99, 97, 108, 104, 111, 115, 116] by decide]
  simp [strings.Contains, strings.Index, List.isPrefixOf]

theorem ReplaceAll_configured (ext loc rest : Bytes) (hne : ext ≠ loc)
    (hloc : ∀ Y, strings.Index Y (goString "/sidetree/v1/") = none →
      strings.Index (104 :: loc ++ Y) (goString "/sidetree/v1/") = none)
    (hrest : strings.Index rest (goString "/sidetree/v1/") = none) :
    ∃ Y, strings.ReplaceAll (104 :: ext ++ (goString "/sidetree/v1/" ++ rest)) (104 :: ext)
          (104 :: loc) = 104 :: loc ++ (goString "/sidetree/v1/" ++ Y) ∧
      strings.Index Y (goString "/sidetree/v1/") = none := by
  have hsep : (104 : Nat) ∉ goString "/sidetree/v1/" := by decide
  have hne1 : (104 :: ext) ≠ (104 :: loc) := fun h => hne (List.cons.inj h).2
  refine ⟨strings.replaceLoop (104 :: ext) (104 :: loc)
      (ext ++ (goString "/sidetree/v1/" ++ rest)).length rest, ?_,
    replaceLoop_keeps_none 104 ext loc _ hsep hloc _ rest hrest⟩
  have hpre : (104 :: ext).isPrefixOf (104 :: ext ++ (goString "/sidetree/v1/" ++ rest)) = true :=
    isPrefixOf_append_self _ _
  have hidx := Index_at_start _ _ hpre
  unfold strings.ReplaceAll
  rw [if_neg hne1]
  rw [show (104 :: ext ++ (goString "/sidetree/v1/" ++ rest)).length
      = (ext ++ (goString "/sidetree/v1/" ++ rest)).length + 1 by simp]
  simp only [strings.replaceLoop, hidx, List.take_zero, List.nil_append, Nat.zero_add]
  rw [List.drop_left, replaceLoop_skip 104 ext (104 :: loc) _ hsep]

theorem getLocalURL_of_local (loc Y : Bytes)
    (hidx : strings.Index (loc ++ (goString "/sidetree/v1/" ++ Y)) (goString "/sidetree/v1/")
      = some loc.length)
    (hY : strings.Index Y (goString "/sidetree/v1/") = none)
    (hlocal : strings.Contains loc (goString "localhost") = true) :
    getLocalURL (loc ++ (goString "/sidetree/v1/" ++ Y))
      = .ok (loc ++ (goString "/sidetree/v1/" ++ Y)) := by
  have hsplit : strings.Split (loc ++ (goString "/sidetree/v1/" ++ Y)) (goString "/sidetree/v1/")
      = [loc, Y] := by
    unfold strings.Split
    rw [show (loc ++ (goString "/sidetree/v1/" ++ Y)).length
        = (loc.length + 12 + Y.length) + 1 by simp [goString_sep]; omega]
    simp only [strings.genSplit, hidx, List.take_left]
    rw [← List.append_assoc, ← List.length_append, List.drop_left,
      genSplit_of_none _ _ _ hY]
  simp [getLocalURL, hsplit, hlocal]

theorem getLocalURL_configured (ext : Bytes) (d : Nat) (hd : d ≠ 47) (rest : Bytes)
    (hne : ext ≠ [116, 116, 112, 115, 58, 47, 47, 108, 111, 99, 97, 108, 104, 111, 115, 116, 58, 52, 56, d, 50, 54])
    (hrest : strings.Index rest (goString "/sidetree/v1/") = none) :
    getLocalURL (strings.ReplaceAll (104 :: ext ++ (goString "/sidetree/v1/" ++ rest))
        (104 :: ext) (104 :: [116, 116, 112, 115, 58, 47, 47, 108, 111, 99, 97, 108, 104, 111, 115, 116, 58, 52, 56, d, 50, 54]))
      = .ok (strings.ReplaceAll (104 :: ext ++ (goString "/sidetree/v1/" ++ rest))
        (104 :: ext) (104 :: [116, 116, 112, 115, 58, 47, 47, 108, 111, 99, 97, 108, 104, 111, 115, 116, 58, 52, 56, d, 50, 54])) := by
  obtain ⟨Y, hshape, hY⟩ := ReplaceAll_configured ext [116, 116, 112, 115, 58, 47, 47, 108, 111, 99, 97, 108, 104, 111, 115, 116, 58, 52, 56, d, 50, 54] rest hne
    (fun Y hY => Index_local_none d hd Y hY) hrest
  rw [hshape]
  exact getLocalURL_of_local (104 :: [116, 116, 112, 115, 58, 47, 47, 108, 111, 99, 97, 108, 104, 111, 115, 116, 58, 52, 56, d, 50, 54]) Y (by simpa using Index_local_some d hd Y) hY
    (Contains_local d)

/-- C29: `getLocalURL` returns a URL exactly when the URL splits on `/sidetree/v1/` into two
parts and the first part contains `localhost` or is a key of `localURLs` (it returns an error
otherwise); and whenever it returns a URL `r`, `getLocalURL` applied to `r` returns `r`
again. -/
theorem getLocalURL_idempotent (url : Bytes) :
    ((∃ r, getLocalURL url = .ok r) ↔
      (strings.Split url (goString "/sidetree/v1/")).length = 2 ∧
      (strings.Contains ((strings.Split url (goString "/sidetree/v1/")).headD [])
          (goString "localhost") = true ∨
        ∃ localURL,
          localURLs.lookup ((strings.Split url (goString "/sidetree/v1/")).headD [])
            = some localURL)) ∧
    (∀ r, getLocalURL url = .ok r → getLocalURL r = .ok r) := by
  have hdef : getLocalURL url
      = if (strings.Split url (goString "/sidetree/v1/")).length ≠ 2 then
          .error (.msg ("wrong format of Sidetree URL: " ++ url.text))
        else if strings.Contains ((strings.Split url (goString "/sidetree/v1/")).headD [])
            (goString "localhost") then .ok url
        else
          match localURLs.lookup ((strings.Split url (goString "/sidetree/v1/")).headD []) with
          | none => .error (.msg ("server URL not configured for: " ++ url.text))
          | some localURL =>
            .ok (strings.ReplaceAll url
              ((strings.Split url (goString "/sidetree/v1/")).headD []) localURL) := rfl
  have hshape : (strings.Split url (goString "/sidetree/v1/")).length = 2 →
      ∃ rest, url = (strings.Split url (goString "/sidetree/v1/")).headD []
          ++ (goString "/sidetree/v1/" ++ rest) ∧
        strings.Index rest (goString "/sidetree/v1/") = none :=
    genSplit_two (goString "/sidetree/v1/") (by decide) url.length url (Nat.le_refl _)
  generalize (strings.Split url (goString "/sidetree/v1/")).headD [] = ext at hdef hshape
  generalize (strings.Split url (goString "/sidetree/v1/")).length = len at hdef hshape
  constructor
  · rw [hdef]
    by_cases hlen : len = 2
    · by_cases hc : strings.Contains ext (goString "localhost") = true
      · simp [hlen, hc]
      · rcases hl : localURLs.lookup ext with _ | localURL
        · simp [hlen, hc, hl]
        · simp [hlen, hc, hl]
    · simp [hlen]
  · intro r hr
    have hr0 := hr
    rw [hdef] at hr
    by_cases hlen : len = 2
    · by_cases hc : strings.Contains ext (goString "localhost") = true
      · simp only [hlen, hc, ne_eq, not_true_eq_false, if_false, if_true,
          Except.ok.injEq] at hr
        subst hr
        exact hr0
      · rcases hl : localURLs.lookup ext with _ | localURL
        · simp [hlen, hc, hl] at hr
        · simp only [hlen, hc, hl, ne_eq, not_true_eq_false, if_false, Bool.false_eq_true,
            Except.ok.injEq] at hr
          subst hr
          obtain ⟨rest, hurl, hrest⟩ := hshape hlen
          have hmem := lookup_mem _ _ _ hl
          rw [hurl]
          simp only [localURLs, List.mem_cons, Prod.mk.injEq, List.mem_singleton,
            List.not_mem_nil, or_false] at hmem
          rcases hmem with ⟨he, hv⟩ | ⟨he, hv⟩ | ⟨he, hv⟩ | ⟨he, hv⟩
          · rw [he, hv, show goString "https://orb.domain1.com" = 104 :: [116, 116, 112, 115, 58, 47, 47, 111, 114, 98, 46, 100, 111, 109, 97, 105, 110, 49, 46, 99, 111, 109] by decide,
              show goString "https://localhost:48326" = 104 :: [116, 116, 112, 115, 58, 47, 47, 108, 111, 99, 97, 108, 104, 111, 115, 116, 58, 52, 56, 51, 50, 54] by decide]
            exact getLocalURL_configured _ 51 (by decide) rest (by decide) hrest
          · rw [he, hv, show goString "https://orb2.domain1.com" = 104 :: [116, 116, 112, 115, 58, 47, 47, 111, 114, 98, 50, 46, 100, 111, 109, 97, 105, 110, 49, 46, 99, 111, 109] by decide,
              show goString "https://localhost:48526" = 104 :: [116, 116, 112, 115, 58, 47, 47, 108, 111, 99, 97, 108, 104, 111, 115, 116, 58, 52, 56, 53, 50, 54] by decide]
            exact getLocalURL_configured _ 53 (by decide) rest (by decide) hrest
          · rw [he, hv, show goString "https://orb.domain2.com" = 104 :: [116, 116, 112, 115, 58, 47, 47, 111, 114, 98, 46, 100, 111, 109, 97, 105, 110, 50, 46, 99, 111, 109] by decide,
              show goString "https://localhost:48426" = 104 :: [116, 116, 112, 115, 58, 47, 47, 108, 111, 99, 97, 108, 104, 111, 115, 116, 58, 52, 56, 52, 50, 54] by decide]
            exact getLocalURL_configured _ 52 (by decide) rest (by decide) hrest
          · rw [he, hv, show goString "https://orb.domain3.com" = 104 :: [116, 116, 112, 115, 58, 47, 47, 111, 114, 98, 46, 100, 111, 109, 97, 105, 110, 51, 46, 99, 111, 109] by decide,
              show goString "https://localhost:48626" = 104 :: [116, 116, 112, 115, 58, 47, 47, 108, 111, 99, 97, 108, 104, 111, 115, 116, 58, 52, 56, 54, 50, 54] by decide]
            exact getLocalURL_configured _ 54 (by decide) rest (by decide) hrest
    · simp [hlen] at hr

/-- C29 at concrete inputs: an external URL is rewritten to its local URL, which is then left
as it is. -/
theorem getLocalURL_idempotent_witness :
    getLocalURL (goString "https://orb.domain1.com/sidetree/v1/identifiers")
      = .ok (goString "https://localhost:48326/sidetree/v1/identifiers") ∧
    getLocalURL (goString "https://localhost:48326/sidetree/v1/identifiers")
      = .ok (goString "https://localhost:48326/sidetree/v1/identifiers") :=
  ⟨rfl, (getLocalURL_idempotent (goString "https://orb.domain1.com/sidetree/v1/identifiers")).2
    _ rfl⟩

end Orb
